import Mathlib

/-! # Game chaincode: asset, commodity, trade and redemption contracts

A shallow embedding of `src/chaincode` (models, key layout and the four
contracts) and of the charity chaincode `src/charity/charity.go`, together with
the properties proved about them.

Modelling conventions.

* The chaincode stub is a finite key-value store (`Stub.State`, an association
  list with at most one binding per key in every state built by `PutState`) plus
  the list of events handed to `SetEvent`.  `GetState`, `PutState`, `SetEvent`
  and the timestamp accessor are the host platform's and are taken to succeed;
  the Go branches that only forward a failure of one of them have no counterpart.
* A contract function that writes is a function from the stub before the call to
  an `Outcome`: the Go `error` it returns and the stub as the call leaves it.
  Writes issued before an error is returned stay in that stub, exactly as they
  stay in the stub the Go function was handed; discarding the write set of a
  failed transaction is the host platform's business, not the function's.
  A read made after a write of the same call sees that write (the behaviour of
  the stub the repository's tests run against).
* A stored value is the record whose JSON encoding the Go code stored; reading a
  key that holds a record of another entity type is a decoding failure.
* Go `int` is the 64-bit two's-complement integer: `+=` and `-=` wrap
  (`wrapInt`).  Go `float64` balances, prices and rewards are read as exact
  rational numbers, except in `UpdateBalanceFloat` and `ExecuteTradeFloat`, which
  round every sum and difference to the nearest float64 (`roundFloat64`) as Go
  does; the two readings agree wherever the exact result is a float64.
* Error values are the message strings `fmt.Errorf` builds.
-/

namespace Chaincode

/-! ## Basic data (`models/models.go`) -/

/-- Go `time.Time`, identified with the instant it denotes: whole seconds since
the Unix epoch and nanoseconds within that second. -/
structure Time where
  sec : Int
  nsec : Int
deriving DecidableEq, Repr

/-- The zero value `time.Time{}`: January 1 of year 1, 00:00:00 UTC. -/
def zeroTime : Time := ⟨-62135596800, 0⟩

/-- Go `time.Unix(sec, nsec)`: nanoseconds outside `[0, 1e9)` carry into the seconds. -/
def timeUnix (sec nsec : Int) : Time := ⟨sec + nsec / 1000000000, nsec % 1000000000⟩

/-- The transaction context: what the contracts read from it besides the store
is the transaction timestamp (protobuf seconds and nanos). -/
structure Ctx where
  Seconds : Int
  Nanos : Int
deriving DecidableEq, Repr

/-- Go `int` arithmetic result reduced to the 64-bit two's-complement range. -/
def wrapInt (x : Int) : Int := (x + 9223372036854775808) % 18446744073709551616 - 9223372036854775808

/-- UserAsset represents a user's balance. -/
structure UserAsset where
  UserID : String
  Balance : ℚ
  UpdatedAt : Time
deriving DecidableEq, Repr

/-- Inventory represents user's commodity holdings. -/
structure Inventory where
  UserID : String
  CommodityID : String
  Quantity : Int
  UpdatedAt : Time
deriving DecidableEq, Repr

/-- Trade represents a trade transaction. -/
structure Trade where
  TradeID : String
  FromUserID : String
  ToUserID : String
  CommodityID : String
  Quantity : Int
  Price : ℚ
  Action : String
  Status : String
  CreatedAt : Time
  CompletedAt : Time
deriving DecidableEq, Repr

mutual
/-- A JSON value as `encoding/json` decodes it into `interface{}`. -/
inductive JsonValue where
  | null
  | bool (b : Bool)
  | number (q : ℚ)
  | string (s : String)
  | array (items : JsonList)
  | object (fields : JsonFields)
/-- The elements of a JSON array. -/
inductive JsonList where
  | nil
  | cons (head : JsonValue) (tail : JsonList)
/-- The members of a JSON object (Go `map[string]interface{}`); `nil` is both
the nil map and the empty map, which `omitempty` stores alike. -/
inductive JsonFields where
  | nil
  | cons (key : String) (value : JsonValue) (tail : JsonFields)
end

deriving instance DecidableEq for JsonValue
deriving instance DecidableEq for JsonList
deriving instance DecidableEq for JsonFields

/-- Commodity represents a game commodity/item. -/
structure Commodity where
  CommodityID : String
  Name : String
  Metadata : JsonFields
  CreatedAt : Time
deriving DecidableEq

/-- RequiredItem represents an item required for redemption. -/
structure RequiredItem where
  CommodityID : String
  Quantity : Int
deriving DecidableEq, Repr

/-- RedemptionRule represents the redemption rule for a user. -/
structure RedemptionRule where
  RuleID : String
  UserID : String
  RequiredItems : List RequiredItem
  RewardAmount : ℚ
  CreatedAt : Time
deriving DecidableEq, Repr

/-- RedemptionRecord represents a redemption transaction. -/
structure RedemptionRecord where
  RecordID : String
  UserID : String
  RuleID : String
  RewardAmount : ℚ
  ConsumedItems : List RequiredItem
  Timestamp : Time
deriving DecidableEq, Repr

/-! ## The stub: world state and events -/

/-- A stored value: the record whose JSON encoding sits under a key. -/
inductive Entry where
  | userAsset (a : UserAsset)
  | inventory (i : Inventory)
  | commodity (c : Commodity)
  | trade (t : Trade)
  | redemptionRule (r : RedemptionRule)
  | redemptionRecord (r : RedemptionRecord)
deriving DecidableEq

/-- The payload of an emitted event (the Go `map[string]interface{}` literal). -/
inductive EventPayload where
  | tradeExecuted (tradeId fromUserId toUserId commodityId : String) (quantity : Int)
      (price : ℚ) (timestamp : Time)
  | redemptionExecuted (recordId userId ruleId : String) (rewardAmount : ℚ) (timestamp : Time)
deriving DecidableEq

/-- An event handed to `SetEvent`. -/
structure Event where
  Name : String
  Payload : EventPayload
deriving DecidableEq

/-- The chaincode stub: the key-value state and the events set so far. -/
structure Stub where
  State : List (String × Entry)
  Events : List Event
deriving DecidableEq

/-- The empty ledger. -/
def emptyStub : Stub := ⟨[], []⟩

/-- Lookup in the association list. -/
def lookupKey (key : String) : List (String × Entry) → Option Entry
  | [] => none
  | (k, v) :: rest => if k = key then some v else lookupKey key rest

/-- Insert or replace the binding of `key`. -/
def insertKey (key : String) (value : Entry) : List (String × Entry) → List (String × Entry)
  | [] => [(key, value)]
  | (k, v) :: rest => if k = key then (key, value) :: rest else (k, v) :: insertKey key value rest

/-- The stub's `GetState`: `none` is the Go `nil` value of an absent key. -/
def Stub.GetState (s : Stub) (key : String) : Option Entry := lookupKey key s.State

/-- The stub's `PutState`. -/
def Stub.PutState (s : Stub) (key : String) (value : Entry) : Stub :=
  { s with State := insertKey key value s.State }

/-- The stub's `SetEvent`. -/
def Stub.SetEvent (s : Stub) (name : String) (payload : EventPayload) : Stub :=
  { s with Events := s.Events ++ [⟨name, payload⟩] }

/-- What a writing contract function leaves behind: the Go `error` it returns
(`none` is `nil`) and the stub after the call. -/
structure Outcome where
  err : Option String
  stub : Stub
deriving DecidableEq

/-! ## Key layout (`utils/keys.go`) -/

def UserAssetPrefix : String := "user_asset_"
def InventoryPrefix : String := "inventory_"
def TradePrefix : String := "trade_"
def CommodityPrefix : String := "commodity_"
def RedemptionRulePrefix : String := "redemption_rule_"
def RedemptionRecordPrefix : String := "redemption_record_"

/-- GetUserAssetKey returns the key for a user's asset. -/
def GetUserAssetKey (userID : String) : String := UserAssetPrefix ++ userID

/-- GetInventoryKey returns the key for a user's inventory item. -/
def GetInventoryKey (userID commodityID : String) : String :=
  InventoryPrefix ++ userID ++ "_" ++ commodityID

/-- GetTradeKey returns the key for a trade. -/
def GetTradeKey (tradeID : String) : String := TradePrefix ++ tradeID

/-- GetCommodityKey returns the key for a commodity. -/
def GetCommodityKey (commodityID : String) : String := CommodityPrefix ++ commodityID

/-- GetRedemptionRuleKey returns the key for a redemption rule. -/
def GetRedemptionRuleKey (userID : String) : String := RedemptionRulePrefix ++ userID

/-- GetRedemptionRecordKey returns the key for a redemption record. -/
def GetRedemptionRecordKey (recordID : String) : String := RedemptionRecordPrefix ++ recordID

/-- GetTxTimestamp returns the deterministic transaction timestamp. -/
def GetTxTimestamp (ctx : Ctx) : Time := timeUnix ctx.Seconds ctx.Nanos

/-- The text of the `encoding/json` error for a value of the wrong shape. -/
def unmarshalError : String := "json: cannot unmarshal value into Go struct"

/-! ## Asset contract (`contracts/asset_contract.go`) -/

/-- GetUserAssets retrieves a user's asset information. -/
def GetUserAssets (_ctx : Ctx) (s : Stub) (userID : String) : Except String UserAsset :=
  match s.GetState (GetUserAssetKey userID) with
  | none => .error ("user asset not found for user " ++ userID)
  | some (.userAsset userAsset) => .ok userAsset
  | some _ => .error ("failed to unmarshal user asset: " ++ unmarshalError)

/-- InitUser initializes a user's asset with an initial balance. -/
def InitUser (ctx : Ctx) (s : Stub) (userID : String) (initialBalance : ℚ) : Outcome :=
  match GetUserAssets ctx s userID with
  | .ok _ => ⟨some ("user " ++ userID ++ " already exists"), s⟩
  | .error _ =>
    let timestamp := GetTxTimestamp ctx
    let userAsset : UserAsset :=
      { UserID := userID, Balance := initialBalance, UpdatedAt := timestamp }
    ⟨none, s.PutState (GetUserAssetKey userID) (.userAsset userAsset)⟩

/-- GetInventory retrieves a user's inventory for a specific commodity. -/
def GetInventory (ctx : Ctx) (s : Stub) (userID commodityID : String) : Except String Inventory :=
  match s.GetState (GetInventoryKey userID commodityID) with
  | none =>
    .ok { UserID := userID, CommodityID := commodityID, Quantity := 0,
          UpdatedAt := GetTxTimestamp ctx }
  | some (.inventory inventory) => .ok inventory
  | some _ => .error ("failed to unmarshal inventory: " ++ unmarshalError)

/-- UpdateBalance updates a user's balance. -/
def UpdateBalance (ctx : Ctx) (s : Stub) (userID : String) (amount : ℚ) (operation : String) :
    Outcome :=
  match GetUserAssets ctx s userID with
  | .error e => ⟨some e, s⟩
  | .ok userAsset =>
    if operation = "add" then
      ⟨none, s.PutState (GetUserAssetKey userID)
        (.userAsset { userAsset with Balance := userAsset.Balance + amount,
                                     UpdatedAt := GetTxTimestamp ctx })⟩
    else if operation = "subtract" then
      if userAsset.Balance < amount then
        ⟨some ("insufficient balance for user " ++ userID), s⟩
      else
        ⟨none, s.PutState (GetUserAssetKey userID)
          (.userAsset { userAsset with Balance := userAsset.Balance - amount,
                                       UpdatedAt := GetTxTimestamp ctx })⟩
    else
      ⟨some ("invalid operation: " ++ operation), s⟩

/-- UpdateInventory updates a user's inventory. -/
def UpdateInventory (ctx : Ctx) (s : Stub) (userID commodityID : String) (quantity : Int)
    (operation : String) : Outcome :=
  match GetInventory ctx s userID commodityID with
  | .error e => ⟨some e, s⟩
  | .ok inventory =>
    if operation = "add" then
      ⟨none, s.PutState (GetInventoryKey userID commodityID)
        (.inventory { inventory with Quantity := wrapInt (inventory.Quantity + quantity),
                                     UpdatedAt := GetTxTimestamp ctx })⟩
    else if operation = "subtract" then
      if inventory.Quantity < quantity then
        ⟨some ("insufficient inventory for user " ++ userID ++ ", commodity " ++ commodityID), s⟩
      else
        ⟨none, s.PutState (GetInventoryKey userID commodityID)
          (.inventory { inventory with Quantity := wrapInt (inventory.Quantity - quantity),
                                       UpdatedAt := GetTxTimestamp ctx })⟩
    else
      ⟨some ("invalid operation: " ++ operation), s⟩

/-! ## Range scans -/

/-- The bytes of a key (Go strings are byte strings; keys compare bytewise). -/
def keyBytes (key : String) : List UInt8 := key.toUTF8.data.toList

/-- Lexicographic byte order, strict. -/
def bytesLt : List UInt8 → List UInt8 → Bool
  | _, [] => false
  | [], _ :: _ => true
  | a :: as, b :: bs => if a < b then true else if b < a then false else bytesLt as bs

/-- Strict key order of the ledger. -/
def keyLt (a b : String) : Bool := bytesLt (keyBytes a) (keyBytes b)

/-- The stub's `GetStateByRange`: the bindings with `startKey ≤ key < endKey`, in key order. -/
def Stub.GetStateByRange (s : Stub) (startKey endKey : String) : List (String × Entry) :=
  (s.State.filter fun kv => !keyLt kv.1 startKey && keyLt kv.1 endKey).insertionSort
    (fun a b => keyLt b.1 a.1 = false)

/-- The loop of GetAllInventory over the iterator. -/
def collectInventory : List (String × Entry) → Except String (List Inventory)
  | [] => .ok []
  | (_, .inventory inventory) :: rest =>
    match collectInventory rest with
    | .error e => .error e
    | .ok inventories =>
      if inventory.Quantity > 0 then .ok (inventory :: inventories) else .ok inventories
  | _ :: _ => .error ("failed to unmarshal inventory: " ++ unmarshalError)

/-- GetAllInventory retrieves all inventory items for a user. -/
def GetAllInventory (_ctx : Ctx) (s : Stub) (userID : String) : Except String (List Inventory) :=
  let startKey := InventoryPrefix ++ userID ++ "_"
  let endKey := InventoryPrefix ++ userID ++ "_\uFFFF"
  collectInventory (s.GetStateByRange startKey endKey)

/-! ## Commodity contract (`contracts/commodity_contract.go`) -/

/-- The two `json.Unmarshal` calls on caller-supplied text, as the `encoding/json`
package performs them: the result or the error text. -/
structure Codec where
  unmarshalMetadata : String → Except String JsonFields
  unmarshalRequiredItems : String → Except String (List RequiredItem)

/-- GetCommodity retrieves a commodity by ID. -/
def GetCommodity (_ctx : Ctx) (s : Stub) (commodityID : String) : Except String Commodity :=
  match s.GetState (GetCommodityKey commodityID) with
  | none => .error ("commodity not found: " ++ commodityID)
  | some (.commodity commodity) => .ok commodity
  | some _ => .error ("failed to unmarshal commodity: " ++ unmarshalError)

/-- CreateCommodity creates a new commodity. -/
def CreateCommodity (codec : Codec) (ctx : Ctx) (s : Stub) (commodityID name : String)
    (metadataJSON : String) : Outcome :=
  match GetCommodity ctx s commodityID with
  | .ok _ => ⟨some ("commodity " ++ commodityID ++ " already exists"), s⟩
  | .error _ =>
    match (if metadataJSON ≠ "" then codec.unmarshalMetadata metadataJSON else .ok .nil) with
    | .error e => ⟨some ("failed to parse metadata: " ++ e), s⟩
    | .ok metadata =>
      let timestamp := GetTxTimestamp ctx
      let commodity : Commodity :=
        { CommodityID := commodityID, Name := name, Metadata := metadata, CreatedAt := timestamp }
      ⟨none, s.PutState (GetCommodityKey commodityID) (.commodity commodity)⟩

/-- The loop of GetAllCommodities over the iterator. -/
def collectCommodities : List (String × Entry) → Except String (List Commodity)
  | [] => .ok []
  | (_, .commodity commodity) :: rest =>
    match collectCommodities rest with
    | .error e => .error e
    | .ok commodities => .ok (commodity :: commodities)
  | _ :: _ => .error ("failed to unmarshal commodity: " ++ unmarshalError)

/-- GetAllCommodities retrieves all commodities. -/
def GetAllCommodities (_ctx : Ctx) (s : Stub) : Except String (List Commodity) :=
  collectCommodities (s.GetStateByRange CommodityPrefix (CommodityPrefix ++ "\uFFFF"))

/-- The default commodities of InitializeCommodities: id, name, metadata text. -/
def defaultCommodities : List (String × String × String) :=
  [ ("1", "Gold", "\x7b\"imageUrl\": \"/images/gold.png\"\x7d"),
    ("2", "Silver", "\x7b\"imageUrl\": \"/images/silver.png\"\x7d"),
    ("3", "Crude Oil", "\x7b\"imageUrl\": \"/images/oil.png\"\x7d"),
    ("4", "Natural Gas", "\x7b\"imageUrl\": \"/images/gas.png\"\x7d"),
    ("5", "Corn", "\x7b\"imageUrl\": \"/images/corn.png\"\x7d"),
    ("6", "Wheat", "\x7b\"imageUrl\": \"/images/wheat.png\"\x7d"),
    ("7", "Coffee", "\x7b\"imageUrl\": \"/images/coffee.png\"\x7d"),
    ("8", "Sugar", "\x7b\"imageUrl\": \"/images/sugar.png\"\x7d") ]

/-- The loop of InitializeCommodities: a failed create is skipped. -/
def createAll (codec : Codec) (ctx : Ctx) : List (String × String × String) → Stub → Stub
  | [], s => s
  | (id, name, metadata) :: rest, s =>
    createAll codec ctx rest (CreateCommodity codec ctx s id name metadata).stub

/-- InitializeCommodities initializes default commodities for the game. -/
def InitializeCommodities (codec : Codec) (ctx : Ctx) (s : Stub) : Outcome :=
  ⟨none, createAll codec ctx defaultCommodities s⟩

/-! ## Trade contract (`contracts/trade_contract.go`) -/

/-- GetTradeStatus retrieves the status of a trade. -/
def GetTradeStatus (_ctx : Ctx) (s : Stub) (tradeID : String) : Except String Trade :=
  match s.GetState (GetTradeKey tradeID) with
  | none => .error ("trade not found: " ++ tradeID)
  | some (.trade trade) => .ok trade
  | some _ => .error ("failed to unmarshal trade: " ++ unmarshalError)

/-- CreateTrade creates a new trade proposal. -/
def CreateTrade (ctx : Ctx) (s : Stub) (tradeID fromUserID toUserID commodityID : String)
    (quantity : Int) (price : ℚ) (action : String) : Outcome :=
  if action ≠ "buy" ∧ action ≠ "sell" then
    ⟨some ("invalid action: " ++ action ++ " (must be 'buy' or 'sell')"), s⟩
  else
    match GetTradeStatus ctx s tradeID with
    | .ok _ => ⟨some ("trade " ++ tradeID ++ " already exists"), s⟩
    | .error _ =>
      let sellerID := if action = "buy" then toUserID else fromUserID
      let buyerID := if action = "buy" then fromUserID else toUserID
      match GetInventory ctx s sellerID commodityID with
      | .error e => ⟨some ("failed to get seller inventory: " ++ e), s⟩
      | .ok inventory =>
        if inventory.Quantity < quantity then
          ⟨some "seller has insufficient inventory", s⟩
        else
          match GetUserAssets ctx s buyerID with
          | .error e => ⟨some ("failed to get buyer assets: " ++ e), s⟩
          | .ok buyerAsset =>
            if buyerAsset.Balance < price then
              ⟨some "buyer has insufficient balance", s⟩
            else
              let timestamp := GetTxTimestamp ctx
              let trade : Trade :=
                { TradeID := tradeID, FromUserID := fromUserID, ToUserID := toUserID,
                  CommodityID := commodityID, Quantity := quantity, Price := price,
                  Action := action, Status := "pending", CreatedAt := timestamp,
                  CompletedAt := zeroTime }
              ⟨none, s.PutState (GetTradeKey tradeID) (.trade trade)⟩

/-- ExecuteTrade executes a pending trade. -/
def ExecuteTrade (ctx : Ctx) (s : Stub) (tradeID : String) : Outcome :=
  match GetTradeStatus ctx s tradeID with
  | .error e => ⟨some e, s⟩
  | .ok trade =>
    if trade.Status ≠ "pending" then
      ⟨some ("trade is not pending (status: " ++ trade.Status ++ ")"), s⟩
    else
      let sellerID := if trade.Action = "buy" then trade.ToUserID else trade.FromUserID
      let buyerID := if trade.Action = "buy" then trade.FromUserID else trade.ToUserID
      match GetInventory ctx s sellerID trade.CommodityID with
      | .error e => ⟨some ("failed to get seller inventory: " ++ e), s⟩
      | .ok sellerInventory =>
        if sellerInventory.Quantity < trade.Quantity then
          ⟨some "seller has insufficient inventory", s⟩
        else
          match GetUserAssets ctx s buyerID with
          | .error e => ⟨some ("failed to get buyer assets: " ++ e), s⟩
          | .ok buyerAsset =>
            if buyerAsset.Balance < trade.Price then
              ⟨some "buyer has insufficient balance", s⟩
            else
              -- 1. Update seller inventory (subtract)
              let r1 := UpdateInventory ctx s sellerID trade.CommodityID trade.Quantity "subtract"
              match r1.err with
              | some e => ⟨some ("failed to update seller inventory: " ++ e), r1.stub⟩
              | none =>
                -- 2. Update buyer inventory (add)
                let r2 := UpdateInventory ctx r1.stub buyerID trade.CommodityID trade.Quantity "add"
                match r2.err with
                | some e => ⟨some ("failed to update buyer inventory: " ++ e), r2.stub⟩
                | none =>
                  -- 3. Update buyer balance (subtract)
                  let r3 := UpdateBalance ctx r2.stub buyerID trade.Price "subtract"
                  match r3.err with
                  | some e => ⟨some ("failed to update buyer balance: " ++ e), r3.stub⟩
                  | none =>
                    -- 4. Update seller balance (add)
                    let r4 := UpdateBalance ctx r3.stub sellerID trade.Price "add"
                    match r4.err with
                    | some e => ⟨some ("failed to update seller balance: " ++ e), r4.stub⟩
                    | none =>
                      -- 5. Update trade status
                      let timestamp := GetTxTimestamp ctx
                      let trade' : Trade :=
                        { trade with Status := "successful", CompletedAt := timestamp }
                      let s5 := r4.stub.PutState (GetTradeKey tradeID) (.trade trade')
                      -- 6. Emit event
                      ⟨none, s5.SetEvent "TradeExecuted"
                        (.tradeExecuted trade'.TradeID trade'.FromUserID trade'.ToUserID
                          trade'.CommodityID trade'.Quantity trade'.Price trade'.CompletedAt)⟩

/-- RejectTrade rejects a pending trade. -/
def RejectTrade (ctx : Ctx) (s : Stub) (tradeID : String) : Outcome :=
  match GetTradeStatus ctx s tradeID with
  | .error e => ⟨some e, s⟩
  | .ok trade =>
    if trade.Status ≠ "pending" then
      ⟨some ("trade is not pending (status: " ++ trade.Status ++ ")"), s⟩
    else
      let timestamp := GetTxTimestamp ctx
      ⟨none, s.PutState (GetTradeKey tradeID)
        (.trade { trade with Status := "rejected", CompletedAt := timestamp })⟩

/-- The loop of GetTradeHistory over the iterator. -/
def collectTrades (userID : String) : List (String × Entry) → Except String (List Trade)
  | [] => .ok []
  | (_, .trade trade) :: rest =>
    match collectTrades userID rest with
    | .error e => .error e
    | .ok trades =>
      if trade.FromUserID = userID ∨ trade.ToUserID = userID then .ok (trade :: trades)
      else .ok trades
  | _ :: _ => .error ("failed to unmarshal trade: " ++ unmarshalError)

/-- GetTradeHistory retrieves trade history for a user. -/
def GetTradeHistory (_ctx : Ctx) (s : Stub) (userID : String) : Except String (List Trade) :=
  collectTrades userID (s.GetStateByRange TradePrefix (TradePrefix ++ "\uFFFF"))

/-! ## Redemption contract (`contracts/redemption_contract.go`) -/

/-- GetRedemptionRule retrieves the redemption rule for a user. -/
def GetRedemptionRule (_ctx : Ctx) (s : Stub) (userID : String) : Except String RedemptionRule :=
  match s.GetState (GetRedemptionRuleKey userID) with
  | none => .error ("redemption rule not found for user " ++ userID)
  | some (.redemptionRule rule) => .ok rule
  | some _ => .error ("failed to unmarshal redemption rule: " ++ unmarshalError)

/-- CreateRedemptionRule creates a new redemption rule for a user. -/
def CreateRedemptionRule (codec : Codec) (ctx : Ctx) (s : Stub) (userID : String)
    (requiredItemsJSON : String) (rewardAmount : ℚ) : Outcome :=
  match codec.unmarshalRequiredItems requiredItemsJSON with
  | .error e => ⟨some ("failed to parse required items: " ++ e), s⟩
  | .ok requiredItems =>
    if requiredItems.length = 0 then
      ⟨some "required items cannot be empty", s⟩
    else if rewardAmount ≤ 0 then
      ⟨some "reward amount must be positive", s⟩
    else
      match GetRedemptionRule ctx s userID with
      | .ok _ => ⟨some ("redemption rule already exists for user " ++ userID), s⟩
      | .error _ =>
        let timestamp := GetTxTimestamp ctx
        let ruleID := "rule_" ++ userID
        let rule : RedemptionRule :=
          { RuleID := ruleID, UserID := userID, RequiredItems := requiredItems,
            RewardAmount := rewardAmount, CreatedAt := timestamp }
        ⟨none, s.PutState (GetRedemptionRuleKey userID) (.redemptionRule rule)⟩

/-- The first loop of ExecuteRedemption: verify the user has all required items;
the result is the error of the first item that fails, if any. -/
def verifyItems (ctx : Ctx) (s : Stub) (userID : String) : List RequiredItem → Option String
  | [] => none
  | item :: rest =>
    match GetInventory ctx s userID item.CommodityID with
    | .error e =>
      some ("failed to get inventory for commodity " ++ item.CommodityID ++ ": " ++ e)
    | .ok inventory =>
      if inventory.Quantity < item.Quantity then
        some ("insufficient inventory for commodity " ++ item.CommodityID ++ " (required: "
          ++ toString item.Quantity ++ ", available: " ++ toString inventory.Quantity ++ ")")
      else verifyItems ctx s userID rest

/-- The second loop of ExecuteRedemption: deduct the required items one by one,
stopping at the first deduction that fails. -/
def deductItems (ctx : Ctx) (userID : String) : List RequiredItem → Stub → Outcome
  | [], s => ⟨none, s⟩
  | item :: rest, s =>
    let r := UpdateInventory ctx s userID item.CommodityID item.Quantity "subtract"
    match r.err with
    | some e =>
      ⟨some ("failed to deduct inventory for commodity " ++ item.CommodityID ++ ": " ++ e), r.stub⟩
    | none => deductItems ctx userID rest r.stub

/-- ExecuteRedemption executes a redemption for a user. -/
def ExecuteRedemption (ctx : Ctx) (s : Stub) (userID recordID : String) : Outcome :=
  match GetRedemptionRule ctx s userID with
  | .error e => ⟨some ("failed to get redemption rule: " ++ e), s⟩
  | .ok rule =>
    match verifyItems ctx s userID rule.RequiredItems with
    | some e => ⟨some e, s⟩
    | none =>
      -- 1. Deduct required items from inventory
      let r1 := deductItems ctx userID rule.RequiredItems s
      match r1.err with
      | some e => ⟨some e, r1.stub⟩
      | none =>
        -- 2. Add reward to user balance
        let r2 := UpdateBalance ctx r1.stub userID rule.RewardAmount "add"
        match r2.err with
        | some e => ⟨some ("failed to add reward balance: " ++ e), r2.stub⟩
        | none =>
          let timestamp := GetTxTimestamp ctx
          -- 3. Record the redemption
          let record : RedemptionRecord :=
            { RecordID := recordID, UserID := userID, RuleID := rule.RuleID,
              RewardAmount := rule.RewardAmount, ConsumedItems := rule.RequiredItems,
              Timestamp := timestamp }
          let s3 := r2.stub.PutState (GetRedemptionRecordKey recordID) (.redemptionRecord record)
          -- 4. Emit event
          ⟨none, s3.SetEvent "RedemptionExecuted"
            (.redemptionExecuted record.RecordID record.UserID record.RuleID record.RewardAmount
              record.Timestamp)⟩

/-- The loop of GetRedemptionHistory over the iterator. -/
def collectRecords (userID : String) : List (String × Entry) → Except String (List RedemptionRecord)
  | [] => .ok []
  | (_, .redemptionRecord record) :: rest =>
    match collectRecords userID rest with
    | .error e => .error e
    | .ok records => if record.UserID = userID then .ok (record :: records) else .ok records
  | _ :: _ => .error ("failed to unmarshal redemption record: " ++ unmarshalError)

/-- GetRedemptionHistory retrieves redemption history for a user. -/
def GetRedemptionHistory (_ctx : Ctx) (s : Stub) (userID : String) :
    Except String (List RedemptionRecord) :=
  collectRecords userID
    (s.GetStateByRange RedemptionRecordPrefix (RedemptionRecordPrefix ++ "\uFFFF"))

/-! ## The public operations as transactions -/

/-- A call of one of the public operations of the four contracts, with its arguments. -/
inductive Call where
  | initUser (userID : String) (initialBalance : ℚ)
  | getUserAssets (userID : String)
  | getInventory (userID commodityID : String)
  | getAllInventory (userID : String)
  | updateBalance (userID : String) (amount : ℚ) (operation : String)
  | updateInventory (userID commodityID : String) (quantity : Int) (operation : String)
  | createCommodity (commodityID name metadataJSON : String)
  | getCommodity (commodityID : String)
  | getAllCommodities
  | initializeCommodities
  | createTrade (tradeID fromUserID toUserID commodityID : String) (quantity : Int) (price : ℚ)
      (action : String)
  | executeTrade (tradeID : String)
  | rejectTrade (tradeID : String)
  | getTradeStatus (tradeID : String)
  | getTradeHistory (userID : String)
  | createRedemptionRule (userID requiredItemsJSON : String) (rewardAmount : ℚ)
  | getRedemptionRule (userID : String)
  | executeRedemption (userID recordID : String)
  | getRedemptionHistory (userID : String)

/-- The outcome of a read-only operation: its error, and the stub it was given. -/
def queryOutcome {α : Type} (s : Stub) : Except String α → Outcome
  | .ok _ => ⟨none, s⟩
  | .error e => ⟨some e, s⟩

/-- Run one call against a stub. -/
def invoke (codec : Codec) (ctx : Ctx) (s : Stub) : Call → Outcome
  | .initUser u b => InitUser ctx s u b
  | .getUserAssets u => queryOutcome s (GetUserAssets ctx s u)
  | .getInventory u c => queryOutcome s (GetInventory ctx s u c)
  | .getAllInventory u => queryOutcome s (GetAllInventory ctx s u)
  | .updateBalance u a op => UpdateBalance ctx s u a op
  | .updateInventory u c q op => UpdateInventory ctx s u c q op
  | .createCommodity c n m => CreateCommodity codec ctx s c n m
  | .getCommodity c => queryOutcome s (GetCommodity ctx s c)
  | .getAllCommodities => queryOutcome s (GetAllCommodities ctx s)
  | .initializeCommodities => InitializeCommodities codec ctx s
  | .createTrade t f u c q p a => CreateTrade ctx s t f u c q p a
  | .executeTrade t => ExecuteTrade ctx s t
  | .rejectTrade t => RejectTrade ctx s t
  | .getTradeStatus t => queryOutcome s (GetTradeStatus ctx s t)
  | .getTradeHistory u => queryOutcome s (GetTradeHistory ctx s u)
  | .createRedemptionRule u items r => CreateRedemptionRule codec ctx s u items r
  | .getRedemptionRule u => queryOutcome s (GetRedemptionRule ctx s u)
  | .executeRedemption u r => ExecuteRedemption ctx s u r
  | .getRedemptionHistory u => queryOutcome s (GetRedemptionHistory ctx s u)

/-- Run a sequence of calls, each in its own transaction context, one after the
other, whatever each one returns. -/
def run (codec : Codec) : List (Ctx × Call) → Stub → Stub
  | [], s => s
  | (ctx, call) :: rest, s => run codec rest (invoke codec ctx s call).stub

/-- Equality of results is decidable (used to evaluate the examples). -/
instance {ε α : Type} [DecidableEq ε] [DecidableEq α] : DecidableEq (Except ε α) := fun a b =>
  match a, b with
  | .ok x, .ok y =>
    if h : x = y then isTrue (by rw [h]) else isFalse (fun h2 => h (by cases h2; rfl))
  | .error x, .error y =>
    if h : x = y then isTrue (by rw [h]) else isFalse (fun h2 => h (by cases h2; rfl))
  | .ok _, .error _ => isFalse (fun h => by cases h)
  | .error _, .ok _ => isFalse (fun h => by cases h)

/-! ## Observations used in the statements -/

/-- The seller of a stored trade, as ExecuteTrade resolves it from the action. -/
def sellerOf (trade : Trade) : String :=
  if trade.Action = "buy" then trade.ToUserID else trade.FromUserID

/-- The buyer of a stored trade, as ExecuteTrade resolves it from the action. -/
def buyerOf (trade : Trade) : String :=
  if trade.Action = "buy" then trade.FromUserID else trade.ToUserID

/-- The balance GetUserAssets reports for a user, if it reports one. -/
def balanceOf (ctx : Ctx) (s : Stub) (userID : String) : Option ℚ :=
  match GetUserAssets ctx s userID with
  | .ok userAsset => some userAsset.Balance
  | .error _ => none

/-- The quantity GetInventory reports for a user and a commodity, if it reports one. -/
def quantityOf (ctx : Ctx) (s : Stub) (userID commodityID : String) : Option Int :=
  match GetInventory ctx s userID commodityID with
  | .ok inventory => some inventory.Quantity
  | .error _ => none

/-- The stub a successful ExecuteTrade leaves, given the records it read on the way. -/
def settledStub (ctx : Ctx) (s : Stub) (tradeID : String) (trade : Trade)
    (si bi : Inventory) (ba sa : UserAsset) : Stub :=
  (((((s.PutState (GetInventoryKey (sellerOf trade) trade.CommodityID)
        (.inventory { si with Quantity := wrapInt (si.Quantity - trade.Quantity),
                              UpdatedAt := GetTxTimestamp ctx })).PutState
      (GetInventoryKey (buyerOf trade) trade.CommodityID)
        (.inventory { bi with Quantity := wrapInt (bi.Quantity + trade.Quantity),
                              UpdatedAt := GetTxTimestamp ctx })).PutState
      (GetUserAssetKey (buyerOf trade))
        (.userAsset { ba with Balance := ba.Balance - trade.Price,
                              UpdatedAt := GetTxTimestamp ctx })).PutState
      (GetUserAssetKey (sellerOf trade))
        (.userAsset { sa with Balance := sa.Balance + trade.Price,
                              UpdatedAt := GetTxTimestamp ctx })).PutState
      (GetTradeKey tradeID)
        (.trade { trade with Status := "successful", CompletedAt := GetTxTimestamp ctx })).SetEvent
      "TradeExecuted"
      (.tradeExecuted trade.TradeID trade.FromUserID trade.ToUserID trade.CommodityID
        trade.Quantity trade.Price (GetTxTimestamp ctx))

/-- Membership in the range of a Go `int` (64-bit two's complement). -/
def IsInt64 (x : Int) : Prop := -9223372036854775808 ≤ x ∧ x < 9223372036854775808

instance (x : Int) : Decidable (IsInt64 x) := by
  unfold IsInt64
  infer_instance

/-! ## Non-negativity -/

/-- What the non-negativity argument keeps true of a stored value. -/
def entryOk : Entry → Prop
  | .userAsset a => 0 ≤ a.Balance
  | .inventory i => 0 ≤ i.Quantity ∧ i.Quantity < 9223372036854775808
  | .trade t => 0 ≤ t.Quantity ∧ 0 ≤ t.Price
  | .redemptionRule r => 0 ≤ r.RewardAmount ∧ ∀ item ∈ r.RequiredItems, 0 ≤ item.Quantity
  | _ => True

/-- A stored balance or inventory quantity is non-negative. -/
def entryNonNeg : Entry → Prop
  | .userAsset a => 0 ≤ a.Balance
  | .inventory i => 0 ≤ i.Quantity
  | _ => True

instance : (e : Entry) → Decidable (entryNonNeg e)
  | .userAsset a => inferInstanceAs (Decidable (0 ≤ a.Balance))
  | .inventory i => inferInstanceAs (Decidable (0 ≤ i.Quantity))
  | .commodity _ | .trade _ | .redemptionRule _ | .redemptionRecord _ => isTrue trivial

/-- Every stored balance and every stored inventory quantity is non-negative. -/
def NonNegative (s : Stub) : Prop := ∀ kv ∈ s.State, entryNonNeg kv.2

instance (s : Stub) : Decidable (NonNegative s) :=
  inferInstanceAs (Decidable (∀ kv ∈ s.State, entryNonNeg kv.2))

/-- Every stored value is fine in the sense of `entryOk`. -/
def AllOk (s : Stub) : Prop := ∀ kv ∈ s.State, entryOk kv.2

/-- The required items a decoder returned all have a non-negative quantity. -/
def itemsNonNeg : Except String (List RequiredItem) → Prop
  | .ok items => ∀ item ∈ items, 0 ≤ item.Quantity
  | .error _ => True

instance : (r : Except String (List RequiredItem)) → Decidable (itemsNonNeg r)
  | .ok items => inferInstanceAs (Decidable (∀ item ∈ items, 0 ≤ item.Quantity))
  | .error _ => isTrue trivial

/-- Adding `q` to the quantity of the inventory read stays below 2^63. -/
def addFits (q : Int) : Except String Inventory → Prop
  | .ok i => i.Quantity + q < 9223372036854775808
  | .error _ => True

instance (q : Int) : (r : Except String Inventory) → Decidable (addFits q r)
  | .ok i => inferInstanceAs (Decidable (i.Quantity + q < 9223372036854775808))
  | .error _ => isTrue trivial

/-- The credit of the buyer of the trade read stays below 2^63 (a trade of a user
with themselves credits what it has just debited). -/
def creditFits (ctx : Ctx) (s : Stub) : Except String Trade → Prop
  | .ok trade =>
    sellerOf trade ≠ buyerOf trade →
      addFits trade.Quantity (GetInventory ctx s (buyerOf trade) trade.CommodityID)
  | .error _ => True

instance (ctx : Ctx) (s : Stub) : (r : Except String Trade) → Decidable (creditFits ctx s r)
  | .ok trade =>
    inferInstanceAs (Decidable (sellerOf trade ≠ buyerOf trade →
      addFits trade.Quantity (GetInventory ctx s (buyerOf trade) trade.CommodityID)))
  | .error _ => isTrue trivial

/-- The sign conditions on the arguments of a call: balances, amounts, prices and
quantities (those of the required items of a rule included) are non-negative. -/
def NonNegArgs (codec : Codec) : Call → Prop
  | .initUser _ b => 0 ≤ b
  | .updateBalance _ a _ => 0 ≤ a
  | .updateInventory _ _ q _ => 0 ≤ q
  | .createTrade _ _ _ _ q p _ => 0 ≤ q ∧ 0 ≤ p
  | .createRedemptionRule _ text _ => itemsNonNeg (codec.unmarshalRequiredItems text)
  | _ => True

instance (codec : Codec) : (call : Call) → Decidable (NonNegArgs codec call)
  | .initUser _ b => inferInstanceAs (Decidable (0 ≤ b))
  | .updateBalance _ a _ => inferInstanceAs (Decidable (0 ≤ a))
  | .updateInventory _ _ q _ => inferInstanceAs (Decidable (0 ≤ q))
  | .createTrade _ _ _ _ q p _ => inferInstanceAs (Decidable (0 ≤ q ∧ 0 ≤ p))
  | .createRedemptionRule _ text _ =>
    inferInstanceAs (Decidable (itemsNonNeg (codec.unmarshalRequiredItems text)))
  | .getUserAssets _ | .getInventory _ _ | .getAllInventory _ | .createCommodity _ _ _
  | .getCommodity _ | .getAllCommodities | .initializeCommodities | .executeTrade _
  | .rejectTrade _ | .getTradeStatus _ | .getTradeHistory _ | .getRedemptionRule _
  | .executeRedemption _ _ | .getRedemptionHistory _ => isTrue trivial

/-- No inventory addition of the call leaves the range of `int`: an 'add' of
UpdateInventory, and the credit of the buyer in ExecuteTrade, stay below 2^63. -/
def NoOverflow (ctx : Ctx) (s : Stub) : Call → Prop
  | .updateInventory u c q op => op = "add" → addFits q (GetInventory ctx s u c)
  | .executeTrade tid => creditFits ctx s (GetTradeStatus ctx s tid)
  | _ => True

instance (ctx : Ctx) (s : Stub) : (call : Call) → Decidable (NoOverflow ctx s call)
  | .updateInventory u c q op =>
    inferInstanceAs (Decidable (op = "add" → addFits q (GetInventory ctx s u c)))
  | .executeTrade tid => inferInstanceAs (Decidable (creditFits ctx s (GetTradeStatus ctx s tid)))
  | .initUser _ _ | .updateBalance _ _ _ | .createTrade _ _ _ _ _ _ _
  | .createRedemptionRule _ _ _
  | .getUserAssets _ | .getInventory _ _ | .getAllInventory _ | .createCommodity _ _ _
  | .getCommodity _ | .getAllCommodities | .initializeCommodities
  | .rejectTrade _ | .getTradeStatus _ | .getTradeHistory _ | .getRedemptionRule _
  | .executeRedemption _ _ | .getRedemptionHistory _ => isTrue trivial

/-- A sequence of calls all of whose steps have non-negative arguments and no
overflowing inventory addition, from the stub `s` on. -/
def Admissible (codec : Codec) : List (Ctx × Call) → Stub → Prop
  | [], _ => True
  | (ctx, call) :: rest, s =>
    NonNegArgs codec call ∧ NoOverflow ctx s call ∧
      Admissible codec rest (invoke codec ctx s call).stub

/-- Admissibility of a concrete sequence can be computed. -/
def decideAdmissible (codec : Codec) :
    (calls : List (Ctx × Call)) → (s : Stub) → Decidable (Admissible codec calls s)
  | [], _ => isTrue trivial
  | (ctx, call) :: rest, s =>
    have := decideAdmissible codec rest (invoke codec ctx s call).stub
    inferInstanceAs (Decidable (NonNegArgs codec call ∧ NoOverflow ctx s call ∧
      Admissible codec rest (invoke codec ctx s call).stub))

instance (codec : Codec) (calls : List (Ctx × Call)) (s : Stub) :
    Decidable (Admissible codec calls s) := decideAdmissible codec calls s

/-! ## Sample ledgers -/

/-- A transaction context used in the examples. -/
def ctx0 : Ctx := ⟨1700000000, 5⟩

/-- The required-items text of the redemption tests. -/
def itemsText : String :=
  "[\x7b\"commodityId\":\"commodity1\",\"quantity\":3\x7d,\x7b\"commodityId\":\"commodity2\",\"quantity\":2\x7d]"

/-- A required-items text with a negative quantity. -/
def negativeItemsText : String := "[\x7b\"commodityId\":\"commodity1\",\"quantity\":-1\x7d]"

/-- A decoder that knows the required-items texts the examples use. -/
def sampleCodec : Codec where
  unmarshalMetadata := fun _ => .ok .nil
  unmarshalRequiredItems := fun text =>
    if text = itemsText then .ok [⟨"commodity1", 3⟩, ⟨"commodity2", 2⟩]
    else if text = negativeItemsText then .ok [⟨"commodity1", -1⟩]
    else .error "invalid character"

/-- The ledger of TestExecuteTrade just before the trade is executed. -/
def tradeLedger : Stub :=
  run sampleCodec
    [ (ctx0, .initUser "user1" 1000), (ctx0, .initUser "user2" 1000),
      (ctx0, .updateInventory "user2" "commodity1" 10 "add"),
      (ctx0, .createTrade "trade1" "user1" "user2" "commodity1" 5 100 "buy") ] emptyStub

/-- The same ledger with the buyer already holding the largest `int` of the commodity. -/
def fullBuyerLedger : Stub :=
  run sampleCodec
    [ (ctx0, .initUser "user1" 1000), (ctx0, .initUser "user2" 1000),
      (ctx0, .updateInventory "user2" "commodity1" 10 "add"),
      (ctx0, .updateInventory "user1" "commodity1" 9223372036854775807 "add"),
      (ctx0, .createTrade "trade1" "user1" "user2" "commodity1" 5 100 "buy") ] emptyStub

/-- A ledger in which the seller of the pending trade holds the commodity but has
no account: only the buyer was initialised. -/
def sellerlessLedger : Stub :=
  run sampleCodec
    [ (ctx0, .initUser "user1" 1000),
      (ctx0, .updateInventory "user2" "commodity1" 10 "add"),
      (ctx0, .createTrade "trade1" "user1" "user2" "commodity1" 5 100 "buy") ] emptyStub

/-- The ledger of TestExecuteTrade after the seller gave away 8 of the 10 units. -/
def drainedSellerLedger : Stub :=
  (UpdateInventory ctx0 tradeLedger "user2" "commodity1" 8 "subtract").stub

/-- The ledger of TestExecuteTrade after the buyer spent 950 of the 1000. -/
def drainedBuyerLedger : Stub :=
  (UpdateBalance ctx0 tradeLedger "user1" 950 "subtract").stub

/-- The rule the redemption tests create. -/
def rule1 : RedemptionRule :=
  ⟨"rule_user1", "user1", [⟨"commodity1", 3⟩, ⟨"commodity2", 2⟩], 500, ⟨1700000000, 5⟩⟩

/-- The ledger of TestExecuteRedemption just before the redemption. -/
def redemptionLedger : Stub :=
  run sampleCodec
    [ (ctx0, .initUser "user1" 1000),
      (ctx0, .updateInventory "user1" "commodity1" 5 "add"),
      (ctx0, .updateInventory "user1" "commodity2" 3 "add"),
      (ctx0, .createRedemptionRule "user1" itemsText 500) ] emptyStub

/-- The ledger of TestExecuteRedemptionInsufficientInventory just before the redemption. -/
def poorLedger : Stub :=
  run sampleCodec
    [ (ctx0, .initUser "user1" 1000),
      (ctx0, .updateInventory "user1" "commodity1" 2 "add"),
      (ctx0, .updateInventory "user1" "commodity2" 1 "add"),
      (ctx0, .createRedemptionRule "user1" itemsText 500) ] emptyStub

/-- A ledger whose rule requires -1 units of a commodity of which the user holds
the largest `int`. -/
def negativeRuleLedger : Stub :=
  run sampleCodec
    [ (ctx0, .initUser "user1" 1000),
      (ctx0, .updateInventory "user1" "commodity1" 9223372036854775807 "add"),
      (ctx0, .createRedemptionRule "user1" negativeItemsText 500) ] emptyStub

/-- The error of the first loop of ExecuteRedemption for an item and the inventory read. -/
def insufficientMessage (item : RequiredItem) (i : Inventory) : String :=
  "insufficient inventory for commodity " ++ item.CommodityID ++ " (required: "
    ++ toString item.Quantity ++ ", available: " ++ toString i.Quantity ++ ")"

/-- A ledger with inventory of the users "a_b" and "a", one of the commodities of
"a" having an id that starts beyond U+FFFF. -/
def underscoreLedger : Stub :=
  run sampleCodec
    [ (ctx0, .updateInventory "a_b" "c" 5 "add"),
      (ctx0, .updateInventory "a" "x" 3 "add"),
      (ctx0, .updateInventory "a" "😀" 7 "add") ] emptyStub

/-- A ledger in which a user without an account holds the largest `int` of a commodity. -/
def fullInventoryLedger : Stub :=
  (UpdateInventory ctx0 emptyStub "user1" "commodity1" 9223372036854775807 "add").stub

/-- A ledger with one user, one commodity, one pending trade and one rule. -/
def populatedLedger : Stub :=
  run sampleCodec
    [ (ctx0, .initUser "user1" 1000), (ctx0, .initUser "user2" 1000),
      (ctx0, .updateInventory "user2" "commodity1" 10 "add"),
      (ctx0, .createCommodity "commodity1" "Apple" ""),
      (ctx0, .createTrade "trade1" "user1" "user2" "commodity1" 5 100 "buy"),
      (ctx0, .createRedemptionRule "user1" itemsText 500) ] emptyStub

/-- The ledger of TestCreateTrade before any trade is created. -/
def preTradeLedger : Stub :=
  run sampleCodec
    [ (ctx0, .initUser "user1" 1000), (ctx0, .initUser "user2" 1000),
      (ctx0, .updateInventory "user2" "commodity1" 10 "add") ] emptyStub

/-- The ledger of TestUpdateBalance after InitUser. -/
def oneUserLedger : Stub := (InitUser ctx0 emptyStub "user1" 1000).stub

/-- A later transaction context. -/
def ctx1 : Ctx := ⟨1700000060, 0⟩

/-- What `encoding/json` decodes from the metadata texts of the default commodities. -/
def defaultMetadata : List (String × JsonFields) :=
  [ ("\x7b\"imageUrl\": \"/images/gold.png\"\x7d", .cons "imageUrl" (.string "/images/gold.png") .nil),
    ("\x7b\"imageUrl\": \"/images/silver.png\"\x7d", .cons "imageUrl" (.string "/images/silver.png") .nil),
    ("\x7b\"imageUrl\": \"/images/oil.png\"\x7d", .cons "imageUrl" (.string "/images/oil.png") .nil),
    ("\x7b\"imageUrl\": \"/images/gas.png\"\x7d", .cons "imageUrl" (.string "/images/gas.png") .nil),
    ("\x7b\"imageUrl\": \"/images/corn.png\"\x7d", .cons "imageUrl" (.string "/images/corn.png") .nil),
    ("\x7b\"imageUrl\": \"/images/wheat.png\"\x7d", .cons "imageUrl" (.string "/images/wheat.png") .nil),
    ("\x7b\"imageUrl\": \"/images/coffee.png\"\x7d", .cons "imageUrl" (.string "/images/coffee.png") .nil),
    ("\x7b\"imageUrl\": \"/images/sugar.png\"\x7d", .cons "imageUrl" (.string "/images/sugar.png") .nil) ]

/-- A decoder that knows the metadata texts of the default commodities and, besides
the required-items texts of `sampleCodec`, the empty array and the JSON null. -/
def catalogCodec : Codec where
  unmarshalMetadata := fun text =>
    match defaultMetadata.lookup text with
    | some metadata => .ok metadata
    | none => .error "invalid character"
  unmarshalRequiredItems := fun text =>
    if text = "[]" ∨ text = "null" then .ok [] else sampleCodec.unmarshalRequiredItems text

/-- A ledger with two users who each hold the required items and have a rule. -/
def twoRedeemersLedger : Stub :=
  run sampleCodec
    [ (ctx0, .initUser "user1" 1000), (ctx0, .initUser "user2" 1000),
      (ctx0, .updateInventory "user1" "commodity1" 5 "add"),
      (ctx0, .updateInventory "user1" "commodity2" 3 "add"),
      (ctx0, .updateInventory "user2" "commodity1" 5 "add"),
      (ctx0, .updateInventory "user2" "commodity2" 3 "add"),
      (ctx0, .createRedemptionRule "user1" itemsText 500),
      (ctx0, .createRedemptionRule "user2" itemsText 700) ] emptyStub

/-- A ledger with two commodities, one of them with an id that starts beyond U+FFFF. -/
def smileyLedger : Stub :=
  run sampleCodec
    [ (ctx0, .createCommodity "1" "Gold" ""),
      (ctx0, .createCommodity "😀" "Smile" "") ] emptyStub

/-- The trade a scanned value decodes to, when it is a trade record. -/
def asTrade : Entry → Option Trade
  | .trade trade => some trade
  | _ => none

/-- The redemption record a scanned value decodes to, when it is one. -/
def asRecord : Entry → Option RedemptionRecord
  | .redemptionRecord record => some record
  | _ => none

/-- The trade history as the specification words it: of the scanned records, in
scan order, those whose fromUserId or toUserId is the user. -/
def tradeHistorySpec (userID : String) (scanned : List (String × Entry)) : List Trade :=
  (scanned.filterMap fun kv => asTrade kv.2).filter
    fun trade => trade.FromUserID = userID ∨ trade.ToUserID = userID

/-- The redemption history as the specification words it: of the scanned records,
in scan order, those whose userId is the user. -/
def redemptionHistorySpec (userID : String) (scanned : List (String × Entry)) :
    List RedemptionRecord :=
  (scanned.filterMap fun kv => asRecord kv.2).filter fun record => record.UserID = userID

/-- A ledger on which the user holds enough of the first required commodity and
too little of the second. -/
def secondShortLedger : Stub :=
  run sampleCodec
    [ (ctx0, .initUser "user1" 1000),
      (ctx0, .updateInventory "user1" "commodity1" 5 "add"),
      (ctx0, .updateInventory "user1" "commodity2" 1 "add"),
      (ctx0, .createRedemptionRule "user1" itemsText 500) ] emptyStub

/-- A ledger with two trades and two redemption records, each created in the
reverse of the key order. -/
def historyLedger : Stub :=
  run sampleCodec
    [ (ctx0, .initUser "user1" 1000), (ctx0, .initUser "user2" 1000),
      (ctx0, .initUser "user3" 1000),
      (ctx0, .updateInventory "user2" "commodity1" 10 "add"),
      (ctx0, .createTrade "trade2" "user3" "user2" "commodity1" 1 10 "buy"),
      (ctx0, .createTrade "trade1" "user1" "user2" "commodity1" 5 100 "buy"),
      (ctx0, .updateInventory "user1" "commodity1" 5 "add"),
      (ctx0, .updateInventory "user1" "commodity2" 3 "add"),
      (ctx0, .updateInventory "user3" "commodity1" 5 "add"),
      (ctx0, .updateInventory "user3" "commodity2" 3 "add"),
      (ctx0, .createRedemptionRule "user1" itemsText 500),
      (ctx0, .createRedemptionRule "user3" itemsText 700),
      (ctx1, .executeRedemption "user3" "record2"),
      (ctx1, .executeRedemption "user1" "record1") ] emptyStub

/-- A ledger in which a user holds the required items and has a rule, but no account. -/
def accountlessLedger : Stub :=
  run sampleCodec
    [ (ctx0, .updateInventory "user1" "commodity1" 5 "add"),
      (ctx0, .updateInventory "user1" "commodity2" 3 "add"),
      (ctx0, .createRedemptionRule "user1" itemsText 500) ] emptyStub

/-- A required-items text that lists the same commodity twice. -/
def duplicateItemsText : String :=
  "[\x7b\"commodityId\":\"commodity1\",\"quantity\":3\x7d,\x7b\"commodityId\":\"commodity1\",\"quantity\":3\x7d]"

/-- A decoder that also knows `duplicateItemsText`. -/
def duplicateCodec : Codec where
  unmarshalMetadata := sampleCodec.unmarshalMetadata
  unmarshalRequiredItems := fun text =>
    if text = duplicateItemsText then .ok [⟨"commodity1", 3⟩, ⟨"commodity1", 3⟩]
    else sampleCodec.unmarshalRequiredItems text

/-- A ledger whose rule lists commodity1 twice, 3 units each, for a user who holds 5. -/
def duplicateRuleLedger : Stub :=
  run duplicateCodec
    [ (ctx0, .initUser "user1" 1000),
      (ctx0, .updateInventory "user1" "commodity1" 5 "add"),
      (ctx0, .createRedemptionRule "user1" duplicateItemsText 500) ] emptyStub

/-- A ledger with a pending trade of a user with themselves. -/
def selfTradeLedger : Stub :=
  run sampleCodec
    [ (ctx0, .initUser "user1" 1000),
      (ctx0, .updateInventory "user1" "commodity1" 10 "add"),
      (ctx0, .createTrade "trade1" "user1" "user1" "commodity1" 5 100 "buy") ] emptyStub

/-- A ledger with a user, and a rule of that user with a negative reward (a state
no public operation builds). -/
def negativeRewardLedger : Stub :=
  ⟨[ (GetUserAssetKey "user1", .userAsset ⟨"user1", 100, ⟨1700000000, 5⟩⟩),
     (GetRedemptionRuleKey "user1",
       .redemptionRule ⟨"rule_user1", "user1", [⟨"commodity1", 0⟩], -500, ⟨1700000000, 5⟩⟩) ], []⟩

/-- What a call run in the transaction `ctx` against the stub `s` may put under
`key`: a record stamped with the transaction time; for a trade, either a new
pending trade under the key of its id, or the pending trade stored under that key
turned 'successful' or 'rejected'. -/
def Admitted (ctx : Ctx) (s : Stub) (key : String) : Entry → Prop
  | .userAsset a => a.UpdatedAt = GetTxTimestamp ctx
  | .inventory i => i.UpdatedAt = GetTxTimestamp ctx
  | .commodity c => c.CreatedAt = GetTxTimestamp ctx
  | .trade t =>
    (t.Status = "pending" ∧ (t.Action = "buy" ∨ t.Action = "sell") ∧
      t.CreatedAt = GetTxTimestamp ctx ∧ t.CompletedAt = zeroTime ∧ key = GetTradeKey t.TradeID) ∨
    ∃ old, s.GetState key = some (.trade old) ∧ old.Status = "pending" ∧
      (t = { old with Status := "successful", CompletedAt := GetTxTimestamp ctx } ∨
       t = { old with Status := "rejected", CompletedAt := GetTxTimestamp ctx })
  | .redemptionRule r => r.CreatedAt = GetTxTimestamp ctx
  | .redemptionRecord r => r.Timestamp = GetTxTimestamp ctx

/-- The timestamp an event payload carries. -/
def eventTime : EventPayload → Time
  | .tradeExecuted _ _ _ _ _ _ timestamp => timestamp
  | .redemptionExecuted _ _ _ _ timestamp => timestamp

/-- The stubs reached from `s` by writes admitted in the transaction `ctx` and by
events that carry the transaction time. -/
inductive Writes (ctx : Ctx) (s : Stub) : Stub → Prop
  | refl : Writes ctx s s
  | put {s' : Stub} (key : String) (value : Entry) :
      Writes ctx s s' → Admitted ctx s key value → Writes ctx s (s'.PutState key value)
  | event {s' : Stub} (name : String) (payload : EventPayload) :
      Writes ctx s s' → eventTime payload = GetTxTimestamp ctx →
      Writes ctx s (s'.SetEvent name payload)

/-- The timestamp field that a write sets carries the time `ts`: updatedAt of an
account or inventory record, createdAt of a commodity, a rule or a pending trade,
completedAt of an executed or rejected trade, timestamp of a redemption record. -/
def stampedAt (ts : Time) : Entry → Prop
  | .userAsset a => a.UpdatedAt = ts
  | .inventory i => i.UpdatedAt = ts
  | .commodity c => c.CreatedAt = ts
  | .trade t => (t.Status = "pending" ∧ t.CreatedAt = ts) ∨ (t.Status ≠ "pending" ∧ t.CompletedAt = ts)
  | .redemptionRule r => r.CreatedAt = ts
  | .redemptionRecord r => r.Timestamp = ts

/-- A stored trade is well formed: action, status and the key it is stored under. -/
def tradeWellFormed (key : String) : Entry → Prop
  | .trade t =>
    (t.Action = "buy" ∨ t.Action = "sell") ∧
    (t.Status = "pending" ∨ t.Status = "successful" ∨ t.Status = "rejected") ∧
    key = GetTradeKey t.TradeID
  | _ => True

/-- Every stored trade is well formed. -/
def TradesWellFormed (s : Stub) : Prop := ∀ kv ∈ s.State, tradeWellFormed kv.1 kv.2

/-- A transaction context with the timestamp of `ctx0` written with nanos beyond one second. -/
def ctx0Carry : Ctx := ⟨1699999999, 1000000005⟩

/-! ## The charity chaincode (`charity/charity.go`)

The same conventions: a finite key-value store, typed stored values, `int64`
amounts that wrap, writes that stay in the store when a later step of the call
fails.  `json.Unmarshal` of the profile text and `sort.Slice` are library
functions and are parameters of the functions that call them. -/

namespace Charity

/-- UserProfile is the profile card of a user. -/
structure UserProfile where
  Age : Int
  Gender : String
  Contact : String
  Address : String
  Bio : String
deriving DecidableEq, Repr

/-- User is a donor or a member of hospital staff. -/
structure User where
  ID : String
  Name : String
  Role : String
  Profile : UserProfile
  PublicDonation : Bool
  Donations : List String
  TotalDonation : Int
deriving DecidableEq, Repr

/-- Campaign is a fund-raising project. -/
structure Campaign where
  ID : String
  Title : String
  Description : String
  Target : Int
  Raised : Int
  HospitalID : String
  ImageURL : String
  Updates : List String
deriving DecidableEq, Repr

/-- Donation is a donation record; `Ts` is the RFC 3339 text of the transaction
time in UTC, identified with the whole second it denotes. -/
structure Donation where
  ID : String
  CampaignID : String
  DonorID : String
  Amount : Int
  Anonymous : Bool
  Ts : Int
deriving DecidableEq, Repr

/-- A stored value of the charity chaincode. -/
inductive Record where
  | user (u : User)
  | campaign (c : Campaign)
  | donation (d : Donation)
deriving DecidableEq, Repr

/-- The world state of the charity chaincode. -/
structure Ledger where
  State : List (String × Record)
deriving DecidableEq, Repr

/-- The empty charity ledger. -/
def emptyLedger : Ledger := ⟨[]⟩

/-- Lookup in the association list. -/
def lookupRecord (key : String) : List (String × Record) → Option Record
  | [] => none
  | (k, v) :: rest => if k = key then some v else lookupRecord key rest

/-- Insert or replace the binding of `key`. -/
def insertRecord (key : String) (value : Record) :
    List (String × Record) → List (String × Record)
  | [] => [(key, value)]
  | (k, v) :: rest =>
    if k = key then (key, value) :: rest else (k, v) :: insertRecord key value rest

/-- The stub's `GetState`. -/
def Ledger.GetState (s : Ledger) (key : String) : Option Record := lookupRecord key s.State

/-- The stub's `PutState`. -/
def Ledger.PutState (s : Ledger) (key : String) (value : Record) : Ledger :=
  ⟨insertRecord key value s.State⟩

/-- The stub's `GetStateByRange`: the bindings with `startKey ≤ key < endKey`, in key order. -/
def Ledger.GetStateByRange (s : Ledger) (startKey endKey : String) : List (String × Record) :=
  (s.State.filter fun kv => !keyLt kv.1 startKey && keyLt kv.1 endKey).insertionSort
    (fun a b => keyLt b.1 a.1 = false)

/-- What a writing function of the charity chaincode leaves behind. -/
structure Result where
  err : Option String
  ledger : Ledger
deriving DecidableEq

/-- The text of the `encoding/json` error for a value of the wrong shape. -/
def decodeError : String := "json: cannot unmarshal value into Go struct"

/-- RegisterUser registers a user. -/
def RegisterUser (unmarshalProfile : String → Except String UserProfile) (_ctx : Ctx)
    (s : Ledger) (id name role : String) (publicDonation : Bool) (profileJSON : String) :
    Result :=
  let key := "user:" ++ id
  match s.GetState key with
  | some _ => ⟨some ("user " ++ id ++ " already exists"), s⟩
  | none =>
    match unmarshalProfile profileJSON with
    | .error e => ⟨some ("invalid profile json: " ++ e), s⟩
    | .ok profile =>
      let user : User :=
        { ID := id, Name := name, Role := role, Profile := profile,
          PublicDonation := publicDonation, Donations := [], TotalDonation := 0 }
      ⟨none, s.PutState key (.user user)⟩

/-- CreateCampaign creates a fund-raising campaign. -/
def CreateCampaign (_ctx : Ctx) (s : Ledger) (id title desc : String) (target : Int)
    (hospitalId imageURL : String) : Result :=
  let key := "camp:" ++ id
  match s.GetState key with
  | some _ => ⟨some ("campaign " ++ id ++ " already exists"), s⟩
  | none =>
    let camp : Campaign :=
      { ID := id, Title := title, Description := desc, Target := target, Raised := 0,
        HospitalID := hospitalId, ImageURL := imageURL, Updates := [] }
    ⟨none, s.PutState key (.campaign camp)⟩

/-- Donate records a donation and updates the campaign and the donor. -/
def Donate (ctx : Ctx) (s : Ledger) (donationId campaignId donorId : String) (amount : Int)
    (anonymous : Bool) : Result :=
  match s.GetState ("camp:" ++ campaignId) with
  | none => ⟨some ("campaign " ++ campaignId ++ " not found"), s⟩
  | some (.campaign camp) =>
    let donation : Donation :=
      { ID := donationId, CampaignID := campaignId, DonorID := donorId, Amount := amount,
        Anonymous := anonymous, Ts := (timeUnix ctx.Seconds ctx.Nanos).sec }
    let s1 := s.PutState ("don:" ++ donationId) (.donation donation)
    -- update the campaign's progress
    let s2 := s1.PutState ("camp:" ++ campaignId)
      (.campaign { camp with Raised := wrapInt (camp.Raised + amount) })
    -- update the donor's history
    match s2.GetState ("user:" ++ donorId) with
    | none => ⟨some ("donor " ++ donorId ++ " not found"), s2⟩
    | some (.user user) =>
      ⟨none, s2.PutState ("user:" ++ donorId)
        (.user { user with Donations := user.Donations ++ [donationId],
                           TotalDonation := wrapInt (user.TotalDonation + amount) })⟩
    | some _ => ⟨some decodeError, s2⟩
  | some _ => ⟨some decodeError, s⟩

/-- The element type of the slice QueryTopDonors sorts; the maps it returns have
these three values under "id", "name" and "amount". -/
structure donorInfo where
  ID : String
  Name : String
  Amount : Int
deriving DecidableEq, Repr

/-- The loop of QueryTopDonors over the iterator. -/
def collectDonors : List (String × Record) → Except String (List donorInfo)
  | [] => .ok []
  | (_, .user user) :: rest =>
    match collectDonors rest with
    | .error e => .error e
    | .ok donors =>
      if user.Role ≠ "donor" then .ok donors
      else .ok (⟨user.ID, user.Name, user.TotalDonation⟩ :: donors)
  | _ :: _ => .error decodeError

/-- QueryTopDonors returns the ten donors with the largest total donation;
`sortSlice` is `sort.Slice` with the comparison `donors[i].Amount > donors[j].Amount`. -/
def QueryTopDonors (sortSlice : List donorInfo → List donorInfo) (_ctx : Ctx) (s : Ledger) :
    Except String (List donorInfo) :=
  match collectDonors (s.GetStateByRange "user:" "user;") with
  | .error e => .error e
  | .ok donors =>
    let sorted := sortSlice donors
    let topN := if sorted.length < 10 then sorted.length else 10
    .ok (sorted.take topN)

/-- A call of RegisterUser, CreateCampaign or Donate, with its arguments. -/
inductive Call where
  | registerUser (id name role : String) (publicDonation : Bool) (profileJSON : String)
  | createCampaign (id title desc : String) (target : Int) (hospitalId imageURL : String)
  | donate (donationId campaignId donorId : String) (amount : Int) (anonymous : Bool)

/-- Run one call against a ledger. -/
def invoke (unmarshalProfile : String → Except String UserProfile) (ctx : Ctx) (s : Ledger) :
    Call → Result
  | .registerUser id name role pub profile =>
    RegisterUser unmarshalProfile ctx s id name role pub profile
  | .createCampaign id title desc target hospital image =>
    CreateCampaign ctx s id title desc target hospital image
  | .donate d c u amount anonymous => Donate ctx s d c u amount anonymous

/-- Run a sequence of calls, each in its own transaction context, one after the
other, whatever each one returns. -/
def run (unmarshalProfile : String → Except String UserProfile) :
    List (Ctx × Call) → Ledger → Ledger
  | [], s => s
  | (ctx, call) :: rest, s => run unmarshalProfile rest (invoke unmarshalProfile ctx s call).ledger

/-! ### Observations -/

/-- The key a record belongs under. -/
def keyOf : Record → String
  | .user u => "user:" ++ u.ID
  | .campaign c => "camp:" ++ c.ID
  | .donation d => "don:" ++ d.ID

/-- Every record is stored under the key of its own id. -/
def WellKeyed (s : Ledger) : Prop := ∀ kv ∈ s.State, kv.1 = keyOf kv.2

instance (s : Ledger) : Decidable (WellKeyed s) :=
  inferInstanceAs (Decidable (∀ kv ∈ s.State, kv.1 = keyOf kv.2))

/-- The stored donations. -/
def storedDonations (s : Ledger) : List Donation :=
  s.State.filterMap fun kv => match kv.2 with
    | .donation d => some d
    | _ => none

/-- The stored users with role 'donor'. -/
def storedDonors (s : Ledger) : List User :=
  s.State.filterMap fun kv => match kv.2 with
    | .user u => if u.Role = "donor" then some u else none
    | _ => none

/-- The sum of Amount over the stored donations to a campaign. -/
def raisedSum (s : Ledger) (campaignId : String) : Int :=
  (((storedDonations s).filter fun d => d.CampaignID = campaignId).map fun d => d.Amount).sum

/-- The sum of Amount over the stored donations of a donor. -/
def donatedSum (s : Ledger) (donorId : String) : Int :=
  (((storedDonations s).filter fun d => d.DonorID = donorId).map fun d => d.Amount).sum

/-- The stored value is a user record. -/
def isUser : Option Record → Bool
  | some (.user _) => true
  | _ => false

/-- A Donate call uses a donation id that is not stored yet and, when its campaign
is stored, names a registered donor. -/
def FreshDonation (s : Ledger) : Call → Prop
  | .donate d c u _ _ =>
    s.GetState ("don:" ++ d) = none ∧
    (s.GetState ("camp:" ++ c) ≠ none → isUser (s.GetState ("user:" ++ u)) = true)
  | _ => True

instance (s : Ledger) : (call : Call) → Decidable (FreshDonation s call)
  | .donate d c u _ _ =>
    inferInstanceAs (Decidable (s.GetState ("don:" ++ d) = none ∧
      (s.GetState ("camp:" ++ c) ≠ none → isUser (s.GetState ("user:" ++ u)) = true)))
  | .registerUser _ _ _ _ _ => isTrue trivial
  | .createCampaign _ _ _ _ _ _ => isTrue trivial

/-- A sequence of calls every Donate of which is a `FreshDonation` when it runs. -/
def FreshDonations (unmarshalProfile : String → Except String UserProfile) :
    List (Ctx × Call) → Ledger → Prop
  | [], _ => True
  | (ctx, call) :: rest, s =>
    FreshDonation s call ∧
      FreshDonations unmarshalProfile rest (invoke unmarshalProfile ctx s call).ledger

/-- Whether a concrete sequence consists of fresh donations can be computed. -/
def decideFreshDonations (unmarshalProfile : String → Except String UserProfile) :
    (calls : List (Ctx × Call)) → (s : Ledger) →
      Decidable (FreshDonations unmarshalProfile calls s)
  | [], _ => isTrue trivial
  | (ctx, call) :: rest, s =>
    have := decideFreshDonations unmarshalProfile rest (invoke unmarshalProfile ctx s call).ledger
    inferInstanceAs (Decidable (FreshDonation s call ∧
      FreshDonations unmarshalProfile rest (invoke unmarshalProfile ctx s call).ledger))

instance (unmarshalProfile : String → Except String UserProfile) (calls : List (Ctx × Call))
    (s : Ledger) : Decidable (FreshDonations unmarshalProfile calls s) :=
  decideFreshDonations unmarshalProfile calls s

/-- The bookkeeping invariant: a stored campaign and a stored user carry their own
id and the wrapped sum of the donations that name them, and every stored donation
names a stored campaign and a stored user. -/
def Booked (s : Ledger) : Prop :=
  (∀ cid c, s.GetState ("camp:" ++ cid) = some (.campaign c) →
    c.ID = cid ∧ c.Raised = wrapInt (raisedSum s cid)) ∧
  (∀ uid u, s.GetState ("user:" ++ uid) = some (.user u) →
    u.ID = uid ∧ u.TotalDonation = wrapInt (donatedSum s uid)) ∧
  (∀ d ∈ storedDonations s,
    s.GetState ("camp:" ++ d.CampaignID) ≠ none ∧ s.GetState ("user:" ++ d.DonorID) ≠ none)

/-- `sort.Slice` as an insertion sort that keeps equal amounts in their order. -/
def insertionSortSlice (donors : List donorInfo) : List donorInfo :=
  donors.insertionSort fun a b => b.Amount ≤ a.Amount

/-- A profile decoder for the examples: every text is the empty profile. -/
def sampleProfile : String → Except String UserProfile :=
  fun _ => .ok ⟨0, "", "", "", ""⟩

/-- A charity ledger with three donors, a hospital and two campaigns. -/
def sampleLedger : Ledger :=
  run sampleProfile
    [ (ctx0, .registerUser "donor1" "Alice" "donor" true ""),
      (ctx0, .registerUser "donor2" "Bob" "donor" false ""),
      (ctx0, .registerUser "donor3" "Carol" "donor" true ""),
      (ctx0, .registerUser "hospital1" "Central Hospital" "hospital" true ""),
      (ctx0, .createCampaign "camp1" "Help Patient X" "" 20000 "hospital1" ""),
      (ctx0, .createCampaign "camp2" "Support Child Y" "" 30000 "hospital1" ""),
      (ctx0, .donate "don1" "camp1" "donor1" 5000 false),
      (ctx0, .donate "don2" "camp2" "donor2" 7000 true),
      (ctx0, .donate "don3" "camp1" "donor2" 1000 true) ] emptyLedger

/-- A charity ledger with twelve donors and a hospital that has donated too. -/
def crowdLedger : Ledger :=
  run sampleProfile
    [ (ctx0, .registerUser "ann" "Ann" "donor" true ""),
      (ctx0, .registerUser "ben" "Ben" "donor" true ""),
      (ctx0, .registerUser "cat" "Cat" "donor" true ""),
      (ctx0, .registerUser "dan" "Dan" "donor" true ""),
      (ctx0, .registerUser "eve" "Eve" "donor" true ""),
      (ctx0, .registerUser "fay" "Fay" "donor" true ""),
      (ctx0, .registerUser "gus" "Gus" "donor" true ""),
      (ctx0, .registerUser "hal" "Hal" "donor" true ""),
      (ctx0, .registerUser "ida" "Ida" "donor" true ""),
      (ctx0, .registerUser "jon" "Jon" "donor" true ""),
      (ctx0, .registerUser "kim" "Kim" "donor" true ""),
      (ctx0, .registerUser "lee" "Lee" "donor" true ""),
      (ctx0, .registerUser "hospital1" "Central Hospital" "hospital" true ""),
      (ctx0, .createCampaign "camp1" "Help Patient X" "" 20000 "hospital1" ""),
      (ctx0, .donate "don1" "camp1" "ann" 500 false),
      (ctx0, .donate "don2" "camp1" "ben" 1200 false),
      (ctx0, .donate "don3" "camp1" "cat" 300 false),
      (ctx0, .donate "don4" "camp1" "dan" 1200 false),
      (ctx0, .donate "don5" "camp1" "eve" 50 false),
      (ctx0, .donate "don6" "camp1" "fay" 7000 false),
      (ctx0, .donate "don8" "camp1" "hal" 640 false),
      (ctx0, .donate "don9" "camp1" "ida" 90 false),
      (ctx0, .donate "don10" "camp1" "jon" 15 false),
      (ctx0, .donate "don11" "camp1" "kim" 8000 false),
      (ctx0, .donate "don12" "camp1" "lee" 2 false),
      (ctx0, .donate "gift" "camp1" "hospital1" 9000 false) ] emptyLedger

/-- A charity ledger with one donor, one campaign and one donation of 100. -/
def oneDonationLedger : Ledger :=
  run sampleProfile
    [ (ctx0, .registerUser "donor1" "Alice" "donor" true ""),
      (ctx0, .createCampaign "camp1" "Help Patient X" "" 20000 "hospital1" ""),
      (ctx0, .donate "don1" "camp1" "donor1" 100 false) ] emptyLedger

/-- A charity ledger with one donor, one campaign and one donation of the largest `int64`. -/
def largeDonationLedger : Ledger :=
  run sampleProfile
    [ (ctx0, .registerUser "donor1" "Alice" "donor" true ""),
      (ctx0, .createCampaign "camp1" "Help Patient X" "" 20000 "hospital1" ""),
      (ctx0, .donate "don1" "camp1" "donor1" 9223372036854775807 false) ] emptyLedger

end Charity

/-! ## Go float64 arithmetic -/

/-- The integer nearest to the fraction num/den, a tie going to the even one. -/
def roundHalfEven (num den : Nat) : Nat :=
  if 2 * (num % den) < den then num / den
  else if den < 2 * (num % den) then num / den + 1
  else if (num / den) % 2 = 0 then num / den
  else num / den + 1

/-- Scaling of the fraction num/den, times 2^e, by powers of two until num/den
lies in [2^52, 2^53), the range of a 53-bit significand, or e has come down to
-1074, the exponent of the smallest subnormal. -/
def scaleSignificand : Nat → Nat → Nat → Int → Nat × Nat × Int
  | 0, num, den, e => (num, den, e)
  | fuel + 1, num, den, e =>
    if den * 9007199254740992 ≤ num then scaleSignificand fuel num (den * 2) (e + 1)
    else if num < den * 4503599627370496 ∧ -1074 < e then
      scaleSignificand fuel (num * 2) den (e - 1)
    else (num, den, e)

/-- The float64 nearest to x, a tie going to the even significand (the rounding
of IEEE 754 binary64 arithmetic, which Go's float64 operators perform), with the
exponent unbounded above. -/
def roundFloat64 (x : ℚ) : ℚ :=
  if x = 0 then 0
  else
    let r := scaleSignificand 2200 x.num.natAbs x.den 0
    let m : Int := roundHalfEven r.1 r.2.1
    let v : ℚ := if 0 ≤ r.2.2 then ((m * 2 ^ r.2.2.toNat : Int) : ℚ)
      else mkRat m (2 ^ (-r.2.2).toNat)
    if x < 0 then -v else v

/-- The largest finite float64, (2^53 - 1) * 2^971. -/
def maxFloat64 : ℚ := 9007199254740991 * 2 ^ 971

/-- UpdateBalance with the float64 arithmetic of Go: `+=` and `-=` store the
float64 nearest to the exact sum or difference, and a result beyond the largest
finite float64 is an infinity, which `json.Marshal` refuses.  It is UpdateBalance
whenever the exact result is a float64. -/
def UpdateBalanceFloat (ctx : Ctx) (s : Stub) (userID : String) (amount : ℚ)
    (operation : String) : Outcome :=
  match GetUserAssets ctx s userID with
  | .error e => ⟨some e, s⟩
  | .ok userAsset =>
    let store (balance : ℚ) : Outcome :=
      if maxFloat64 < balance then
        ⟨some "failed to marshal user asset: json: unsupported value: +Inf", s⟩
      else if balance < -maxFloat64 then
        ⟨some "failed to marshal user asset: json: unsupported value: -Inf", s⟩
      else
        ⟨none, s.PutState (GetUserAssetKey userID)
          (.userAsset { userAsset with Balance := balance, UpdatedAt := GetTxTimestamp ctx })⟩
    if operation = "add" then
      store (roundFloat64 (userAsset.Balance + amount))
    else if operation = "subtract" then
      if userAsset.Balance < amount then
        ⟨some ("insufficient balance for user " ++ userID), s⟩
      else
        store (roundFloat64 (userAsset.Balance - amount))
    else
      ⟨some ("invalid operation: " ++ operation), s⟩

/-- ExecuteTrade with the float64 balance arithmetic of UpdateBalanceFloat. -/
def ExecuteTradeFloat (ctx : Ctx) (s : Stub) (tradeID : String) : Outcome :=
  match GetTradeStatus ctx s tradeID with
  | .error e => ⟨some e, s⟩
  | .ok trade =>
    if trade.Status ≠ "pending" then
      ⟨some ("trade is not pending (status: " ++ trade.Status ++ ")"), s⟩
    else
      let sellerID := if trade.Action = "buy" then trade.ToUserID else trade.FromUserID
      let buyerID := if trade.Action = "buy" then trade.FromUserID else trade.ToUserID
      match GetInventory ctx s sellerID trade.CommodityID with
      | .error e => ⟨some ("failed to get seller inventory: " ++ e), s⟩
      | .ok sellerInventory =>
        if sellerInventory.Quantity < trade.Quantity then
          ⟨some "seller has insufficient inventory", s⟩
        else
          match GetUserAssets ctx s buyerID with
          | .error e => ⟨some ("failed to get buyer assets: " ++ e), s⟩
          | .ok buyerAsset =>
            if buyerAsset.Balance < trade.Price then
              ⟨some "buyer has insufficient balance", s⟩
            else
              let r1 := UpdateInventory ctx s sellerID trade.CommodityID trade.Quantity "subtract"
              match r1.err with
              | some e => ⟨some ("failed to update seller inventory: " ++ e), r1.stub⟩
              | none =>
                let r2 := UpdateInventory ctx r1.stub buyerID trade.CommodityID trade.Quantity "add"
                match r2.err with
                | some e => ⟨some ("failed to update buyer inventory: " ++ e), r2.stub⟩
                | none =>
                  let r3 := UpdateBalanceFloat ctx r2.stub buyerID trade.Price "subtract"
                  match r3.err with
                  | some e => ⟨some ("failed to update buyer balance: " ++ e), r3.stub⟩
                  | none =>
                    let r4 := UpdateBalanceFloat ctx r3.stub sellerID trade.Price "add"
                    match r4.err with
                    | some e => ⟨some ("failed to update seller balance: " ++ e), r4.stub⟩
                    | none =>
                      let timestamp := GetTxTimestamp ctx
                      let trade' : Trade :=
                        { trade with Status := "successful", CompletedAt := timestamp }
                      let s5 := r4.stub.PutState (GetTradeKey tradeID) (.trade trade')
                      ⟨none, s5.SetEvent "TradeExecuted"
                        (.tradeExecuted trade'.TradeID trade'.FromUserID trade'.ToUserID
                          trade'.CommodityID trade'.Quantity trade'.Price trade'.CompletedAt)⟩

/-- A ledger on which user1, with a balance of 1527.55 and 10 units of
commodity1, has a pending trade of 5 units for 389.63 with itself; the two
amounts are the float64 values of these decimals. -/
def floatSelfTradeLedger : Stub :=
  run sampleCodec
    [ (ctx0, .initUser "user1" (roundFloat64 (152755 / 100))),
      (ctx0, .updateInventory "user1" "commodity1" 10 "add"),
      (ctx0, .createTrade "trade1" "user1" "user1" "commodity1" 5 (roundFloat64 (38963 / 100))
        "buy") ] emptyStub

/-- The trade record of the sample ledgers. -/
def trade1 : Trade :=
  ⟨"trade1", "user1", "user2", "commodity1", 5, 100, "buy", "pending", ⟨1700000000, 5⟩, zeroTime⟩

/-! # Properties -/


/-! ## The store -/

theorem lookupKey_insertKey_self (key : String) (value : Entry) (l : List (String × Entry)) :
    lookupKey key (insertKey key value l) = some value := by
  induction l with
  | nil => simp [insertKey, lookupKey]
  | cons kv rest ih =>
    obtain ⟨k, v⟩ := kv
    by_cases h : k = key
    · simp [insertKey, lookupKey, h]
    · simp [insertKey, lookupKey, h, ih]

theorem lookupKey_insertKey_ne {key key' : String} (value : Entry) (l : List (String × Entry))
    (h : key' ≠ key) : lookupKey key' (insertKey key value l) = lookupKey key' l := by
  induction l with
  | nil => simp [insertKey, lookupKey, Ne.symm h]
  | cons kv rest ih =>
    obtain ⟨k, v⟩ := kv
    by_cases hk : k = key
    · subst hk
      simp [insertKey, lookupKey, Ne.symm h]
    · by_cases hk' : k = key'
      · subst hk'
        simp [insertKey, lookupKey, h]
      · simp [insertKey, lookupKey, hk, hk', ih]

@[simp] theorem GetState_PutState_self (s : Stub) (key : String) (value : Entry) :
    (s.PutState key value).GetState key = some value :=
  lookupKey_insertKey_self key value s.State

theorem GetState_PutState_ne (s : Stub) {key key' : String} (value : Entry) (h : key' ≠ key) :
    (s.PutState key value).GetState key' = s.GetState key' :=
  lookupKey_insertKey_ne value s.State h

theorem GetState_PutState (s : Stub) (key key' : String) (value : Entry) :
    (s.PutState key value).GetState key' = if key' = key then some value else s.GetState key' := by
  by_cases h : key' = key
  · subst h; simp
  · simp [h, GetState_PutState_ne s value h]

@[simp] theorem GetState_SetEvent (s : Stub) (name : String) (payload : EventPayload)
    (key : String) : (s.SetEvent name payload).GetState key = s.GetState key := rfl

@[simp] theorem Events_PutState (s : Stub) (key : String) (value : Entry) :
    (s.PutState key value).Events = s.Events := rfl

/-! ## Keys -/

/-- Two strings that start differently stay different whatever follows. -/
theorem append_ne_of_take (p q x y : String) (n : Nat) (hp : n ≤ p.length) (hq : n ≤ q.length)
    (hne : p.data.take n ≠ q.data.take n) : p ++ x ≠ q ++ y := by
  intro h
  apply hne
  have h2 := congrArg (fun s => s.data.take n) h
  simp only [String.data_append] at h2
  rw [List.take_append_of_le_length hp, List.take_append_of_le_length hq] at h2
  exact h2

theorem string_append_left_cancel {p x y : String} (h : p ++ x = p ++ y) : x = y := by
  have h2 := congrArg String.data h
  simp only [String.data_append, List.append_cancel_left_eq] at h2
  exact String.ext h2

theorem string_append_right_cancel {p x y : String} (h : x ++ p = y ++ p) : x = y := by
  have h2 := congrArg String.data h
  simp only [String.data_append, List.append_cancel_right_eq] at h2
  exact String.ext h2

theorem GetUserAssetKey_inj {u v : String} (h : GetUserAssetKey u = GetUserAssetKey v) : u = v :=
  string_append_left_cancel h

theorem GetTradeKey_inj {u v : String} (h : GetTradeKey u = GetTradeKey v) : u = v :=
  string_append_left_cancel h

theorem GetInventoryKey_inj_user {u v c : String}
    (h : GetInventoryKey u c = GetInventoryKey v c) : u = v := by
  unfold GetInventoryKey at h
  exact string_append_left_cancel (string_append_right_cancel (string_append_right_cancel h))

theorem GetInventoryKey_inj_commodity {u c d : String}
    (h : GetInventoryKey u c = GetInventoryKey u d) : c = d := by
  unfold GetInventoryKey at h
  exact string_append_left_cancel h

/-- An inventory key spelled with the prefix in front of everything else. -/
theorem GetInventoryKey_eq (u c : String) :
    GetInventoryKey u c = InventoryPrefix ++ (u ++ ("_" ++ c)) := by
  unfold GetInventoryKey
  rw [String.append_assoc, String.append_assoc]

theorem userAssetKey_ne_inventoryKey (v u c : String) :
    GetUserAssetKey v ≠ GetInventoryKey u c := by
  rw [GetInventoryKey_eq]
  exact append_ne_of_take _ _ _ _ 1 (by decide) (by decide) (by decide)

theorem userAssetKey_ne_commodityKey (v c : String) : GetUserAssetKey v ≠ GetCommodityKey c :=
  append_ne_of_take _ _ _ _ 1 (by decide) (by decide) (by decide)

theorem userAssetKey_ne_tradeKey (v t : String) : GetUserAssetKey v ≠ GetTradeKey t :=
  append_ne_of_take _ _ _ _ 1 (by decide) (by decide) (by decide)

theorem userAssetKey_ne_ruleKey (v u : String) : GetUserAssetKey v ≠ GetRedemptionRuleKey u :=
  append_ne_of_take _ _ _ _ 1 (by decide) (by decide) (by decide)

theorem userAssetKey_ne_recordKey (v r : String) : GetUserAssetKey v ≠ GetRedemptionRecordKey r :=
  append_ne_of_take _ _ _ _ 1 (by decide) (by decide) (by decide)

theorem inventoryKey_ne_commodityKey (u c d : String) :
    GetInventoryKey u c ≠ GetCommodityKey d := by
  rw [GetInventoryKey_eq]
  exact append_ne_of_take _ _ _ _ 1 (by decide) (by decide) (by decide)

theorem inventoryKey_ne_tradeKey (u c t : String) : GetInventoryKey u c ≠ GetTradeKey t := by
  rw [GetInventoryKey_eq]
  exact append_ne_of_take _ _ _ _ 1 (by decide) (by decide) (by decide)

theorem inventoryKey_ne_ruleKey (u c v : String) :
    GetInventoryKey u c ≠ GetRedemptionRuleKey v := by
  rw [GetInventoryKey_eq]
  exact append_ne_of_take _ _ _ _ 1 (by decide) (by decide) (by decide)

theorem inventoryKey_ne_recordKey (u c r : String) :
    GetInventoryKey u c ≠ GetRedemptionRecordKey r := by
  rw [GetInventoryKey_eq]
  exact append_ne_of_take _ _ _ _ 1 (by decide) (by decide) (by decide)

theorem commodityKey_ne_tradeKey (c t : String) : GetCommodityKey c ≠ GetTradeKey t :=
  append_ne_of_take _ _ _ _ 1 (by decide) (by decide) (by decide)

theorem commodityKey_ne_ruleKey (c u : String) : GetCommodityKey c ≠ GetRedemptionRuleKey u :=
  append_ne_of_take _ _ _ _ 1 (by decide) (by decide) (by decide)

theorem commodityKey_ne_recordKey (c r : String) : GetCommodityKey c ≠ GetRedemptionRecordKey r :=
  append_ne_of_take _ _ _ _ 1 (by decide) (by decide) (by decide)

theorem tradeKey_ne_ruleKey (t u : String) : GetTradeKey t ≠ GetRedemptionRuleKey u :=
  append_ne_of_take _ _ _ _ 1 (by decide) (by decide) (by decide)

theorem tradeKey_ne_recordKey (t r : String) : GetTradeKey t ≠ GetRedemptionRecordKey r :=
  append_ne_of_take _ _ _ _ 1 (by decide) (by decide) (by decide)

theorem ruleKey_ne_recordKey (u r : String) :
    GetRedemptionRuleKey u ≠ GetRedemptionRecordKey r :=
  append_ne_of_take _ _ _ _ 13 (by decide) (by decide) (by decide)


theorem inventoryKey_ne_userAssetKey (u c v : String) :
    GetInventoryKey u c ≠ GetUserAssetKey v := (userAssetKey_ne_inventoryKey v u c).symm

theorem commodityKey_ne_userAssetKey (c v : String) : GetCommodityKey c ≠ GetUserAssetKey v :=
  (userAssetKey_ne_commodityKey v c).symm

theorem tradeKey_ne_userAssetKey (t v : String) : GetTradeKey t ≠ GetUserAssetKey v :=
  (userAssetKey_ne_tradeKey v t).symm

theorem ruleKey_ne_userAssetKey (u v : String) : GetRedemptionRuleKey u ≠ GetUserAssetKey v :=
  (userAssetKey_ne_ruleKey v u).symm

theorem recordKey_ne_userAssetKey (r v : String) : GetRedemptionRecordKey r ≠ GetUserAssetKey v :=
  (userAssetKey_ne_recordKey v r).symm

theorem commodityKey_ne_inventoryKey (d u c : String) :
    GetCommodityKey d ≠ GetInventoryKey u c := (inventoryKey_ne_commodityKey u c d).symm

theorem tradeKey_ne_inventoryKey (t u c : String) : GetTradeKey t ≠ GetInventoryKey u c :=
  (inventoryKey_ne_tradeKey u c t).symm

theorem ruleKey_ne_inventoryKey (v u c : String) :
    GetRedemptionRuleKey v ≠ GetInventoryKey u c := (inventoryKey_ne_ruleKey u c v).symm

theorem recordKey_ne_inventoryKey (r u c : String) :
    GetRedemptionRecordKey r ≠ GetInventoryKey u c := (inventoryKey_ne_recordKey u c r).symm

theorem tradeKey_ne_commodityKey (t c : String) : GetTradeKey t ≠ GetCommodityKey c :=
  (commodityKey_ne_tradeKey c t).symm

theorem ruleKey_ne_commodityKey (u c : String) : GetRedemptionRuleKey u ≠ GetCommodityKey c :=
  (commodityKey_ne_ruleKey c u).symm

theorem recordKey_ne_commodityKey (r c : String) : GetRedemptionRecordKey r ≠ GetCommodityKey c :=
  (commodityKey_ne_recordKey c r).symm

theorem ruleKey_ne_tradeKey (u t : String) : GetRedemptionRuleKey u ≠ GetTradeKey t :=
  (tradeKey_ne_ruleKey t u).symm

theorem recordKey_ne_tradeKey (r t : String) : GetRedemptionRecordKey r ≠ GetTradeKey t :=
  (tradeKey_ne_recordKey t r).symm

theorem recordKey_ne_ruleKey (r u : String) :
    GetRedemptionRecordKey r ≠ GetRedemptionRuleKey u := (ruleKey_ne_recordKey u r).symm

theorem wrapInt_of_isInt64 {x : Int} (h : IsInt64 x) : wrapInt x = x := by
  unfold IsInt64 at h
  unfold wrapInt
  omega

theorem wrapInt_emod (x : Int) :
    wrapInt x % 18446744073709551616 = x % 18446744073709551616 := by
  unfold wrapInt
  omega

theorem isInt64_wrapInt (x : Int) : IsInt64 (wrapInt x) := by
  unfold IsInt64 wrapInt
  omega

/-! ## Reads depend on one key only -/

theorem GetUserAssets_congr {ctx ctx' : Ctx} {s s' : Stub} {u : String}
    (h : s'.GetState (GetUserAssetKey u) = s.GetState (GetUserAssetKey u)) :
    GetUserAssets ctx' s' u = GetUserAssets ctx s u := by
  unfold GetUserAssets; rw [h]

theorem GetInventory_congr {ctx : Ctx} {s s' : Stub} {u c : String}
    (h : s'.GetState (GetInventoryKey u c) = s.GetState (GetInventoryKey u c)) :
    GetInventory ctx s' u c = GetInventory ctx s u c := by
  unfold GetInventory; rw [h]

theorem GetTradeStatus_congr {ctx ctx' : Ctx} {s s' : Stub} {t : String}
    (h : s'.GetState (GetTradeKey t) = s.GetState (GetTradeKey t)) :
    GetTradeStatus ctx' s' t = GetTradeStatus ctx s t := by
  unfold GetTradeStatus; rw [h]

theorem GetRedemptionRule_congr {ctx ctx' : Ctx} {s s' : Stub} {u : String}
    (h : s'.GetState (GetRedemptionRuleKey u) = s.GetState (GetRedemptionRuleKey u)) :
    GetRedemptionRule ctx' s' u = GetRedemptionRule ctx s u := by
  unfold GetRedemptionRule; rw [h]

theorem GetUserAssets_ok_iff {ctx : Ctx} {s : Stub} {u : String} {a : UserAsset} :
    GetUserAssets ctx s u = .ok a ↔ s.GetState (GetUserAssetKey u) = some (.userAsset a) := by
  unfold GetUserAssets
  cases h : s.GetState (GetUserAssetKey u) with
  | none => simp
  | some e => cases e <;> simp

theorem GetTradeStatus_ok_iff {ctx : Ctx} {s : Stub} {t : String} {trade : Trade} :
    GetTradeStatus ctx s t = .ok trade ↔ s.GetState (GetTradeKey t) = some (.trade trade) := by
  unfold GetTradeStatus
  cases h : s.GetState (GetTradeKey t) with
  | none => simp
  | some e => cases e <;> simp

theorem GetRedemptionRule_ok_iff {ctx : Ctx} {s : Stub} {u : String} {rule : RedemptionRule} :
    GetRedemptionRule ctx s u = .ok rule ↔
      s.GetState (GetRedemptionRuleKey u) = some (.redemptionRule rule) := by
  unfold GetRedemptionRule
  cases h : s.GetState (GetRedemptionRuleKey u) with
  | none => simp
  | some e => cases e <;> simp

theorem GetInventory_of_stored {ctx : Ctx} {s : Stub} {u c : String} {i : Inventory}
    (h : s.GetState (GetInventoryKey u c) = some (.inventory i)) :
    GetInventory ctx s u c = .ok i := by
  unfold GetInventory; rw [h]

/-! ## UpdateBalance and UpdateInventory -/

theorem UpdateBalance_stub_of_err {ctx : Ctx} {s : Stub} {u : String} {a : ℚ} {op e : String}
    (h : (UpdateBalance ctx s u a op).err = some e) : (UpdateBalance ctx s u a op).stub = s := by
  unfold UpdateBalance at h ⊢
  split
  · rfl
  · split
    · simp_all
    · split
      · split
        · rfl
        · simp_all
      · rfl

theorem UpdateInventory_stub_of_err {ctx : Ctx} {s : Stub} {u c : String} {q : Int}
    {op e : String} (h : (UpdateInventory ctx s u c q op).err = some e) :
    (UpdateInventory ctx s u c q op).stub = s := by
  unfold UpdateInventory at h ⊢
  split
  · rfl
  · split
    · simp_all
    · split
      · split
        · rfl
        · simp_all
      · rfl

theorem UpdateBalance_GetState_ne (ctx : Ctx) (s : Stub) (u : String) (a : ℚ) (op : String)
    {key : String} (h : key ≠ GetUserAssetKey u) :
    (UpdateBalance ctx s u a op).stub.GetState key = s.GetState key := by
  unfold UpdateBalance
  split
  · rfl
  · split
    · exact GetState_PutState_ne s _ h
    · split
      · split
        · rfl
        · exact GetState_PutState_ne s _ h
      · rfl

theorem UpdateInventory_GetState_ne (ctx : Ctx) (s : Stub) (u c : String) (q : Int) (op : String)
    {key : String} (h : key ≠ GetInventoryKey u c) :
    (UpdateInventory ctx s u c q op).stub.GetState key = s.GetState key := by
  unfold UpdateInventory
  split
  · rfl
  · split
    · exact GetState_PutState_ne s _ h
    · split
      · split
        · rfl
        · exact GetState_PutState_ne s _ h
      · rfl

theorem UpdateBalance_Events (ctx : Ctx) (s : Stub) (u : String) (a : ℚ) (op : String) :
    (UpdateBalance ctx s u a op).stub.Events = s.Events := by
  unfold UpdateBalance
  repeat' split
  all_goals rfl

theorem UpdateInventory_Events (ctx : Ctx) (s : Stub) (u c : String) (q : Int) (op : String) :
    (UpdateInventory ctx s u c q op).stub.Events = s.Events := by
  unfold UpdateInventory
  repeat' split
  all_goals rfl

theorem UpdateInventory_subtract {ctx : Ctx} {s : Stub} {u c : String} {q : Int} {i : Inventory}
    (hi : GetInventory ctx s u c = .ok i) (hq : ¬ i.Quantity < q) :
    UpdateInventory ctx s u c q "subtract" =
      ⟨none, s.PutState (GetInventoryKey u c)
        (.inventory { i with Quantity := wrapInt (i.Quantity - q),
                             UpdatedAt := GetTxTimestamp ctx })⟩ := by
  unfold UpdateInventory
  rw [hi]
  simp [hq]

theorem UpdateInventory_add {ctx : Ctx} {s : Stub} {u c : String} {q : Int} {i : Inventory}
    (hi : GetInventory ctx s u c = .ok i) :
    UpdateInventory ctx s u c q "add" =
      ⟨none, s.PutState (GetInventoryKey u c)
        (.inventory { i with Quantity := wrapInt (i.Quantity + q),
                             UpdatedAt := GetTxTimestamp ctx })⟩ := by
  unfold UpdateInventory
  rw [hi]
  simp

theorem UpdateBalance_subtract {ctx : Ctx} {s : Stub} {u : String} {a : ℚ} {x : UserAsset}
    (hx : GetUserAssets ctx s u = .ok x) (ha : ¬ x.Balance < a) :
    UpdateBalance ctx s u a "subtract" =
      ⟨none, s.PutState (GetUserAssetKey u)
        (.userAsset { x with Balance := x.Balance - a, UpdatedAt := GetTxTimestamp ctx })⟩ := by
  unfold UpdateBalance
  rw [hx]
  simp [ha]

theorem UpdateBalance_add {ctx : Ctx} {s : Stub} {u : String} {a : ℚ} {x : UserAsset}
    (hx : GetUserAssets ctx s u = .ok x) :
    UpdateBalance ctx s u a "add" =
      ⟨none, s.PutState (GetUserAssetKey u)
        (.userAsset { x with Balance := x.Balance + a, UpdatedAt := GetTxTimestamp ctx })⟩ := by
  unfold UpdateBalance
  rw [hx]
  simp

theorem UpdateInventory_err_of_read {ctx : Ctx} {s : Stub} {u c : String} {q : Int} {op e : String}
    (hi : GetInventory ctx s u c = .error e) :
    UpdateInventory ctx s u c q op = ⟨some e, s⟩ := by
  unfold UpdateInventory
  rw [hi]

theorem UpdateBalance_err_of_read {ctx : Ctx} {s : Stub} {u : String} {a : ℚ} {op e : String}
    (hx : GetUserAssets ctx s u = .error e) :
    UpdateBalance ctx s u a op = ⟨some e, s⟩ := by
  unfold UpdateBalance
  rw [hx]

/-! ## ExecuteTrade -/

theorem ExecuteTrade_ok {ctx : Ctx} {s : Stub} {tid : String}
    (hok : (ExecuteTrade ctx s tid).err = none) :
    ∃ trade si bi ba sa,
      GetTradeStatus ctx s tid = .ok trade ∧ trade.Status = "pending" ∧
      GetInventory ctx s (sellerOf trade) trade.CommodityID = .ok si ∧
      ¬ si.Quantity < trade.Quantity ∧
      GetUserAssets ctx s (buyerOf trade) = .ok ba ∧ ¬ ba.Balance < trade.Price ∧
      GetInventory ctx (s.PutState (GetInventoryKey (sellerOf trade) trade.CommodityID)
        (.inventory { si with Quantity := wrapInt (si.Quantity - trade.Quantity),
                              UpdatedAt := GetTxTimestamp ctx }))
        (buyerOf trade) trade.CommodityID = .ok bi ∧
      GetUserAssets ctx (((s.PutState (GetInventoryKey (sellerOf trade) trade.CommodityID)
        (.inventory { si with Quantity := wrapInt (si.Quantity - trade.Quantity),
                              UpdatedAt := GetTxTimestamp ctx })).PutState
        (GetInventoryKey (buyerOf trade) trade.CommodityID)
        (.inventory { bi with Quantity := wrapInt (bi.Quantity + trade.Quantity),
                              UpdatedAt := GetTxTimestamp ctx })).PutState
        (GetUserAssetKey (buyerOf trade))
        (.userAsset { ba with Balance := ba.Balance - trade.Price,
                              UpdatedAt := GetTxTimestamp ctx }))
        (sellerOf trade) = .ok sa ∧
      (ExecuteTrade ctx s tid).stub = settledStub ctx s tid trade si bi ba sa := by
  cases hT : GetTradeStatus ctx s tid with
  | error e => simp [ExecuteTrade, hT] at hok
  | ok trade =>
    by_cases hp : trade.Status = "pending"
    swap
    · simp [ExecuteTrade, hT, hp] at hok
    cases hsi : GetInventory ctx s (sellerOf trade) trade.CommodityID with
    | error e =>
      simp only [sellerOf] at hsi
      simp [ExecuteTrade, hT, hp, hsi] at hok
    | ok si =>
      by_cases hq : si.Quantity < trade.Quantity
      · simp only [sellerOf] at hsi
        simp [ExecuteTrade, hT, hp, hsi, hq] at hok
      cases hba : GetUserAssets ctx s (buyerOf trade) with
      | error e =>
        simp only [sellerOf, buyerOf] at hsi hba
        simp [ExecuteTrade, hT, hp, hsi, hq, hba] at hok
      | ok ba =>
        by_cases hb : ba.Balance < trade.Price
        · simp only [sellerOf, buyerOf] at hsi hba
          simp [ExecuteTrade, hT, hp, hsi, hq, hba, hb] at hok
        have h1 := UpdateInventory_subtract hsi hq
        obtain ⟨s1, hs1⟩ : ∃ s1, s.PutState (GetInventoryKey (sellerOf trade) trade.CommodityID)
          (.inventory { si with Quantity := wrapInt (si.Quantity - trade.Quantity),
                                UpdatedAt := GetTxTimestamp ctx }) = s1 := ⟨_, rfl⟩
        rw [hs1] at h1
        cases hbi : GetInventory ctx s1 (buyerOf trade) trade.CommodityID with
        | error e =>
          have h2 : UpdateInventory ctx s1 (buyerOf trade) trade.CommodityID trade.Quantity "add"
              = ⟨some e, s1⟩ := UpdateInventory_err_of_read hbi
          simp only [sellerOf, buyerOf] at hsi hba h1 h2
          simp [ExecuteTrade, hT, hp, hsi, hq, hba, hb, h1, h2] at hok
        | ok bi =>
          have h2 := UpdateInventory_add (q := trade.Quantity) hbi
          obtain ⟨s2, hs2⟩ : ∃ s2, s1.PutState (GetInventoryKey (buyerOf trade) trade.CommodityID)
            (.inventory { bi with Quantity := wrapInt (bi.Quantity + trade.Quantity),
                                  UpdatedAt := GetTxTimestamp ctx }) = s2 := ⟨_, rfl⟩
          rw [hs2] at h2
          have hba2 : GetUserAssets ctx s2 (buyerOf trade) = .ok ba := by
            rw [← hba]
            apply GetUserAssets_congr
            rw [← hs2, ← hs1, GetState_PutState_ne _ _ (userAssetKey_ne_inventoryKey _ _ _),
              GetState_PutState_ne _ _ (userAssetKey_ne_inventoryKey _ _ _)]
          have h3 := UpdateBalance_subtract hba2 hb
          obtain ⟨s3, hs3⟩ : ∃ s3, s2.PutState (GetUserAssetKey (buyerOf trade))
            (.userAsset { ba with Balance := ba.Balance - trade.Price,
                                  UpdatedAt := GetTxTimestamp ctx }) = s3 := ⟨_, rfl⟩
          rw [hs3] at h3
          cases hsa : GetUserAssets ctx s3 (sellerOf trade) with
          | error e =>
            have h4 : UpdateBalance ctx s3 (sellerOf trade) trade.Price "add" = ⟨some e, s3⟩ :=
              UpdateBalance_err_of_read hsa
            simp only [sellerOf, buyerOf] at hsi hba h1 h2 h3 h4
            simp [ExecuteTrade, hT, hp, hsi, hq, hba, hb, h1, h2, h3, h4] at hok
          | ok sa =>
            have h4 := UpdateBalance_add (a := trade.Price) hsa
            refine ⟨trade, si, bi, ba, sa, rfl, hp, hsi, hq, hba, hb, ?_, ?_, ?_⟩
            · rw [hs1]; exact hbi
            · rw [hs1, hs2, hs3]; exact hsa
            · unfold settledStub
              rw [hs1, hs2, hs3]
              simp only [sellerOf, buyerOf] at hsi hba h1 h2 h3 h4 ⊢
              simp [ExecuteTrade, hT, hp, hsi, hq, hba, hb, h1, h2, h3, h4]

theorem GetState_settledStub (ctx : Ctx) (s : Stub) (tid : String) (trade : Trade)
    (si bi : Inventory) (ba sa : UserAsset) (key : String) :
    (settledStub ctx s tid trade si bi ba sa).GetState key =
      if key = GetTradeKey tid then
        some (.trade { trade with Status := "successful", CompletedAt := GetTxTimestamp ctx })
      else if key = GetUserAssetKey (sellerOf trade) then
        some (.userAsset { sa with Balance := sa.Balance + trade.Price,
                                   UpdatedAt := GetTxTimestamp ctx })
      else if key = GetUserAssetKey (buyerOf trade) then
        some (.userAsset { ba with Balance := ba.Balance - trade.Price,
                                   UpdatedAt := GetTxTimestamp ctx })
      else if key = GetInventoryKey (buyerOf trade) trade.CommodityID then
        some (.inventory { bi with Quantity := wrapInt (bi.Quantity + trade.Quantity),
                                   UpdatedAt := GetTxTimestamp ctx })
      else if key = GetInventoryKey (sellerOf trade) trade.CommodityID then
        some (.inventory { si with Quantity := wrapInt (si.Quantity - trade.Quantity),
                                   UpdatedAt := GetTxTimestamp ctx })
      else s.GetState key := by
  unfold settledStub
  simp only [GetState_SetEvent, GetState_PutState]

theorem balanceOf_eq_of_stored {ctx : Ctx} {s : Stub} {u : String} {a : UserAsset}
    (h : s.GetState (GetUserAssetKey u) = some (.userAsset a)) :
    balanceOf ctx s u = some a.Balance := by
  unfold balanceOf
  rw [GetUserAssets_ok_iff.mpr h]

theorem quantityOf_eq_of_stored {ctx : Ctx} {s : Stub} {u c : String} {i : Inventory}
    (h : s.GetState (GetInventoryKey u c) = some (.inventory i)) :
    quantityOf ctx s u c = some i.Quantity := by
  unfold quantityOf
  rw [GetInventory_of_stored h]

theorem balanceOf_eq_of_read {ctx : Ctx} {s : Stub} {u : String} {a : UserAsset}
    (h : GetUserAssets ctx s u = .ok a) : balanceOf ctx s u = some a.Balance := by
  unfold balanceOf
  rw [h]

theorem quantityOf_eq_of_read {ctx : Ctx} {s : Stub} {u c : String} {i : Inventory}
    (h : GetInventory ctx s u c = .ok i) : quantityOf ctx s u c = some i.Quantity := by
  unfold quantityOf
  rw [h]

/-- What a successful ExecuteTrade between two different users read and wrote. -/
theorem ExecuteTrade_ok_distinct {ctx : Ctx} {s : Stub} {tid : String} {trade : Trade}
    (hT : GetTradeStatus ctx s tid = .ok trade) (hne : sellerOf trade ≠ buyerOf trade)
    (hok : (ExecuteTrade ctx s tid).err = none) :
    ∃ si bi ba sa,
      GetInventory ctx s (sellerOf trade) trade.CommodityID = .ok si ∧
      GetInventory ctx s (buyerOf trade) trade.CommodityID = .ok bi ∧
      GetUserAssets ctx s (buyerOf trade) = .ok ba ∧
      GetUserAssets ctx s (sellerOf trade) = .ok sa ∧
      ¬ si.Quantity < trade.Quantity ∧ ¬ ba.Balance < trade.Price ∧
      (ExecuteTrade ctx s tid).stub = settledStub ctx s tid trade si bi ba sa := by
  obtain ⟨trade', si, bi, ba, sa, hT', -, hsi, hq, hba, hb, hbi, hsa, hst⟩ := ExecuteTrade_ok hok
  rw [hT] at hT'
  cases hT'
  refine ⟨si, bi, ba, sa, hsi, ?_, hba, ?_, hq, hb, hst⟩
  · rw [← hbi]
    symm
    apply GetInventory_congr
    apply GetState_PutState_ne
    intro h
    exact hne (GetInventoryKey_inj_user h).symm
  · rw [← hsa]
    symm
    apply GetUserAssets_congr
    rw [GetState_PutState_ne _ _ (fun h => hne (GetUserAssetKey_inj h)),
      GetState_PutState_ne _ _ (userAssetKey_ne_inventoryKey _ _ _),
      GetState_PutState_ne _ _ (userAssetKey_ne_inventoryKey _ _ _)]

/-- What a successful ExecuteTrade of a user with themselves read and wrote. -/
theorem ExecuteTrade_ok_self {ctx : Ctx} {s : Stub} {tid : String} {trade : Trade}
    (hT : GetTradeStatus ctx s tid = .ok trade) (heq : sellerOf trade = buyerOf trade)
    (hok : (ExecuteTrade ctx s tid).err = none) :
    ∃ si ba,
      GetInventory ctx s (sellerOf trade) trade.CommodityID = .ok si ∧
      GetUserAssets ctx s (sellerOf trade) = .ok ba ∧
      ¬ si.Quantity < trade.Quantity ∧ ¬ ba.Balance < trade.Price ∧
      (ExecuteTrade ctx s tid).stub = settledStub ctx s tid trade si
        { si with Quantity := wrapInt (si.Quantity - trade.Quantity),
                  UpdatedAt := GetTxTimestamp ctx }
        ba { ba with Balance := ba.Balance - trade.Price, UpdatedAt := GetTxTimestamp ctx } := by
  obtain ⟨trade', si, bi, ba, sa, hT', -, hsi, hq, hba, hb, hbi, hsa, hst⟩ := ExecuteTrade_ok hok
  rw [hT] at hT'
  cases hT'
  rw [← heq] at hba hbi hsa
  rw [GetInventory_of_stored (GetState_PutState_self _ _ _)] at hbi
  rw [GetUserAssets_ok_iff.mpr (GetState_PutState_self _ _ _)] at hsa
  cases hbi
  cases hsa
  exact ⟨si, ba, hsi, hba, hq, hb, hst⟩

theorem sellerOf_ne_buyerOf {trade : Trade} (h : trade.FromUserID ≠ trade.ToUserID) :
    sellerOf trade ≠ buyerOf trade := by
  unfold sellerOf buyerOf
  split
  · exact Ne.symm h
  · exact h

/-- What the four holdings are before and after a successful ExecuteTrade between
two different users. -/
theorem ExecuteTrade_obs_distinct {ctx : Ctx} {s : Stub} {tid : String} {trade : Trade}
    (hT : GetTradeStatus ctx s tid = .ok trade) (hsb : sellerOf trade ≠ buyerOf trade)
    (hok : (ExecuteTrade ctx s tid).err = none) :
    ∃ qs qb bb bs,
      quantityOf ctx s (sellerOf trade) trade.CommodityID = some qs ∧
      quantityOf ctx s (buyerOf trade) trade.CommodityID = some qb ∧
      balanceOf ctx s (buyerOf trade) = some bb ∧
      balanceOf ctx s (sellerOf trade) = some bs ∧
      quantityOf ctx (ExecuteTrade ctx s tid).stub (sellerOf trade) trade.CommodityID
        = some (wrapInt (qs - trade.Quantity)) ∧
      quantityOf ctx (ExecuteTrade ctx s tid).stub (buyerOf trade) trade.CommodityID
        = some (wrapInt (qb + trade.Quantity)) ∧
      balanceOf ctx (ExecuteTrade ctx s tid).stub (buyerOf trade) = some (bb - trade.Price) ∧
      balanceOf ctx (ExecuteTrade ctx s tid).stub (sellerOf trade) = some (bs + trade.Price) := by
  obtain ⟨si, bi, ba, sa, hsi, hbi, hba, hsa, -, -, hst⟩ := ExecuteTrade_ok_distinct hT hsb hok
  have hks : GetInventoryKey (sellerOf trade) trade.CommodityID ≠
      GetInventoryKey (buyerOf trade) trade.CommodityID := fun h => hsb (GetInventoryKey_inj_user h)
  have hka : GetUserAssetKey (buyerOf trade) ≠ GetUserAssetKey (sellerOf trade) :=
    fun h => hsb (GetUserAssetKey_inj h).symm
  refine ⟨si.Quantity, bi.Quantity, ba.Balance, sa.Balance, quantityOf_eq_of_read hsi,
    quantityOf_eq_of_read hbi, balanceOf_eq_of_read hba, balanceOf_eq_of_read hsa,
    ?_, ?_, ?_, ?_⟩
  · refine quantityOf_eq_of_stored (i := ⟨si.UserID, si.CommodityID,
      wrapInt (si.Quantity - trade.Quantity), GetTxTimestamp ctx⟩) ?_
    rw [hst, GetState_settledStub]
    simp [inventoryKey_ne_tradeKey, inventoryKey_ne_userAssetKey, hks]
  · refine quantityOf_eq_of_stored (i := ⟨bi.UserID, bi.CommodityID,
      wrapInt (bi.Quantity + trade.Quantity), GetTxTimestamp ctx⟩) ?_
    rw [hst, GetState_settledStub]
    simp [inventoryKey_ne_tradeKey, inventoryKey_ne_userAssetKey]
  · refine balanceOf_eq_of_stored (a := ⟨ba.UserID, ba.Balance - trade.Price,
      GetTxTimestamp ctx⟩) ?_
    rw [hst, GetState_settledStub]
    simp [userAssetKey_ne_tradeKey, hka]
  · refine balanceOf_eq_of_stored (a := ⟨sa.UserID, sa.Balance + trade.Price,
      GetTxTimestamp ctx⟩) ?_
    rw [hst, GetState_settledStub]
    simp [userAssetKey_ne_tradeKey]

/-- What the holdings of a user are before and after a successful ExecuteTrade of
that user with themselves. -/
theorem ExecuteTrade_obs_self {ctx : Ctx} {s : Stub} {tid : String} {trade : Trade}
    (hT : GetTradeStatus ctx s tid = .ok trade) (heq : sellerOf trade = buyerOf trade)
    (hok : (ExecuteTrade ctx s tid).err = none) :
    ∃ q b,
      quantityOf ctx s (sellerOf trade) trade.CommodityID = some q ∧
      balanceOf ctx s (sellerOf trade) = some b ∧
      quantityOf ctx (ExecuteTrade ctx s tid).stub (sellerOf trade) trade.CommodityID
        = some (wrapInt (wrapInt (q - trade.Quantity) + trade.Quantity)) ∧
      balanceOf ctx (ExecuteTrade ctx s tid).stub (sellerOf trade)
        = some (b - trade.Price + trade.Price) := by
  obtain ⟨si, ba, hsi, hba, -, -, hst⟩ := ExecuteTrade_ok_self hT heq hok
  refine ⟨si.Quantity, ba.Balance, quantityOf_eq_of_read hsi, balanceOf_eq_of_read hba, ?_, ?_⟩
  · refine quantityOf_eq_of_stored (i := ⟨si.UserID, si.CommodityID,
      wrapInt (wrapInt (si.Quantity - trade.Quantity) + trade.Quantity), GetTxTimestamp ctx⟩) ?_
    rw [hst, GetState_settledStub]
    simp [inventoryKey_ne_tradeKey, inventoryKey_ne_userAssetKey, ← heq]
  · refine balanceOf_eq_of_stored (a := ⟨ba.UserID, ba.Balance - trade.Price + trade.Price,
      GetTxTimestamp ctx⟩) ?_
    rw [hst, GetState_settledStub]
    simp [userAssetKey_ne_tradeKey]

/-- C1 (amended): whenever ExecuteTrade succeeds, the sum of the buyer's and the
seller's balances after the call equals their sum before it; the sum of their
quantities of the traded commodity after the call is congruent modulo 2^64 to the
sum before it, and equal to it whenever the stored quantities, the seller's
quantity minus the trade quantity and the buyer's quantity plus the trade
quantity all lie in the 64-bit `int` range. -/
theorem ExecuteTrade_conservation (ctx : Ctx) (s : Stub) (tid : String)
    (hok : (ExecuteTrade ctx s tid).err = none) :
    ∃ trade bb bs bb' bs' qb qs qb' qs',
      GetTradeStatus ctx s tid = .ok trade ∧
      balanceOf ctx s (buyerOf trade) = some bb ∧
      balanceOf ctx s (sellerOf trade) = some bs ∧
      balanceOf ctx (ExecuteTrade ctx s tid).stub (buyerOf trade) = some bb' ∧
      balanceOf ctx (ExecuteTrade ctx s tid).stub (sellerOf trade) = some bs' ∧
      quantityOf ctx s (buyerOf trade) trade.CommodityID = some qb ∧
      quantityOf ctx s (sellerOf trade) trade.CommodityID = some qs ∧
      quantityOf ctx (ExecuteTrade ctx s tid).stub (buyerOf trade) trade.CommodityID = some qb' ∧
      quantityOf ctx (ExecuteTrade ctx s tid).stub (sellerOf trade) trade.CommodityID = some qs' ∧
      bb' + bs' = bb + bs ∧
      (qb' + qs') % 18446744073709551616 = (qb + qs) % 18446744073709551616 ∧
      (IsInt64 qs → IsInt64 qb → IsInt64 (qs - trade.Quantity) → IsInt64 (qb + trade.Quantity) →
        qb' + qs' = qb + qs) := by
  obtain ⟨trade, -, -, -, -, hT, -⟩ := ExecuteTrade_ok hok
  by_cases heq : sellerOf trade = buyerOf trade
  · obtain ⟨q, b, h1, h2, h3, h4⟩ := ExecuteTrade_obs_self hT heq hok
    refine ⟨trade, b, b, _, _, q, q, _, _, hT, heq ▸ h2, h2, heq ▸ h4, h4, heq ▸ h1, h1,
      heq ▸ h3, h3, by ring, ?_, ?_⟩
    · unfold wrapInt
      omega
    · intro hq _ _ _
      unfold IsInt64 at hq
      unfold wrapInt
      omega
  · obtain ⟨qs, qb, bb, bs, h1, h2, h3, h4, h5, h6, h7, h8⟩ := ExecuteTrade_obs_distinct hT heq hok
    refine ⟨trade, bb, bs, _, _, qb, qs, _, _, hT, h3, h4, h7, h8, h2, h1, h6, h5, by ring, ?_, ?_⟩
    · unfold wrapInt
      omega
    · intro _ _ hs hb
      rw [wrapInt_of_isInt64 hs, wrapInt_of_isInt64 hb]
      ring

set_option maxRecDepth 100000 in
/-- C1, instance: the trade of TestExecuteTrade succeeds and conserves both sums. -/
theorem ExecuteTrade_conservation_witness :
    (ExecuteTrade ctx0 tradeLedger "trade1").err = none ∧
    ∃ trade bb bs bb' bs' qb qs qb' qs',
      GetTradeStatus ctx0 tradeLedger "trade1" = .ok trade ∧
      balanceOf ctx0 tradeLedger (buyerOf trade) = some bb ∧
      balanceOf ctx0 tradeLedger (sellerOf trade) = some bs ∧
      balanceOf ctx0 (ExecuteTrade ctx0 tradeLedger "trade1").stub (buyerOf trade) = some bb' ∧
      balanceOf ctx0 (ExecuteTrade ctx0 tradeLedger "trade1").stub (sellerOf trade) = some bs' ∧
      quantityOf ctx0 tradeLedger (buyerOf trade) trade.CommodityID = some qb ∧
      quantityOf ctx0 tradeLedger (sellerOf trade) trade.CommodityID = some qs ∧
      quantityOf ctx0 (ExecuteTrade ctx0 tradeLedger "trade1").stub (buyerOf trade)
        trade.CommodityID = some qb' ∧
      quantityOf ctx0 (ExecuteTrade ctx0 tradeLedger "trade1").stub (sellerOf trade)
        trade.CommodityID = some qs' ∧
      bb' + bs' = bb + bs ∧
      (qb' + qs') % 18446744073709551616 = (qb + qs) % 18446744073709551616 ∧
      (IsInt64 qs → IsInt64 qb → IsInt64 (qs - trade.Quantity) → IsInt64 (qb + trade.Quantity) →
        qb' + qs' = qb + qs) :=
  ⟨by decide!, ExecuteTrade_conservation ctx0 tradeLedger "trade1" (by decide!)⟩

set_option maxRecDepth 100000 in
/-- C1 as stated fails: with the buyer already holding 9223372036854775807 units,
the trade succeeds and the two quantities sum to 9223372036854775817 before the
call and to -9223372036854775799 after it. -/
theorem ExecuteTrade_conservation_counterexample :
    (ExecuteTrade ctx0 fullBuyerLedger "trade1").err = none ∧
    GetTradeStatus ctx0 fullBuyerLedger "trade1" = .ok trade1 ∧
    buyerOf trade1 = "user1" ∧ sellerOf trade1 = "user2" ∧ trade1.CommodityID = "commodity1" ∧
    quantityOf ctx0 fullBuyerLedger "user1" "commodity1" = some 9223372036854775807 ∧
    quantityOf ctx0 fullBuyerLedger "user2" "commodity1" = some 10 ∧
    quantityOf ctx0 (ExecuteTrade ctx0 fullBuyerLedger "trade1").stub "user1" "commodity1"
      = some (-9223372036854775804) ∧
    quantityOf ctx0 (ExecuteTrade ctx0 fullBuyerLedger "trade1").stub "user2" "commodity1"
      = some 5 ∧
    (-9223372036854775804 : Int) + 5 ≠ 9223372036854775807 + 10 := by
  decide!

/-- C2 (amended): when ExecuteTrade succeeds on a stored trade whose two users
differ, the buyer is fromUserId and the seller toUserId for action 'buy', the
seller is fromUserId and the buyer toUserId for action 'sell'; the buyer's
balance goes down by the price and the seller's up by the price; the seller's
quantity of the commodity becomes the old quantity minus the trade quantity and
the buyer's the old quantity plus the trade quantity, each reduced to the 64-bit
`int` range, hence exactly lowered and raised by the trade quantity whenever
that result lies in the range. -/
theorem ExecuteTrade_transfers (ctx : Ctx) (s : Stub) (tid : String) (trade : Trade)
    (hT : GetTradeStatus ctx s tid = .ok trade)
    (hne : trade.FromUserID ≠ trade.ToUserID)
    (hok : (ExecuteTrade ctx s tid).err = none) :
    (trade.Action = "buy" →
      buyerOf trade = trade.FromUserID ∧ sellerOf trade = trade.ToUserID) ∧
    (trade.Action = "sell" →
      sellerOf trade = trade.FromUserID ∧ buyerOf trade = trade.ToUserID) ∧
    ∃ qs qb bb bs,
      quantityOf ctx s (sellerOf trade) trade.CommodityID = some qs ∧
      quantityOf ctx s (buyerOf trade) trade.CommodityID = some qb ∧
      balanceOf ctx s (buyerOf trade) = some bb ∧
      balanceOf ctx s (sellerOf trade) = some bs ∧
      quantityOf ctx (ExecuteTrade ctx s tid).stub (sellerOf trade) trade.CommodityID
        = some (wrapInt (qs - trade.Quantity)) ∧
      quantityOf ctx (ExecuteTrade ctx s tid).stub (buyerOf trade) trade.CommodityID
        = some (wrapInt (qb + trade.Quantity)) ∧
      balanceOf ctx (ExecuteTrade ctx s tid).stub (buyerOf trade) = some (bb - trade.Price) ∧
      balanceOf ctx (ExecuteTrade ctx s tid).stub (sellerOf trade) = some (bs + trade.Price) ∧
      (IsInt64 (qs - trade.Quantity) →
        quantityOf ctx (ExecuteTrade ctx s tid).stub (sellerOf trade) trade.CommodityID
          = some (qs - trade.Quantity)) ∧
      (IsInt64 (qb + trade.Quantity) →
        quantityOf ctx (ExecuteTrade ctx s tid).stub (buyerOf trade) trade.CommodityID
          = some (qb + trade.Quantity)) := by
  refine ⟨fun h => by simp [buyerOf, sellerOf, h], fun h => by simp [buyerOf, sellerOf, h], ?_⟩
  obtain ⟨qs, qb, bb, bs, h1, h2, h3, h4, h5, h6, h7, h8⟩ :=
    ExecuteTrade_obs_distinct hT (sellerOf_ne_buyerOf hne) hok
  refine ⟨qs, qb, bb, bs, h1, h2, h3, h4, h5, h6, h7, h8, ?_, ?_⟩
  · intro h
    rw [h5, wrapInt_of_isInt64 h]
  · intro h
    rw [h6, wrapInt_of_isInt64 h]

set_option maxRecDepth 100000 in
/-- C2, instance: the trade of TestExecuteTrade moves 5 units from user2 to user1
and 100 from user1 to user2. -/
theorem ExecuteTrade_transfers_witness :
    (GetTradeStatus ctx0 tradeLedger "trade1" = .ok trade1 ∧
      (ExecuteTrade ctx0 tradeLedger "trade1").err = none) ∧
    ∃ qs qb bb bs,
      quantityOf ctx0 tradeLedger (sellerOf trade1) trade1.CommodityID = some qs ∧
      quantityOf ctx0 tradeLedger (buyerOf trade1) trade1.CommodityID = some qb ∧
      balanceOf ctx0 tradeLedger (buyerOf trade1) = some bb ∧
      balanceOf ctx0 tradeLedger (sellerOf trade1) = some bs ∧
      quantityOf ctx0 (ExecuteTrade ctx0 tradeLedger "trade1").stub (sellerOf trade1)
        trade1.CommodityID = some (wrapInt (qs - trade1.Quantity)) ∧
      quantityOf ctx0 (ExecuteTrade ctx0 tradeLedger "trade1").stub (buyerOf trade1)
        trade1.CommodityID = some (wrapInt (qb + trade1.Quantity)) ∧
      balanceOf ctx0 (ExecuteTrade ctx0 tradeLedger "trade1").stub (buyerOf trade1)
        = some (bb - trade1.Price) ∧
      balanceOf ctx0 (ExecuteTrade ctx0 tradeLedger "trade1").stub (sellerOf trade1)
        = some (bs + trade1.Price) ∧
      (IsInt64 (qs - trade1.Quantity) →
        quantityOf ctx0 (ExecuteTrade ctx0 tradeLedger "trade1").stub (sellerOf trade1)
          trade1.CommodityID = some (qs - trade1.Quantity)) ∧
      (IsInt64 (qb + trade1.Quantity) →
        quantityOf ctx0 (ExecuteTrade ctx0 tradeLedger "trade1").stub (buyerOf trade1)
          trade1.CommodityID = some (qb + trade1.Quantity)) :=
  ⟨⟨by decide!, by decide!⟩,
    (ExecuteTrade_transfers ctx0 tradeLedger "trade1" trade1 (by decide!) (by decide)
      (by decide!)).2.2⟩

set_option maxRecDepth 100000 in
/-- C2 as stated fails: with the buyer already holding 9223372036854775807 units,
a successful trade of 5 units leaves the buyer with -9223372036854775804 units,
not with 5 more than before. -/
theorem ExecuteTrade_transfers_counterexample :
    GetTradeStatus ctx0 fullBuyerLedger "trade1" = .ok trade1 ∧
    trade1.Status = "pending" ∧ buyerOf trade1 = "user1" ∧ sellerOf trade1 = "user2" ∧
    (ExecuteTrade ctx0 fullBuyerLedger "trade1").err = none ∧
    quantityOf ctx0 fullBuyerLedger "user1" "commodity1" = some 9223372036854775807 ∧
    quantityOf ctx0 (ExecuteTrade ctx0 fullBuyerLedger "trade1").stub "user1" "commodity1"
      = some (-9223372036854775804) ∧
    (-9223372036854775804 : Int) ≠ 9223372036854775807 + trade1.Quantity := by
  decide!

/-! ## Non-negativity -/

theorem mem_insertKey {key : String} {value : Entry} {l : List (String × Entry)}
    {kv : String × Entry} (h : kv ∈ insertKey key value l) : kv = (key, value) ∨ kv ∈ l := by
  induction l with
  | nil =>
    simp [insertKey] at h
    exact Or.inl h
  | cons hd rest ih =>
    obtain ⟨k, v⟩ := hd
    by_cases hk : k = key
    · simp [insertKey, hk] at h
      rcases h with h | h
      · exact Or.inl h
      · exact Or.inr (List.mem_cons_of_mem _ h)
    · simp [insertKey, hk] at h
      rcases h with h | h
      · exact Or.inr (h ▸ List.mem_cons_self _ _)
      · rcases ih h with h2 | h2
        · exact Or.inl h2
        · exact Or.inr (List.mem_cons_of_mem _ h2)

theorem lookupKey_mem {key : String} {value : Entry} {l : List (String × Entry)}
    (h : lookupKey key l = some value) : (key, value) ∈ l := by
  induction l with
  | nil => simp [lookupKey] at h
  | cons hd rest ih =>
    obtain ⟨k, v⟩ := hd
    by_cases hk : k = key
    · simp [lookupKey, hk] at h
      subst hk; subst h
      exact List.mem_cons_self _ _
    · simp [lookupKey, hk] at h
      exact List.mem_cons_of_mem _ (ih h)

theorem AllOk_PutState {s : Stub} (h : AllOk s) (key : String) {value : Entry}
    (hv : entryOk value) : AllOk (s.PutState key value) := by
  intro kv hkv
  rcases mem_insertKey hkv with h1 | h1
  · rw [h1]; exact hv
  · exact h kv h1

theorem AllOk_SetEvent {s : Stub} (h : AllOk s) (name : String) (payload : EventPayload) :
    AllOk (s.SetEvent name payload) := h

theorem AllOk_stored {s : Stub} (h : AllOk s) {key : String} {value : Entry}
    (hv : s.GetState key = some value) : entryOk value :=
  h (key, value) (lookupKey_mem hv)

theorem AllOk_nonNegative {s : Stub} (h : AllOk s) : NonNegative s := by
  intro kv hkv
  have := h kv hkv
  cases hkv2 : kv.2 <;> rw [hkv2] at this <;> simp only [entryNonNeg]
  · exact this
  · exact this.1

theorem AllOk_inventory {ctx : Ctx} {s : Stub} (h : AllOk s) {u c : String} {i : Inventory}
    (hi : GetInventory ctx s u c = .ok i) : 0 ≤ i.Quantity ∧ i.Quantity < 9223372036854775808 := by
  unfold GetInventory at hi
  cases hg : s.GetState (GetInventoryKey u c) with
  | none =>
    rw [hg] at hi
    cases hi
    simp
  | some e =>
    rw [hg] at hi
    cases e <;> simp at hi
    subst hi
    exact AllOk_stored h hg

theorem AllOk_userAsset {ctx : Ctx} {s : Stub} (h : AllOk s) {u : String} {a : UserAsset}
    (ha : GetUserAssets ctx s u = .ok a) : 0 ≤ a.Balance :=
  AllOk_stored h (GetUserAssets_ok_iff.mp ha)

theorem AllOk_UpdateBalance {ctx : Ctx} {s : Stub} (h : AllOk s) (u : String) {a : ℚ}
    (ha : 0 ≤ a) (op : String) : AllOk (UpdateBalance ctx s u a op).stub := by
  cases hx : GetUserAssets ctx s u with
  | error e => rw [UpdateBalance_err_of_read hx]; exact h
  | ok x =>
    have hx0 := AllOk_userAsset h hx
    unfold UpdateBalance
    rw [hx]
    simp only
    split
    · exact AllOk_PutState h _ (add_nonneg hx0 ha)
    · split
      · split
        · exact h
        · rename_i hlt
          exact AllOk_PutState h _ (by simpa [entryOk] using le_of_not_lt hlt)
      · exact h

theorem AllOk_UpdateInventory_subtract {ctx : Ctx} {s : Stub} (h : AllOk s) (u c : String)
    {q : Int} (hq : 0 ≤ q) : AllOk (UpdateInventory ctx s u c q "subtract").stub := by
  cases hi : GetInventory ctx s u c with
  | error e => rw [UpdateInventory_err_of_read hi]; exact h
  | ok i =>
    have hi0 := AllOk_inventory h hi
    by_cases hlt : i.Quantity < q
    · unfold UpdateInventory
      rw [hi]
      simp [hlt]
      exact h
    · rw [UpdateInventory_subtract hi hlt]
      apply AllOk_PutState h
      simp only [entryOk]
      have : IsInt64 (i.Quantity - q) := by unfold IsInt64; omega
      rw [wrapInt_of_isInt64 this]
      omega

theorem AllOk_UpdateInventory_add {ctx : Ctx} {s : Stub} (h : AllOk s) (u c : String)
    {q : Int} (hq : 0 ≤ q)
    (hno : ∀ i, GetInventory ctx s u c = .ok i → i.Quantity + q < 9223372036854775808) :
    AllOk (UpdateInventory ctx s u c q "add").stub := by
  cases hi : GetInventory ctx s u c with
  | error e => rw [UpdateInventory_err_of_read hi]; exact h
  | ok i =>
    have hi0 := AllOk_inventory h hi
    have hn := hno i hi
    rw [UpdateInventory_add hi]
    apply AllOk_PutState h
    simp only [entryOk]
    have : IsInt64 (i.Quantity + q) := by unfold IsInt64; omega
    rw [wrapInt_of_isInt64 this]
    omega

/-- The stub ExecuteTrade leaves is the stub it was given, or the stub after one of
its four ledger updates, or the stub after the final write of the trade record. -/
theorem ExecuteTrade_stub_cases (ctx : Ctx) (s : Stub) (tid : String) :
    ((ExecuteTrade ctx s tid).err ≠ none ∧ (ExecuteTrade ctx s tid).stub = s) ∨
    ∃ trade si ba, GetTradeStatus ctx s tid = .ok trade ∧ trade.Status = "pending" ∧
      GetInventory ctx s (sellerOf trade) trade.CommodityID = .ok si ∧
      ¬ si.Quantity < trade.Quantity ∧
      GetUserAssets ctx s (buyerOf trade) = .ok ba ∧ ¬ ba.Balance < trade.Price ∧
      (((ExecuteTrade ctx s tid).err ≠ none ∧ (ExecuteTrade ctx s tid).stub =
          (UpdateInventory ctx s (sellerOf trade) trade.CommodityID trade.Quantity "subtract").stub) ∨
       ((ExecuteTrade ctx s tid).err ≠ none ∧ (ExecuteTrade ctx s tid).stub =
          (UpdateInventory ctx
            (UpdateInventory ctx s (sellerOf trade) trade.CommodityID trade.Quantity "subtract").stub
            (buyerOf trade) trade.CommodityID trade.Quantity "add").stub) ∨
       ((ExecuteTrade ctx s tid).err ≠ none ∧ (ExecuteTrade ctx s tid).stub =
          (UpdateBalance ctx (UpdateInventory ctx
            (UpdateInventory ctx s (sellerOf trade) trade.CommodityID trade.Quantity "subtract").stub
            (buyerOf trade) trade.CommodityID trade.Quantity "add").stub
            (buyerOf trade) trade.Price "subtract").stub) ∨
       ((ExecuteTrade ctx s tid).err ≠ none ∧ (ExecuteTrade ctx s tid).stub =
          (UpdateBalance ctx (UpdateBalance ctx (UpdateInventory ctx
            (UpdateInventory ctx s (sellerOf trade) trade.CommodityID trade.Quantity "subtract").stub
            (buyerOf trade) trade.CommodityID trade.Quantity "add").stub
            (buyerOf trade) trade.Price "subtract").stub (sellerOf trade) trade.Price "add").stub) ∨
       ((ExecuteTrade ctx s tid).err = none ∧ (ExecuteTrade ctx s tid).stub =
          ((UpdateBalance ctx (UpdateBalance ctx (UpdateInventory ctx
            (UpdateInventory ctx s (sellerOf trade) trade.CommodityID trade.Quantity "subtract").stub
            (buyerOf trade) trade.CommodityID trade.Quantity "add").stub
            (buyerOf trade) trade.Price "subtract").stub
            (sellerOf trade) trade.Price "add").stub.PutState (GetTradeKey tid)
              (.trade { trade with Status := "successful",
                                   CompletedAt := GetTxTimestamp ctx })).SetEvent "TradeExecuted"
              (.tradeExecuted trade.TradeID trade.FromUserID trade.ToUserID trade.CommodityID
                trade.Quantity trade.Price (GetTxTimestamp ctx)))) := by
  cases hT : GetTradeStatus ctx s tid with
  | error e => left; simp [ExecuteTrade, hT]
  | ok trade =>
    by_cases hp : trade.Status = "pending"
    swap
    · left; simp [ExecuteTrade, hT, hp]
    cases hsi : GetInventory ctx s (sellerOf trade) trade.CommodityID with
    | error e =>
      simp only [sellerOf] at hsi
      left; simp [ExecuteTrade, hT, hp, hsi]
    | ok si =>
      by_cases hq : si.Quantity < trade.Quantity
      · simp only [sellerOf] at hsi
        left; simp [ExecuteTrade, hT, hp, hsi, hq]
      cases hba : GetUserAssets ctx s (buyerOf trade) with
      | error e =>
        simp only [sellerOf, buyerOf] at hsi hba
        left; simp [ExecuteTrade, hT, hp, hsi, hq, hba]
      | ok ba =>
        by_cases hb : ba.Balance < trade.Price
        · simp only [sellerOf, buyerOf] at hsi hba
          left; simp [ExecuteTrade, hT, hp, hsi, hq, hba, hb]
        right
        refine ⟨trade, si, ba, rfl, hp, hsi, hq, hba, hb, ?_⟩
        simp only [sellerOf, buyerOf] at hsi hba ⊢
        simp only [ExecuteTrade, hT, hp, hsi, hq, hba, hb]
        simp only [ne_eq, not_true_eq_false, if_false]
        repeat' split
        all_goals simp

theorem AllOk_ExecuteTrade {ctx : Ctx} {s : Stub} (h : AllOk s) (tid : String)
    (hno : NoOverflow ctx s (.executeTrade tid)) : AllOk (ExecuteTrade ctx s tid).stub := by
  rcases ExecuteTrade_stub_cases ctx s tid with ⟨-, h0⟩ | ⟨trade, si, ba, hT, -, hsi, hq, -, -, hc⟩
  · rw [h0]; exact h
  have ht := AllOk_stored h (GetTradeStatus_ok_iff.mp hT)
  simp only [entryOk] at ht
  have h1 : AllOk (UpdateInventory ctx s (sellerOf trade) trade.CommodityID trade.Quantity
      "subtract").stub := AllOk_UpdateInventory_subtract h _ _ ht.1
  have h2 : AllOk (UpdateInventory ctx (UpdateInventory ctx s (sellerOf trade) trade.CommodityID
      trade.Quantity "subtract").stub (buyerOf trade) trade.CommodityID trade.Quantity
      "add").stub := by
    apply AllOk_UpdateInventory_add h1 _ _ ht.1
    intro i hi
    by_cases heq : sellerOf trade = buyerOf trade
    · rw [UpdateInventory_subtract hsi hq, ← heq,
        GetInventory_of_stored (GetState_PutState_self _ _ _)] at hi
      cases hi
      have hs0 := AllOk_inventory h hsi
      have : IsInt64 (si.Quantity - trade.Quantity) := by unfold IsInt64; omega
      simp only [wrapInt_of_isInt64 this]
      omega
    · have hi2 : GetInventory ctx s (buyerOf trade) trade.CommodityID = .ok i := by
        rw [← hi]
        symm
        apply GetInventory_congr
        apply UpdateInventory_GetState_ne
        exact fun hk => heq (GetInventoryKey_inj_user hk).symm
      simp only [NoOverflow, hT, creditFits, hi2, addFits] at hno
      exact hno heq
  have h3 := @AllOk_UpdateBalance ctx _ h2 (buyerOf trade) _ ht.2 "subtract"
  have h4 := @AllOk_UpdateBalance ctx _ h3 (sellerOf trade) _ ht.2 "add"
  rcases hc with ⟨-, hc⟩ | ⟨-, hc⟩ | ⟨-, hc⟩ | ⟨-, hc⟩ | ⟨-, hc⟩
  · rw [hc]; exact h1
  · rw [hc]; exact h2
  · rw [hc]; exact h3
  · rw [hc]; exact h4
  · rw [hc]
    apply AllOk_SetEvent
    apply AllOk_PutState h4
    exact ht

theorem AllOk_deductItems {ctx : Ctx} (u : String) (items : List RequiredItem)
    (hitems : ∀ item ∈ items, 0 ≤ item.Quantity) :
    ∀ {s : Stub}, AllOk s → AllOk (deductItems ctx u items s).stub := by
  induction items with
  | nil => intro s h; exact h
  | cons item rest ih =>
    intro s h
    have h1 := @AllOk_UpdateInventory_subtract ctx _ h u item.CommodityID _
      (hitems item (List.mem_cons_self _ _))
    unfold deductItems
    simp only
    split
    · exact h1
    · exact ih (fun it hit => hitems it (List.mem_cons_of_mem _ hit)) h1

/-- The stub ExecuteRedemption leaves is the stub it was given, or the stub after
the deductions, or after the reward, or after the record is written. -/
theorem ExecuteRedemption_stub_cases (ctx : Ctx) (s : Stub) (u r : String) :
    ((ExecuteRedemption ctx s u r).err ≠ none ∧ (ExecuteRedemption ctx s u r).stub = s) ∨
    ∃ rule, GetRedemptionRule ctx s u = .ok rule ∧
      verifyItems ctx s u rule.RequiredItems = none ∧
      (((ExecuteRedemption ctx s u r).err ≠ none ∧
          (ExecuteRedemption ctx s u r).stub = (deductItems ctx u rule.RequiredItems s).stub) ∨
       ((ExecuteRedemption ctx s u r).err ≠ none ∧ (ExecuteRedemption ctx s u r).stub =
          (UpdateBalance ctx (deductItems ctx u rule.RequiredItems s).stub u rule.RewardAmount
            "add").stub) ∨
       ((ExecuteRedemption ctx s u r).err = none ∧
          (deductItems ctx u rule.RequiredItems s).err = none ∧
          (UpdateBalance ctx (deductItems ctx u rule.RequiredItems s).stub u rule.RewardAmount
            "add").err = none ∧
        (ExecuteRedemption ctx s u r).stub =
          ((UpdateBalance ctx (deductItems ctx u rule.RequiredItems s).stub u rule.RewardAmount
            "add").stub.PutState (GetRedemptionRecordKey r)
              (.redemptionRecord ⟨r, u, rule.RuleID, rule.RewardAmount, rule.RequiredItems,
                GetTxTimestamp ctx⟩)).SetEvent "RedemptionExecuted"
              (.redemptionExecuted r u rule.RuleID rule.RewardAmount (GetTxTimestamp ctx)))) := by
  cases hR : GetRedemptionRule ctx s u with
  | error e => left; simp [ExecuteRedemption, hR]
  | ok rule =>
    cases hv : verifyItems ctx s u rule.RequiredItems with
    | some e => left; simp [ExecuteRedemption, hR, hv]
    | none =>
      right
      refine ⟨rule, rfl, hv, ?_⟩
      simp only [ExecuteRedemption, hR, hv]
      repeat' split
      all_goals simp_all

theorem AllOk_ExecuteRedemption {ctx : Ctx} {s : Stub} (h : AllOk s) (u r : String) :
    AllOk (ExecuteRedemption ctx s u r).stub := by
  rcases ExecuteRedemption_stub_cases ctx s u r with ⟨-, h0⟩ | ⟨rule, hR, -, hc⟩
  · rw [h0]; exact h
  have hr := AllOk_stored h (GetRedemptionRule_ok_iff.mp hR)
  simp only [entryOk] at hr
  have h1 := @AllOk_deductItems ctx u rule.RequiredItems hr.2 s h
  have h2 := @AllOk_UpdateBalance ctx _ h1 u _ hr.1 "add"
  rcases hc with ⟨-, hc⟩ | ⟨-, hc⟩ | ⟨-, -, -, hc⟩
  · rw [hc]; exact h1
  · rw [hc]; exact h2
  · rw [hc]
    apply AllOk_SetEvent
    apply AllOk_PutState h2
    trivial

theorem AllOk_CreateCommodity {codec : Codec} {ctx : Ctx} {s : Stub} (h : AllOk s)
    (c n m : String) : AllOk (CreateCommodity codec ctx s c n m).stub := by
  unfold CreateCommodity
  repeat' split
  all_goals first
    | exact h
    | exact AllOk_PutState h _ trivial

theorem AllOk_createAll {codec : Codec} {ctx : Ctx} (l : List (String × String × String)) :
    ∀ {s : Stub}, AllOk s → AllOk (createAll codec ctx l s) := by
  induction l with
  | nil => intro s h; exact h
  | cons hd rest ih =>
    intro s h
    obtain ⟨id, name, metadata⟩ := hd
    exact ih (AllOk_CreateCommodity h id name metadata)

theorem AllOk_queryOutcome {α : Type} {s : Stub} (h : AllOk s) (r : Except String α) :
    AllOk (queryOutcome s r).stub := by
  cases r <;> exact h

theorem AllOk_invoke {codec : Codec} {ctx : Ctx} {s : Stub} (h : AllOk s) (call : Call)
    (hargs : NonNegArgs codec call) (hno : NoOverflow ctx s call) :
    AllOk (invoke codec ctx s call).stub := by
  cases call with
  | initUser u b =>
    simp only [invoke, InitUser]
    split
    · exact h
    · exact AllOk_PutState h _ hargs
  | updateBalance u a op => exact AllOk_UpdateBalance h u hargs op
  | updateInventory u c q op =>
    simp only [invoke]
    by_cases hadd : op = "add"
    · subst hadd
      apply AllOk_UpdateInventory_add h u c hargs
      intro i hi
      simp only [NoOverflow, hi, addFits] at hno
      exact hno trivial
    · by_cases hsub : op = "subtract"
      · subst hsub
        exact AllOk_UpdateInventory_subtract h u c hargs
      · unfold UpdateInventory
        split
        · exact h
        · simp only [hadd, hsub, if_false]
          exact h
  | createCommodity c n m => exact AllOk_CreateCommodity h c n m
  | initializeCommodities =>
    simp only [invoke, InitializeCommodities]
    exact AllOk_createAll defaultCommodities h
  | createTrade t f u c q p a =>
    simp only [invoke, CreateTrade]
    repeat' split
    all_goals first
      | exact h
      | exact AllOk_PutState h _ hargs
  | executeTrade t => exact AllOk_ExecuteTrade h t hno
  | rejectTrade t =>
    simp only [invoke, RejectTrade]
    split
    · exact h
    · rename_i trade hT
      split
      · exact h
      · have ht : entryOk (.trade trade) := AllOk_stored h (GetTradeStatus_ok_iff.mp hT)
        exact AllOk_PutState h _ ht
  | createRedemptionRule u items r =>
    simp only [invoke, CreateRedemptionRule]
    split
    · exact h
    · rename_i l hl
      split
      · exact h
      · split
        · exact h
        · rename_i hr
          split
          · exact h
          · simp only [NonNegArgs, hl, itemsNonNeg] at hargs
            exact AllOk_PutState h _ ⟨le_of_lt (lt_of_not_le hr), hargs⟩
  | executeRedemption u r => exact AllOk_ExecuteRedemption h u r
  | getUserAssets u => exact AllOk_queryOutcome h _
  | getInventory u c => exact AllOk_queryOutcome h _
  | getAllInventory u => exact AllOk_queryOutcome h _
  | getCommodity c => exact AllOk_queryOutcome h _
  | getAllCommodities => exact AllOk_queryOutcome h _
  | getTradeStatus t => exact AllOk_queryOutcome h _
  | getTradeHistory u => exact AllOk_queryOutcome h _
  | getRedemptionRule u => exact AllOk_queryOutcome h _
  | getRedemptionHistory u => exact AllOk_queryOutcome h _

theorem AllOk_run {codec : Codec} (calls : List (Ctx × Call)) :
    ∀ {s : Stub}, AllOk s → Admissible codec calls s → AllOk (run codec calls s) := by
  induction calls with
  | nil => intro s h _; exact h
  | cons hd rest ih =>
    intro s h hadm
    obtain ⟨ctx, call⟩ := hd
    obtain ⟨hargs, hno, hrest⟩ := hadm
    exact ih (AllOk_invoke h call hargs hno) hrest

theorem AllOk_emptyStub : AllOk emptyStub := by
  intro kv hkv
  simp [emptyStub] at hkv

end Chaincode

namespace Chaincode
set_option maxRecDepth 100000 in
example : Admissible sampleCodec
    [ (ctx0, .initUser "user1" 1000), (ctx0, .initUser "user2" 1000),
      (ctx0, .updateInventory "user2" "commodity1" 10 "add"),
      (ctx0, .createTrade "trade1" "user1" "user2" "commodity1" 5 100 "buy"),
      (ctx0, .executeTrade "trade1") ] emptyStub := by decide!

/-- C3 (amended): starting from the empty ledger, after any sequence of public
operations whose balance, amount, price and quantity arguments are non-negative
and in which no inventory addition leaves the 64-bit `int` range, every stored
balance and every stored inventory quantity is non-negative; and in the state
reached an UpdateBalance or UpdateInventory 'subtract' of more than the stored
balance or quantity fails with the insufficient-balance or insufficient-inventory
error and leaves the state unchanged. -/
theorem nonNegative_of_admissible (codec : Codec) (calls : List (Ctx × Call))
    (hadm : Admissible codec calls emptyStub) :
    NonNegative (run codec calls emptyStub) ∧
    (∀ ctx u a x, GetUserAssets ctx (run codec calls emptyStub) u = .ok x → x.Balance < a →
      UpdateBalance ctx (run codec calls emptyStub) u a "subtract" =
        ⟨some ("insufficient balance for user " ++ u), run codec calls emptyStub⟩) ∧
    (∀ ctx u c q i, GetInventory ctx (run codec calls emptyStub) u c = .ok i → i.Quantity < q →
      UpdateInventory ctx (run codec calls emptyStub) u c q "subtract" =
        ⟨some ("insufficient inventory for user " ++ u ++ ", commodity " ++ c),
          run codec calls emptyStub⟩) := by
  refine ⟨AllOk_nonNegative (AllOk_run calls AllOk_emptyStub hadm), ?_, ?_⟩
  · intro ctx u a x hx hlt
    unfold UpdateBalance
    rw [hx]
    simp [hlt]
  · intro ctx u c q i hi hlt
    unfold UpdateInventory
    rw [hi]
    simp [hlt]

set_option maxRecDepth 100000 in
/-- C3, instance: the calls of TestExecuteTrade are admissible and leave no
negative balance or quantity. -/
theorem nonNegative_of_admissible_witness :
    Admissible sampleCodec
      [ (ctx0, .initUser "user1" 1000), (ctx0, .initUser "user2" 1000),
        (ctx0, .updateInventory "user2" "commodity1" 10 "add"),
        (ctx0, .createTrade "trade1" "user1" "user2" "commodity1" 5 100 "buy"),
        (ctx0, .executeTrade "trade1") ] emptyStub ∧
    NonNegative (run sampleCodec
      [ (ctx0, .initUser "user1" 1000), (ctx0, .initUser "user2" 1000),
        (ctx0, .updateInventory "user2" "commodity1" 10 "add"),
        (ctx0, .createTrade "trade1" "user1" "user2" "commodity1" 5 100 "buy"),
        (ctx0, .executeTrade "trade1") ] emptyStub) :=
  ⟨by decide!, (nonNegative_of_admissible sampleCodec _ (by decide!)).1⟩

set_option maxRecDepth 100000 in
/-- C3 as stated fails: from the empty ledger InitUser with balance -5 succeeds
and stores the negative balance; and two successful additions of
9223372036854775807 and 1 units leave the quantity -9223372036854775808. -/
theorem nonNegative_counterexample :
    (InitUser ctx0 emptyStub "user1" (-5)).err = none ∧
    balanceOf ctx0 (run sampleCodec [(ctx0, .initUser "user1" (-5))] emptyStub) "user1"
      = some (-5) ∧
    ¬ NonNegative (run sampleCodec [(ctx0, .initUser "user1" (-5))] emptyStub) ∧
    quantityOf ctx0 (run sampleCodec
      [ (ctx0, .updateInventory "user1" "commodity1" 9223372036854775807 "add"),
        (ctx0, .updateInventory "user1" "commodity1" 1 "add") ] emptyStub) "user1" "commodity1"
      = some (-9223372036854775808) ∧
    ¬ NonNegative (run sampleCodec
      [ (ctx0, .updateInventory "user1" "commodity1" 9223372036854775807 "add"),
        (ctx0, .updateInventory "user1" "commodity1" 1 "add") ] emptyStub) := by
  decide!

/-! ## Frames: which keys an operation can write -/

theorem InitUser_GetState_ne (ctx : Ctx) (s : Stub) (u : String) (b : ℚ) {key : String}
    (h : key ≠ GetUserAssetKey u) : (InitUser ctx s u b).stub.GetState key = s.GetState key := by
  unfold InitUser
  split
  · rfl
  · exact GetState_PutState_ne s _ h

theorem CreateCommodity_GetState_ne (codec : Codec) (ctx : Ctx) (s : Stub) (c n m : String)
    {key : String} (h : key ≠ GetCommodityKey c) :
    (CreateCommodity codec ctx s c n m).stub.GetState key = s.GetState key := by
  unfold CreateCommodity
  repeat' split
  all_goals first
    | rfl
    | exact GetState_PutState_ne s _ h

theorem createAll_GetState_ne (codec : Codec) (ctx : Ctx) (l : List (String × String × String))
    {key : String} (h : ∀ c, key ≠ GetCommodityKey c) :
    ∀ s : Stub, (createAll codec ctx l s).GetState key = s.GetState key := by
  induction l with
  | nil => intro s; rfl
  | cons hd rest ih =>
    intro s
    obtain ⟨id, name, metadata⟩ := hd
    unfold createAll
    rw [ih, CreateCommodity_GetState_ne codec ctx s id name metadata (h id)]

theorem CreateTrade_GetState_ne (ctx : Ctx) (s : Stub) (t f u c : String) (q : Int) (p : ℚ)
    (a : String) {key : String} (h : key ≠ GetTradeKey t) :
    (CreateTrade ctx s t f u c q p a).stub.GetState key = s.GetState key := by
  unfold CreateTrade
  split
  · rfl
  · split
    · rfl
    · simp only []
      repeat' split
      all_goals first
        | rfl
        | exact GetState_PutState_ne s _ h

theorem RejectTrade_GetState_ne (ctx : Ctx) (s : Stub) (t : String) {key : String}
    (h : key ≠ GetTradeKey t) : (RejectTrade ctx s t).stub.GetState key = s.GetState key := by
  unfold RejectTrade
  repeat' split
  all_goals first
    | rfl
    | exact GetState_PutState_ne s _ h

theorem CreateRedemptionRule_GetState_ne (codec : Codec) (ctx : Ctx) (s : Stub) (u text : String)
    (r : ℚ) {key : String} (h : key ≠ GetRedemptionRuleKey u) :
    (CreateRedemptionRule codec ctx s u text r).stub.GetState key = s.GetState key := by
  unfold CreateRedemptionRule
  repeat' split
  all_goals first
    | rfl
    | exact GetState_PutState_ne s _ h

theorem ExecuteTrade_GetState_ne (ctx : Ctx) (s : Stub) (tid : String) {key : String}
    (hi : ∀ u c, key ≠ GetInventoryKey u c) (ha : ∀ u, key ≠ GetUserAssetKey u)
    (ht : key ≠ GetTradeKey tid) : (ExecuteTrade ctx s tid).stub.GetState key = s.GetState key := by
  rcases ExecuteTrade_stub_cases ctx s tid with ⟨-, h0⟩ | ⟨trade, si, ba, -, -, -, -, -, -, hc⟩
  · rw [h0]
  rcases hc with ⟨-, hc⟩ | ⟨-, hc⟩ | ⟨-, hc⟩ | ⟨-, hc⟩ | ⟨-, hc⟩ <;> rw [hc]
  · rw [UpdateInventory_GetState_ne _ _ _ _ _ _ (hi _ _)]
  · rw [UpdateInventory_GetState_ne _ _ _ _ _ _ (hi _ _),
      UpdateInventory_GetState_ne _ _ _ _ _ _ (hi _ _)]
  · rw [UpdateBalance_GetState_ne _ _ _ _ _ (ha _), UpdateInventory_GetState_ne _ _ _ _ _ _ (hi _ _),
      UpdateInventory_GetState_ne _ _ _ _ _ _ (hi _ _)]
  · rw [UpdateBalance_GetState_ne _ _ _ _ _ (ha _), UpdateBalance_GetState_ne _ _ _ _ _ (ha _),
      UpdateInventory_GetState_ne _ _ _ _ _ _ (hi _ _),
      UpdateInventory_GetState_ne _ _ _ _ _ _ (hi _ _)]
  · rw [GetState_SetEvent, GetState_PutState_ne _ _ ht,
      UpdateBalance_GetState_ne _ _ _ _ _ (ha _), UpdateBalance_GetState_ne _ _ _ _ _ (ha _),
      UpdateInventory_GetState_ne _ _ _ _ _ _ (hi _ _),
      UpdateInventory_GetState_ne _ _ _ _ _ _ (hi _ _)]

theorem deductItems_GetState_ne (ctx : Ctx) (u : String) (items : List RequiredItem)
    {key : String} (hi : ∀ item ∈ items, key ≠ GetInventoryKey u item.CommodityID) :
    ∀ s : Stub, (deductItems ctx u items s).stub.GetState key = s.GetState key := by
  induction items with
  | nil => intro s; rfl
  | cons item rest ih =>
    intro s
    have h1 := UpdateInventory_GetState_ne ctx s u item.CommodityID item.Quantity "subtract"
      (hi item (List.mem_cons_self _ _))
    unfold deductItems
    simp only
    split
    · exact h1
    · rw [ih (fun it hit => hi it (List.mem_cons_of_mem _ hit)), h1]

theorem ExecuteRedemption_GetState_ne (ctx : Ctx) (s : Stub) (u r : String) {key : String}
    (hi : ∀ c, key ≠ GetInventoryKey u c) (ha : key ≠ GetUserAssetKey u)
    (hr : key ≠ GetRedemptionRecordKey r) :
    (ExecuteRedemption ctx s u r).stub.GetState key = s.GetState key := by
  rcases ExecuteRedemption_stub_cases ctx s u r with ⟨-, h0⟩ | ⟨rule, -, -, hc⟩
  · rw [h0]
  have hd := @deductItems_GetState_ne ctx u rule.RequiredItems key (fun it _ => hi _) s
  rcases hc with ⟨-, hc⟩ | ⟨-, hc⟩ | ⟨-, -, -, hc⟩ <;> rw [hc]
  · exact hd
  · rw [UpdateBalance_GetState_ne _ _ _ _ _ ha, hd]
  · rw [GetState_SetEvent, GetState_PutState_ne _ _ hr, UpdateBalance_GetState_ne _ _ _ _ _ ha, hd]

theorem queryOutcome_stub {α : Type} (s : Stub) (r : Except String α) :
    (queryOutcome s r).stub = s := by
  cases r <;> rfl

/-! ## The life of a trade record -/

theorem ExecuteTrade_not_pending {ctx : Ctx} {s : Stub} {tid : String} {trade : Trade}
    (hT : GetTradeStatus ctx s tid = .ok trade) (hnp : trade.Status ≠ "pending") :
    ExecuteTrade ctx s tid =
      ⟨some ("trade is not pending (status: " ++ trade.Status ++ ")"), s⟩ := by
  simp [ExecuteTrade, hT, hnp]

theorem RejectTrade_not_pending {ctx : Ctx} {s : Stub} {tid : String} {trade : Trade}
    (hT : GetTradeStatus ctx s tid = .ok trade) (hnp : trade.Status ≠ "pending") :
    RejectTrade ctx s tid =
      ⟨some ("trade is not pending (status: " ++ trade.Status ++ ")"), s⟩ := by
  simp [RejectTrade, hT, hnp]

theorem RejectTrade_pending {ctx : Ctx} {s : Stub} {tid : String} {trade : Trade}
    (hT : GetTradeStatus ctx s tid = .ok trade) (hp : trade.Status = "pending") :
    RejectTrade ctx s tid =
      ⟨none, s.PutState (GetTradeKey tid)
        (.trade { trade with Status := "rejected", CompletedAt := GetTxTimestamp ctx })⟩ := by
  simp [RejectTrade, hT, hp]

theorem CreateTrade_exists {ctx : Ctx} {s : Stub} {tid : String} {trade : Trade}
    (hT : GetTradeStatus ctx s tid = .ok trade) (f u c : String) (q : Int) (p : ℚ) (a : String) :
    (CreateTrade ctx s tid f u c q p a).stub = s := by
  unfold CreateTrade
  split
  · rfl
  · rw [hT]

/-- The trade record ExecuteTrade leaves under the key of its own trade. -/
theorem ExecuteTrade_GetState_tradeKey {ctx : Ctx} {s : Stub} {tid : String} {trade : Trade}
    (hT : GetTradeStatus ctx s tid = .ok trade) :
    ((ExecuteTrade ctx s tid).err = none ∧ trade.Status = "pending" ∧
      (ExecuteTrade ctx s tid).stub.GetState (GetTradeKey tid) =
        some (.trade { trade with Status := "successful", CompletedAt := GetTxTimestamp ctx })) ∨
    ((ExecuteTrade ctx s tid).err ≠ none ∧
      (ExecuteTrade ctx s tid).stub.GetState (GetTradeKey tid) = some (.trade trade)) := by
  have hstored := GetTradeStatus_ok_iff.mp hT
  cases herr : (ExecuteTrade ctx s tid).err with
  | none =>
    left
    obtain ⟨trade', si, bi, ba, sa, hT', hp, -, -, -, -, -, -, hst⟩ := ExecuteTrade_ok herr
    rw [hT] at hT'
    cases hT'
    refine ⟨rfl, hp, ?_⟩
    rw [hst, GetState_settledStub]
    simp
  | some e =>
    right
    refine ⟨by simp, ?_⟩
    rcases ExecuteTrade_stub_cases ctx s tid with ⟨-, h0⟩ | ⟨trade', si, ba, -, -, -, -, -, -, hc⟩
    · rw [h0]; exact hstored
    rcases hc with ⟨-, hc⟩ | ⟨-, hc⟩ | ⟨-, hc⟩ | ⟨-, hc⟩ | ⟨hc, -⟩
    · rw [hc, UpdateInventory_GetState_ne _ _ _ _ _ _ (tradeKey_ne_inventoryKey _ _ _)]
      exact hstored
    · rw [hc, UpdateInventory_GetState_ne _ _ _ _ _ _ (tradeKey_ne_inventoryKey _ _ _),
        UpdateInventory_GetState_ne _ _ _ _ _ _ (tradeKey_ne_inventoryKey _ _ _)]
      exact hstored
    · rw [hc, UpdateBalance_GetState_ne _ _ _ _ _ (tradeKey_ne_userAssetKey _ _),
        UpdateInventory_GetState_ne _ _ _ _ _ _ (tradeKey_ne_inventoryKey _ _ _),
        UpdateInventory_GetState_ne _ _ _ _ _ _ (tradeKey_ne_inventoryKey _ _ _)]
      exact hstored
    · rw [hc, UpdateBalance_GetState_ne _ _ _ _ _ (tradeKey_ne_userAssetKey _ _),
        UpdateBalance_GetState_ne _ _ _ _ _ (tradeKey_ne_userAssetKey _ _),
        UpdateInventory_GetState_ne _ _ _ _ _ _ (tradeKey_ne_inventoryKey _ _ _),
        UpdateInventory_GetState_ne _ _ _ _ _ _ (tradeKey_ne_inventoryKey _ _ _)]
      exact hstored
    · rw [herr] at hc
      cases hc

/-- One call moves a stored trade record nowhere, or from pending to successful
(ExecuteTrade), or from pending to rejected (RejectTrade). -/
theorem invoke_trade_step (codec : Codec) (ctx : Ctx) (s : Stub) (call : Call) {tid : String}
    {trade : Trade} (hst : s.GetState (GetTradeKey tid) = some (.trade trade)) :
    (invoke codec ctx s call).stub.GetState (GetTradeKey tid) = some (.trade trade) ∨
    (trade.Status = "pending" ∧
      (invoke codec ctx s call).stub.GetState (GetTradeKey tid) =
        some (.trade { trade with Status := "successful", CompletedAt := GetTxTimestamp ctx })) ∨
    (trade.Status = "pending" ∧
      (invoke codec ctx s call).stub.GetState (GetTradeKey tid) =
        some (.trade { trade with Status := "rejected", CompletedAt := GetTxTimestamp ctx })) := by
  have hT : GetTradeStatus ctx s tid = .ok trade := GetTradeStatus_ok_iff.mpr hst
  cases call with
  | initUser u b =>
    left
    simp only [invoke]
    rw [InitUser_GetState_ne _ _ _ _ (tradeKey_ne_userAssetKey _ _), hst]
  | updateBalance u a op =>
    left
    simp only [invoke]
    rw [UpdateBalance_GetState_ne _ _ _ _ _ (tradeKey_ne_userAssetKey _ _), hst]
  | updateInventory u c q op =>
    left
    simp only [invoke]
    rw [UpdateInventory_GetState_ne _ _ _ _ _ _ (tradeKey_ne_inventoryKey _ _ _), hst]
  | createCommodity c n m =>
    left
    simp only [invoke]
    rw [CreateCommodity_GetState_ne _ _ _ _ _ _ (tradeKey_ne_commodityKey _ _), hst]
  | initializeCommodities =>
    left
    simp only [invoke, InitializeCommodities]
    rw [createAll_GetState_ne _ _ _ (fun c => tradeKey_ne_commodityKey _ c), hst]
  | createTrade t f u c q p a =>
    left
    simp only [invoke]
    by_cases ht : t = tid
    · subst ht
      rw [CreateTrade_exists hT, hst]
    · rw [CreateTrade_GetState_ne _ _ _ _ _ _ _ _ _ (fun h => ht (GetTradeKey_inj h).symm), hst]
  | executeTrade t =>
    simp only [invoke]
    by_cases ht : t = tid
    · subst ht
      rcases ExecuteTrade_GetState_tradeKey hT with ⟨-, hp, h⟩ | ⟨-, h⟩
      · exact Or.inr (Or.inl ⟨hp, h⟩)
      · exact Or.inl h
    · left
      rw [ExecuteTrade_GetState_ne _ _ _ (fun _ _ => tradeKey_ne_inventoryKey _ _ _)
        (fun _ => tradeKey_ne_userAssetKey _ _) (fun h => ht (GetTradeKey_inj h).symm), hst]
  | rejectTrade t =>
    simp only [invoke]
    by_cases ht : t = tid
    · subst ht
      by_cases hp : trade.Status = "pending"
      · right; right
        refine ⟨hp, ?_⟩
        rw [RejectTrade_pending hT hp]
        simp
      · left
        rw [RejectTrade_not_pending hT hp]
        exact hst
    · left
      rw [RejectTrade_GetState_ne _ _ _ (fun h => ht (GetTradeKey_inj h).symm), hst]
  | createRedemptionRule u text r =>
    left
    simp only [invoke]
    rw [CreateRedemptionRule_GetState_ne _ _ _ _ _ _ (tradeKey_ne_ruleKey _ _), hst]
  | executeRedemption u r =>
    left
    simp only [invoke]
    rw [ExecuteRedemption_GetState_ne _ _ _ _ (fun _ => tradeKey_ne_inventoryKey _ _ _)
      (tradeKey_ne_userAssetKey _ _) (tradeKey_ne_recordKey _ _), hst]
  | getUserAssets u => left; simp only [invoke, queryOutcome_stub]; exact hst
  | getInventory u c => left; simp only [invoke, queryOutcome_stub]; exact hst
  | getAllInventory u => left; simp only [invoke, queryOutcome_stub]; exact hst
  | getCommodity c => left; simp only [invoke, queryOutcome_stub]; exact hst
  | getAllCommodities => left; simp only [invoke, queryOutcome_stub]; exact hst
  | getTradeStatus t => left; simp only [invoke, queryOutcome_stub]; exact hst
  | getTradeHistory u => left; simp only [invoke, queryOutcome_stub]; exact hst
  | getRedemptionRule u => left; simp only [invoke, queryOutcome_stub]; exact hst
  | getRedemptionHistory u => left; simp only [invoke, queryOutcome_stub]; exact hst

/-- A trade record that is not pending survives every sequence of calls unchanged. -/
theorem run_terminal_trade (codec : Codec) (calls : List (Ctx × Call)) {tid : String}
    {trade : Trade} (hnp : trade.Status ≠ "pending") :
    ∀ s : Stub, s.GetState (GetTradeKey tid) = some (.trade trade) →
      (run codec calls s).GetState (GetTradeKey tid) = some (.trade trade) := by
  induction calls with
  | nil => intro s h; exact h
  | cons hd rest ih =>
    intro s h
    obtain ⟨ctx, call⟩ := hd
    apply ih
    rcases invoke_trade_step codec ctx s call h with h1 | ⟨hp, -⟩ | ⟨hp, -⟩
    · exact h1
    · exact absurd hp hnp
    · exact absurd hp hnp

/-- C5: for every public operation and all arguments, a stored trade whose status
is 'successful' or 'rejected' before the operation is stored unchanged after it;
and after the operation the key still holds a trade record whose status, if it
differs from the one before, was 'pending' before and is 'successful' or
'rejected' after. -/
theorem trade_status_never_reversed (codec : Codec) (ctx : Ctx) (s : Stub) (call : Call)
    (tid : String) (trade : Trade)
    (hst : s.GetState (GetTradeKey tid) = some (.trade trade)) :
    (trade.Status = "successful" ∨ trade.Status = "rejected" →
      (invoke codec ctx s call).stub.GetState (GetTradeKey tid) = some (.trade trade)) ∧
    ∃ trade', (invoke codec ctx s call).stub.GetState (GetTradeKey tid) = some (.trade trade') ∧
      (trade'.Status ≠ trade.Status →
        trade.Status = "pending" ∧
          (trade'.Status = "successful" ∨ trade'.Status = "rejected")) := by
  rcases invoke_trade_step codec ctx s call hst with h1 | ⟨hp, h2⟩ | ⟨hp, h3⟩
  · exact ⟨fun _ => h1, trade, h1, fun h => absurd rfl h⟩
  · refine ⟨fun h => ?_, _, h2, fun _ => ⟨hp, Or.inl rfl⟩⟩
    rcases h with h | h <;> rw [hp] at h <;> exact absurd h (by decide)
  · refine ⟨fun h => ?_, _, h3, fun _ => ⟨hp, Or.inr rfl⟩⟩
    rcases h with h | h <;> rw [hp] at h <;> exact absurd h (by decide)

/-- C4: ExecuteTrade and RejectTrade of a stored trade that is not pending both
fail with the not-pending error and write nothing; and once ExecuteTrade or
RejectTrade of a trade has succeeded, ExecuteTrade and RejectTrade of the same
tradeId fail with that error after every further sequence of calls. -/
theorem not_pending_is_final (codec : Codec) (ctx : Ctx) (s : Stub) (tid : String) :
    (∀ trade, GetTradeStatus ctx s tid = .ok trade → trade.Status ≠ "pending" →
      ExecuteTrade ctx s tid =
        ⟨some ("trade is not pending (status: " ++ trade.Status ++ ")"), s⟩ ∧
      RejectTrade ctx s tid =
        ⟨some ("trade is not pending (status: " ++ trade.Status ++ ")"), s⟩) ∧
    ((ExecuteTrade ctx s tid).err = none → ∀ calls ctx',
      (ExecuteTrade ctx' (run codec calls (ExecuteTrade ctx s tid).stub) tid).err =
        some "trade is not pending (status: successful)" ∧
      (RejectTrade ctx' (run codec calls (ExecuteTrade ctx s tid).stub) tid).err =
        some "trade is not pending (status: successful)") ∧
    ((RejectTrade ctx s tid).err = none → ∀ calls ctx',
      (ExecuteTrade ctx' (run codec calls (RejectTrade ctx s tid).stub) tid).err =
        some "trade is not pending (status: rejected)" ∧
      (RejectTrade ctx' (run codec calls (RejectTrade ctx s tid).stub) tid).err =
        some "trade is not pending (status: rejected)") := by
  refine ⟨fun trade hT hnp => ⟨ExecuteTrade_not_pending hT hnp, RejectTrade_not_pending hT hnp⟩,
    ?_, ?_⟩
  · intro hok calls ctx'
    obtain ⟨trade, -, -, -, -, hT, -⟩ := ExecuteTrade_ok hok
    rcases ExecuteTrade_GetState_tradeKey hT with ⟨-, -, h⟩ | ⟨hne, -⟩
    · have hnp : ({ trade with Status := "successful", CompletedAt := GetTxTimestamp ctx } :
          Trade).Status ≠ "pending" := by simp
      have hT' : GetTradeStatus ctx' (run codec calls (ExecuteTrade ctx s tid).stub) tid = .ok _ :=
        GetTradeStatus_ok_iff.mpr (run_terminal_trade codec calls hnp _ h)
      rw [ExecuteTrade_not_pending hT' hnp, RejectTrade_not_pending hT' hnp]
      exact ⟨rfl, rfl⟩
    · exact absurd hok hne
  · intro hok calls ctx'
    cases hT : GetTradeStatus ctx s tid with
    | error e => simp [RejectTrade, hT] at hok
    | ok trade =>
      by_cases hp : trade.Status = "pending"
      · have h : (RejectTrade ctx s tid).stub.GetState (GetTradeKey tid) =
            some (.trade { trade with Status := "rejected", CompletedAt := GetTxTimestamp ctx }) := by
          rw [RejectTrade_pending hT hp]
          simp
        have hnp : ({ trade with Status := "rejected", CompletedAt := GetTxTimestamp ctx } :
            Trade).Status ≠ "pending" := by simp
        have hT' : GetTradeStatus ctx' (run codec calls (RejectTrade ctx s tid).stub) tid = .ok _ :=
          GetTradeStatus_ok_iff.mpr (run_terminal_trade codec calls hnp _ h)
        rw [ExecuteTrade_not_pending hT' hnp, RejectTrade_not_pending hT' hnp]
        exact ⟨rfl, rfl⟩
      · rw [RejectTrade_not_pending hT hp] at hok
        cases hok

/-- C6: RejectTrade of a stored pending trade succeeds and writes only that
trade's record: afterwards the trade has status 'rejected' and completedAt equal
to the transaction timestamp with every other field as before, every other key
holds what it held, so every account and every inventory record reads as before,
and no event is emitted. -/
theorem RejectTrade_writes_only_trade (ctx : Ctx) (s : Stub) (tid : String) (trade : Trade)
    (hT : GetTradeStatus ctx s tid = .ok trade) (hp : trade.Status = "pending") :
    (RejectTrade ctx s tid).err = none ∧
    GetTradeStatus ctx (RejectTrade ctx s tid).stub tid =
      .ok { trade with Status := "rejected", CompletedAt := GetTxTimestamp ctx } ∧
    (∀ key, key ≠ GetTradeKey tid →
      (RejectTrade ctx s tid).stub.GetState key = s.GetState key) ∧
    (∀ ctx' u, GetUserAssets ctx' (RejectTrade ctx s tid).stub u = GetUserAssets ctx' s u) ∧
    (∀ ctx' u c, GetInventory ctx' (RejectTrade ctx s tid).stub u c = GetInventory ctx' s u c) ∧
    (RejectTrade ctx s tid).stub.Events = s.Events := by
  rw [RejectTrade_pending hT hp]
  refine ⟨rfl, ?_, ?_, ?_, ?_, rfl⟩
  · exact GetTradeStatus_ok_iff.mpr (GetState_PutState_self _ _ _)
  · intro key hkey
    exact GetState_PutState_ne _ _ hkey
  · intro ctx' u
    exact GetUserAssets_congr (GetState_PutState_ne _ _ (userAssetKey_ne_tradeKey _ _))
  · intro ctx' u c
    exact GetInventory_congr (GetState_PutState_ne _ _ (inventoryKey_ne_tradeKey _ _ _))

/-! ## ExecuteRedemption -/

theorem UpdateInventory_subtract_ok_inv {ctx : Ctx} {s : Stub} {u c : String} {q : Int}
    (h : (UpdateInventory ctx s u c q "subtract").err = none) :
    ∃ i, GetInventory ctx s u c = .ok i ∧ ¬ i.Quantity < q := by
  cases hi : GetInventory ctx s u c with
  | error e => rw [UpdateInventory_err_of_read hi] at h; cases h
  | ok i =>
    refine ⟨i, rfl, fun hlt => ?_⟩
    unfold UpdateInventory at h
    rw [hi] at h
    simp [hlt] at h

theorem UpdateBalance_ok_inv {ctx : Ctx} {s : Stub} {u : String} {a : ℚ} {op : String}
    (h : (UpdateBalance ctx s u a op).err = none) : ∃ x, GetUserAssets ctx s u = .ok x := by
  cases hx : GetUserAssets ctx s u with
  | error e => rw [UpdateBalance_err_of_read hx] at h; cases h
  | ok x => exact ⟨x, rfl⟩

theorem verifyItems_insufficient {ctx : Ctx} {s : Stub} {u : String} :
    ∀ items : List RequiredItem,
      (∀ item ∈ items, ∃ i, GetInventory ctx s u item.CommodityID = .ok i) →
      (∃ item ∈ items, ∃ i, GetInventory ctx s u item.CommodityID = .ok i ∧
        i.Quantity < item.Quantity) →
      ∃ item ∈ items, ∃ i, GetInventory ctx s u item.CommodityID = .ok i ∧
        i.Quantity < item.Quantity ∧
        verifyItems ctx s u items = some (insufficientMessage item i) := by
  intro items
  induction items with
  | nil => intro _ h; obtain ⟨item, hmem, -⟩ := h; cases hmem
  | cons hd rest ih =>
    intro hread hins
    obtain ⟨i, hi⟩ := hread hd (List.mem_cons_self _ _)
    by_cases hlt : i.Quantity < hd.Quantity
    · refine ⟨hd, List.mem_cons_self _ _, i, hi, hlt, ?_⟩
      simp [verifyItems, hi, hlt, insufficientMessage]
    · have hins' : ∃ item ∈ rest, ∃ i, GetInventory ctx s u item.CommodityID = .ok i ∧
          i.Quantity < item.Quantity := by
        obtain ⟨item, hmem, j, hj, hjlt⟩ := hins
        rcases List.mem_cons.mp hmem with h | h
        · subst h
          rw [hi] at hj
          cases hj
          exact absurd hjlt hlt
        · exact ⟨item, h, j, hj, hjlt⟩
      obtain ⟨item, hmem, j, hj, hjlt, hv⟩ :=
        ih (fun it hit => hread it (List.mem_cons_of_mem _ hit)) hins'
      refine ⟨item, List.mem_cons_of_mem _ hmem, j, hj, hjlt, ?_⟩
      simp [verifyItems, hi, hlt, hv]

/-- What the deductions of distinct commodities read and leave, when all succeed. -/
theorem deductItems_ok_spec (ctx : Ctx) (u : String) :
    ∀ (items : List RequiredItem) (s : Stub),
      (items.map fun item => item.CommodityID).Nodup →
      (deductItems ctx u items s).err = none →
      ∀ item ∈ items, ∃ i, GetInventory ctx s u item.CommodityID = .ok i ∧
        ¬ i.Quantity < item.Quantity ∧
        (deductItems ctx u items s).stub.GetState (GetInventoryKey u item.CommodityID) =
          some (.inventory ⟨i.UserID, i.CommodityID, wrapInt (i.Quantity - item.Quantity),
            GetTxTimestamp ctx⟩) := by
  intro items
  induction items with
  | nil => intro s _ _ item hmem; cases hmem
  | cons hd rest ih =>
    intro s hnd hok item hmem
    rw [List.map_cons, List.nodup_cons] at hnd
    obtain ⟨hnotin, hnd'⟩ := hnd
    cases h1 : (UpdateInventory ctx s u hd.CommodityID hd.Quantity "subtract").err with
    | some e =>
      unfold deductItems at hok
      simp [h1] at hok
    | none =>
      obtain ⟨i, hi, hlt⟩ := UpdateInventory_subtract_ok_inv h1
      have hstub := UpdateInventory_subtract hi hlt
      have hrest : deductItems ctx u (hd :: rest) s =
          deductItems ctx u rest (UpdateInventory ctx s u hd.CommodityID hd.Quantity
            "subtract").stub := by
        conv => lhs; unfold deductItems
        simp [h1]
      rw [hrest] at hok ⊢
      rcases List.mem_cons.mp hmem with h | h
      · subst h
        refine ⟨i, hi, hlt, ?_⟩
        rw [deductItems_GetState_ne, hstub]
        · simp
        · intro it hit hk
          apply hnotin
          rw [GetInventoryKey_inj_commodity hk]
          exact List.mem_map_of_mem _ hit
      · obtain ⟨j, hj, hjlt, hjst⟩ := ih _ hnd' hok item h
        refine ⟨j, ?_, hjlt, hjst⟩
        rw [← hj]
        symm
        apply GetInventory_congr
        apply UpdateInventory_GetState_ne
        intro hk
        apply hnotin
        rw [← GetInventoryKey_inj_commodity hk]
        exact List.mem_map_of_mem _ h

set_option maxRecDepth 100000 in
/-- C4, instance: after the trade of TestExecuteTrade has been executed, a second
ExecuteTrade and a RejectTrade fail at once and after further calls; and the
same after it has been rejected instead. -/
theorem not_pending_is_final_witness :
    ((ExecuteTrade ctx0 tradeLedger "trade1").err = none ∧
      (RejectTrade ctx0 tradeLedger "trade1").err = none) ∧
    ((ExecuteTrade ctx0 (run sampleCodec [(ctx0, .updateBalance "user1" 10 "add")]
        (ExecuteTrade ctx0 tradeLedger "trade1").stub) "trade1").err =
        some "trade is not pending (status: successful)" ∧
      (RejectTrade ctx0 (run sampleCodec [(ctx0, .updateBalance "user1" 10 "add")]
        (ExecuteTrade ctx0 tradeLedger "trade1").stub) "trade1").err =
        some "trade is not pending (status: successful)") ∧
    ((ExecuteTrade ctx0 (run sampleCodec [] (RejectTrade ctx0 tradeLedger "trade1").stub)
        "trade1").err = some "trade is not pending (status: rejected)" ∧
      (RejectTrade ctx0 (run sampleCodec [] (RejectTrade ctx0 tradeLedger "trade1").stub)
        "trade1").err = some "trade is not pending (status: rejected)") :=
  ⟨⟨by decide!, by decide!⟩,
    (not_pending_is_final sampleCodec ctx0 tradeLedger "trade1").2.1 (by decide!)
      [(ctx0, .updateBalance "user1" 10 "add")] ctx0,
    (not_pending_is_final sampleCodec ctx0 tradeLedger "trade1").2.2 (by decide!) [] ctx0⟩

set_option maxRecDepth 100000 in
/-- C5, instance: the executed trade of TestExecuteTrade is stored unchanged after
a RejectTrade of it. -/
theorem trade_status_never_reversed_witness :
    (ExecuteTrade ctx0 tradeLedger "trade1").stub.GetState (GetTradeKey "trade1") =
      some (.trade { trade1 with Status := "successful", CompletedAt := GetTxTimestamp ctx0 }) ∧
    (invoke sampleCodec ctx0 (ExecuteTrade ctx0 tradeLedger "trade1").stub
      (.rejectTrade "trade1")).stub.GetState (GetTradeKey "trade1") =
      some (.trade { trade1 with Status := "successful", CompletedAt := GetTxTimestamp ctx0 }) :=
  ⟨by decide!,
    (trade_status_never_reversed sampleCodec ctx0 (ExecuteTrade ctx0 tradeLedger "trade1").stub
      (.rejectTrade "trade1") "trade1"
      { trade1 with Status := "successful", CompletedAt := GetTxTimestamp ctx0 }
      (by decide!)).1 (Or.inl rfl)⟩

set_option maxRecDepth 100000 in
/-- C6, instance: TestRejectTrade. -/
theorem RejectTrade_writes_only_trade_witness :
    (GetTradeStatus ctx0 tradeLedger "trade1" = .ok trade1 ∧ trade1.Status = "pending") ∧
    (RejectTrade ctx0 tradeLedger "trade1").err = none ∧
    GetTradeStatus ctx0 (RejectTrade ctx0 tradeLedger "trade1").stub "trade1" =
      .ok { trade1 with Status := "rejected", CompletedAt := GetTxTimestamp ctx0 } ∧
    (∀ key, key ≠ GetTradeKey "trade1" →
      (RejectTrade ctx0 tradeLedger "trade1").stub.GetState key = tradeLedger.GetState key) ∧
    (∀ ctx' u, GetUserAssets ctx' (RejectTrade ctx0 tradeLedger "trade1").stub u =
      GetUserAssets ctx' tradeLedger u) ∧
    (∀ ctx' u c, GetInventory ctx' (RejectTrade ctx0 tradeLedger "trade1").stub u c =
      GetInventory ctx' tradeLedger u c) ∧
    (RejectTrade ctx0 tradeLedger "trade1").stub.Events = tradeLedger.Events :=
  ⟨⟨by decide!, by decide⟩,
    RejectTrade_writes_only_trade ctx0 tradeLedger "trade1" trade1 (by decide!) (by decide)⟩

/-- C9: if the user has a rule, every required item's inventory can be read and
for some required item the quantity held is below the required quantity, then
ExecuteRedemption fails with the insufficient-inventory error of such an item
and writes nothing: the stub is the one it was given, so the balance and every
inventory quantity are unchanged and no redemption record is stored. -/
theorem ExecuteRedemption_insufficient (ctx : Ctx) (s : Stub) (u r : String)
    (rule : RedemptionRule) (hR : GetRedemptionRule ctx s u = .ok rule)
    (hread : ∀ item ∈ rule.RequiredItems, ∃ i, GetInventory ctx s u item.CommodityID = .ok i)
    (hins : ∃ item ∈ rule.RequiredItems, ∃ i,
      GetInventory ctx s u item.CommodityID = .ok i ∧ i.Quantity < item.Quantity) :
    (∃ item ∈ rule.RequiredItems, ∃ i,
      GetInventory ctx s u item.CommodityID = .ok i ∧ i.Quantity < item.Quantity ∧
      (ExecuteRedemption ctx s u r).err = some (insufficientMessage item i)) ∧
    (ExecuteRedemption ctx s u r).stub = s ∧
    (∀ ctx' v, balanceOf ctx' (ExecuteRedemption ctx s u r).stub v = balanceOf ctx' s v) ∧
    (∀ ctx' v c, quantityOf ctx' (ExecuteRedemption ctx s u r).stub v c = quantityOf ctx' s v c) ∧
    (ExecuteRedemption ctx s u r).stub.GetState (GetRedemptionRecordKey r) =
      s.GetState (GetRedemptionRecordKey r) := by
  obtain ⟨item, hmem, i, hi, hlt, hv⟩ := verifyItems_insufficient rule.RequiredItems hread hins
  have hE : ExecuteRedemption ctx s u r = ⟨some (insufficientMessage item i), s⟩ := by
    simp [ExecuteRedemption, hR, hv]
  rw [hE]
  exact ⟨⟨item, hmem, i, hi, hlt, rfl⟩, rfl, fun _ _ => rfl, fun _ _ _ => rfl, rfl⟩

set_option maxRecDepth 100000 in
/-- C9, instance: TestExecuteRedemptionInsufficientInventory. -/
theorem ExecuteRedemption_insufficient_witness :
    GetRedemptionRule ctx0 poorLedger "user1" = .ok rule1 ∧
    (ExecuteRedemption ctx0 poorLedger "user1" "record1").err =
      some "insufficient inventory for commodity commodity1 (required: 3, available: 2)" ∧
    (ExecuteRedemption ctx0 poorLedger "user1" "record1").stub = poorLedger :=
  have h := ExecuteRedemption_insufficient ctx0 poorLedger "user1" "record1" rule1 (by decide!)
    (fun item hitem => by
      have h2 : item = ⟨"commodity1", 3⟩ ∨ item = ⟨"commodity2", 2⟩ := by
        simpa [rule1] using hitem
      rcases h2 with h2 | h2 <;> subst h2
      · exact ⟨⟨"user1", "commodity1", 2, ⟨1700000000, 5⟩⟩, by decide!⟩
      · exact ⟨⟨"user1", "commodity2", 1, ⟨1700000000, 5⟩⟩, by decide!⟩)
    ⟨⟨"commodity1", 3⟩, by decide, ⟨"user1", "commodity1", 2, ⟨1700000000, 5⟩⟩, by decide!,
      by decide⟩
  ⟨by decide!, by decide!, h.2.1⟩

/-- C10 (amended): when ExecuteRedemption succeeds on a rule whose required items
name pairwise different commodities, the user's balance afterwards is the
balance before plus the rule's rewardAmount; the user's quantity of each required
commodity is the quantity before minus the required quantity, reduced to the
64-bit `int` range (so exactly that difference whenever it lies in the range);
and the user's quantities of all other commodities are unchanged. -/
theorem ExecuteRedemption_effect (ctx : Ctx) (s : Stub) (u r : String) (rule : RedemptionRule)
    (hR : GetRedemptionRule ctx s u = .ok rule)
    (hnd : (rule.RequiredItems.map fun item => item.CommodityID).Nodup)
    (hok : (ExecuteRedemption ctx s u r).err = none) :
    (∃ b, balanceOf ctx s u = some b ∧
      balanceOf ctx (ExecuteRedemption ctx s u r).stub u = some (b + rule.RewardAmount)) ∧
    (∀ item ∈ rule.RequiredItems, ∃ q,
      quantityOf ctx s u item.CommodityID = some q ∧
      quantityOf ctx (ExecuteRedemption ctx s u r).stub u item.CommodityID
        = some (wrapInt (q - item.Quantity)) ∧
      (IsInt64 (q - item.Quantity) →
        quantityOf ctx (ExecuteRedemption ctx s u r).stub u item.CommodityID
          = some (q - item.Quantity))) ∧
    (∀ c, (∀ item ∈ rule.RequiredItems, item.CommodityID ≠ c) →
      quantityOf ctx (ExecuteRedemption ctx s u r).stub u c = quantityOf ctx s u c) := by
  rcases ExecuteRedemption_stub_cases ctx s u r with ⟨hne, -⟩ | ⟨rule', hR', -, hc⟩
  · exact absurd hok hne
  rw [hR] at hR'
  cases hR'
  rcases hc with ⟨hne, -⟩ | ⟨hne, -⟩ | ⟨-, hd, hb, hst⟩
  · exact absurd hok hne
  · exact absurd hok hne
  obtain ⟨x, hx⟩ := UpdateBalance_ok_inv hb
  have hbal := UpdateBalance_add (a := rule.RewardAmount) hx
  have hxs : GetUserAssets ctx s u = .ok x := by
    rw [← hx]
    symm
    apply GetUserAssets_congr
    exact deductItems_GetState_ne ctx u rule.RequiredItems
      (fun _ _ => userAssetKey_ne_inventoryKey _ _ _) s
  have hinv : ∀ c, (ExecuteRedemption ctx s u r).stub.GetState (GetInventoryKey u c) =
      (deductItems ctx u rule.RequiredItems s).stub.GetState (GetInventoryKey u c) := by
    intro c
    rw [hst, GetState_SetEvent, GetState_PutState_ne _ _ (inventoryKey_ne_recordKey _ _ _),
      UpdateBalance_GetState_ne _ _ _ _ _ (inventoryKey_ne_userAssetKey _ _ _)]
  refine ⟨⟨x.Balance, balanceOf_eq_of_read hxs, ?_⟩, ?_, ?_⟩
  · refine balanceOf_eq_of_stored (a := ⟨x.UserID, x.Balance + rule.RewardAmount,
      GetTxTimestamp ctx⟩) ?_
    rw [hst, GetState_SetEvent, GetState_PutState_ne _ _ (userAssetKey_ne_recordKey _ _), hbal]
    simp
  · intro item hmem
    obtain ⟨i, hi, -, hstored⟩ := deductItems_ok_spec ctx u rule.RequiredItems s hnd hd item hmem
    have e : quantityOf ctx (ExecuteRedemption ctx s u r).stub u item.CommodityID
        = some (wrapInt (i.Quantity - item.Quantity)) := by
      refine quantityOf_eq_of_stored (i := ⟨i.UserID, i.CommodityID,
        wrapInt (i.Quantity - item.Quantity), GetTxTimestamp ctx⟩) ?_
      rw [hinv, hstored]
    refine ⟨i.Quantity, quantityOf_eq_of_read hi, e, fun hr => ?_⟩
    rw [e, wrapInt_of_isInt64 hr]
  · intro c hc
    unfold quantityOf
    rw [@GetInventory_congr ctx s (ExecuteRedemption ctx s u r).stub u c]
    rw [hinv]
    apply deductItems_GetState_ne
    intro item hmem hk
    exact hc item hmem (GetInventoryKey_inj_commodity hk).symm

set_option maxRecDepth 100000 in
/-- C10, instance: TestExecuteRedemption. -/
theorem ExecuteRedemption_effect_witness :
    (GetRedemptionRule ctx0 redemptionLedger "user1" = .ok rule1 ∧
      (rule1.RequiredItems.map fun item => item.CommodityID).Nodup ∧
      (ExecuteRedemption ctx0 redemptionLedger "user1" "record1").err = none) ∧
    (∃ b, balanceOf ctx0 redemptionLedger "user1" = some b ∧
      balanceOf ctx0 (ExecuteRedemption ctx0 redemptionLedger "user1" "record1").stub "user1"
        = some (b + rule1.RewardAmount)) ∧
    balanceOf ctx0 (ExecuteRedemption ctx0 redemptionLedger "user1" "record1").stub "user1"
      = some 1500 ∧
    quantityOf ctx0 (ExecuteRedemption ctx0 redemptionLedger "user1" "record1").stub "user1"
      "commodity1" = some 2 ∧
    quantityOf ctx0 (ExecuteRedemption ctx0 redemptionLedger "user1" "record1").stub "user1"
      "commodity2" = some 1 :=
  ⟨⟨by decide!, by decide, by decide!⟩,
    (ExecuteRedemption_effect ctx0 redemptionLedger "user1" "record1" rule1 (by decide!)
      (by decide) (by decide!)).1,
    by decide!, by decide!, by decide!⟩

set_option maxRecDepth 100000 in
/-- C10 as stated fails: a rule requiring -1 units of a commodity of which the user
holds 9223372036854775807 units is redeemed successfully and leaves the user
with -9223372036854775808 units, not with the quantity before minus -1. -/
theorem ExecuteRedemption_effect_counterexample :
    GetRedemptionRule ctx0 negativeRuleLedger "user1" =
      .ok ⟨"rule_user1", "user1", [⟨"commodity1", -1⟩], 500, ⟨1700000000, 5⟩⟩ ∧
    (ExecuteRedemption ctx0 negativeRuleLedger "user1" "record1").err = none ∧
    quantityOf ctx0 negativeRuleLedger "user1" "commodity1" = some 9223372036854775807 ∧
    quantityOf ctx0 (ExecuteRedemption ctx0 negativeRuleLedger "user1" "record1").stub "user1"
      "commodity1" = some (-9223372036854775808) ∧
    (-9223372036854775808 : Int) ≠ 9223372036854775807 - (-1) := by
  decide!

/-- C8: for a stored pending trade, ExecuteTrade fails with the
insufficient-inventory error when the seller's current quantity of the commodity
is below the trade quantity, and with the insufficient-balance error when that
quantity suffices but the buyer's current balance is below the price; in both
cases nothing is written, so the trade stays pending. -/
theorem ExecuteTrade_revalidates (ctx : Ctx) (s : Stub) (tid : String) (trade : Trade)
    (hT : GetTradeStatus ctx s tid = .ok trade) (hp : trade.Status = "pending") :
    (∀ si, GetInventory ctx s (sellerOf trade) trade.CommodityID = .ok si →
      si.Quantity < trade.Quantity →
      ExecuteTrade ctx s tid = ⟨some "seller has insufficient inventory", s⟩ ∧
      GetTradeStatus ctx (ExecuteTrade ctx s tid).stub tid = .ok trade) ∧
    (∀ si ba, GetInventory ctx s (sellerOf trade) trade.CommodityID = .ok si →
      ¬ si.Quantity < trade.Quantity →
      GetUserAssets ctx s (buyerOf trade) = .ok ba → ba.Balance < trade.Price →
      ExecuteTrade ctx s tid = ⟨some "buyer has insufficient balance", s⟩ ∧
      GetTradeStatus ctx (ExecuteTrade ctx s tid).stub tid = .ok trade) := by
  constructor
  · intro si hsi hlt
    have hE : ExecuteTrade ctx s tid = ⟨some "seller has insufficient inventory", s⟩ := by
      simp only [sellerOf] at hsi
      simp [ExecuteTrade, hT, hp, hsi, hlt]
    rw [hE]
    exact ⟨rfl, hT⟩
  · intro si ba hsi hge hba hlt
    have hE : ExecuteTrade ctx s tid = ⟨some "buyer has insufficient balance", s⟩ := by
      simp only [sellerOf, buyerOf] at hsi hba
      simp [ExecuteTrade, hT, hp, hsi, hge, hba, hlt]
    rw [hE]
    exact ⟨rfl, hT⟩

set_option maxRecDepth 100000 in
/-- C8, instance: the trade of TestExecuteTrade, created when the seller held 10
units and the buyer 1000, fails to execute once the seller has only 2 units
left, and fails once the buyer has only 50 left. -/
theorem ExecuteTrade_revalidates_witness :
    (GetTradeStatus ctx0 drainedSellerLedger "trade1" = .ok trade1 ∧
      trade1.Status = "pending" ∧
      ExecuteTrade ctx0 drainedSellerLedger "trade1" =
        ⟨some "seller has insufficient inventory", drainedSellerLedger⟩) ∧
    (GetTradeStatus ctx0 drainedBuyerLedger "trade1" = .ok trade1 ∧
      ExecuteTrade ctx0 drainedBuyerLedger "trade1" =
        ⟨some "buyer has insufficient balance", drainedBuyerLedger⟩) :=
  ⟨⟨by decide!, by decide,
      ((ExecuteTrade_revalidates ctx0 drainedSellerLedger "trade1" trade1 (by decide!)
        (by decide)).1 ⟨"user2", "commodity1", 2, ⟨1700000000, 5⟩⟩ (by decide!) (by decide)).1⟩,
    ⟨by decide!,
      ((ExecuteTrade_revalidates ctx0 drainedBuyerLedger "trade1" trade1 (by decide!)
        (by decide)).2 ⟨"user2", "commodity1", 10, ⟨1700000000, 5⟩⟩
        ⟨"user1", 50, ⟨1700000000, 5⟩⟩ (by decide!) (by decide) (by decide!) (by decide!)).1⟩⟩

set_option maxRecDepth 100000 in
/-- C7, evaluated at the failing input: with a seller who holds the commodity but
has no account, ExecuteTrade returns the error of the fourth ledger update after
the first three have been written: the seller's quantity went from 10 to 5, the
buyer's from 0 to 5 and the buyer's balance from 1000 to 900, while the trade is
still pending. -/
theorem ExecuteTrade_error_after_writes :
    GetTradeStatus ctx0 sellerlessLedger "trade1" = .ok trade1 ∧
    (ExecuteTrade ctx0 sellerlessLedger "trade1").err =
      some "failed to update seller balance: user asset not found for user user2" ∧
    quantityOf ctx0 sellerlessLedger "user2" "commodity1" = some 10 ∧
    quantityOf ctx0 (ExecuteTrade ctx0 sellerlessLedger "trade1").stub "user2" "commodity1"
      = some 5 ∧
    quantityOf ctx0 sellerlessLedger "user1" "commodity1" = some 0 ∧
    quantityOf ctx0 (ExecuteTrade ctx0 sellerlessLedger "trade1").stub "user1" "commodity1"
      = some 5 ∧
    balanceOf ctx0 sellerlessLedger "user1" = some 1000 ∧
    balanceOf ctx0 (ExecuteTrade ctx0 sellerlessLedger "trade1").stub "user1" = some 900 ∧
    GetTradeStatus ctx0 (ExecuteTrade ctx0 sellerlessLedger "trade1").stub "trade1"
      = .ok trade1 := by
  decide!

/-! ## Records that stay once created -/

theorem UpdateBalance_keeps_userAsset (ctx : Ctx) (s : Stub) (u : String) (x : ℚ) (op : String)
    {v : String} (h : ∃ a, s.GetState (GetUserAssetKey v) = some (.userAsset a)) :
    ∃ a, (UpdateBalance ctx s u x op).stub.GetState (GetUserAssetKey v) = some (.userAsset a) := by
  by_cases huv : GetUserAssetKey v = GetUserAssetKey u
  · unfold UpdateBalance
    split
    · exact h
    · split
      · exact ⟨_, by rw [huv]; exact GetState_PutState_self _ _ _⟩
      · split
        · split
          · exact h
          · exact ⟨_, by rw [huv]; exact GetState_PutState_self _ _ _⟩
        · exact h
  · rw [UpdateBalance_GetState_ne _ _ _ _ _ huv]
    exact h

theorem invoke_keeps_userAsset (codec : Codec) (ctx : Ctx) (s : Stub) (call : Call) {v : String}
    (h : ∃ a, s.GetState (GetUserAssetKey v) = some (.userAsset a)) :
    ∃ a, (invoke codec ctx s call).stub.GetState (GetUserAssetKey v) = some (.userAsset a) := by
  cases call with
  | initUser u b =>
    simp only [invoke]
    by_cases huv : u = v
    · subst huv
      obtain ⟨a, ha⟩ := h
      have : InitUser ctx s u b = ⟨some ("user " ++ u ++ " already exists"), s⟩ := by
        unfold InitUser
        rw [GetUserAssets_ok_iff.mpr ha]
      rw [this]
      exact ⟨a, ha⟩
    · rw [InitUser_GetState_ne _ _ _ _ (fun hk => huv (GetUserAssetKey_inj hk).symm)]
      exact h
  | updateBalance u a op => exact UpdateBalance_keeps_userAsset ctx s u a op h
  | updateInventory u c q op =>
    simp only [invoke]
    rw [UpdateInventory_GetState_ne _ _ _ _ _ _ (userAssetKey_ne_inventoryKey _ _ _)]
    exact h
  | createCommodity c n m =>
    simp only [invoke]
    rw [CreateCommodity_GetState_ne _ _ _ _ _ _ (userAssetKey_ne_commodityKey _ _)]
    exact h
  | initializeCommodities =>
    simp only [invoke, InitializeCommodities]
    rw [createAll_GetState_ne _ _ _ (fun c => userAssetKey_ne_commodityKey _ c)]
    exact h
  | createTrade t f u c q p a =>
    simp only [invoke]
    rw [CreateTrade_GetState_ne _ _ _ _ _ _ _ _ _ (userAssetKey_ne_tradeKey _ _)]
    exact h
  | executeTrade t =>
    simp only [invoke]
    rcases ExecuteTrade_stub_cases ctx s t with ⟨-, h0⟩ | ⟨trade, si, ba, -, -, -, -, -, -, hc⟩
    · rw [h0]; exact h
    have h2 : ∃ a, (UpdateInventory ctx (UpdateInventory ctx s (sellerOf trade) trade.CommodityID
        trade.Quantity "subtract").stub (buyerOf trade) trade.CommodityID trade.Quantity
        "add").stub.GetState (GetUserAssetKey v) = some (.userAsset a) := by
      rw [UpdateInventory_GetState_ne _ _ _ _ _ _ (userAssetKey_ne_inventoryKey _ _ _),
        UpdateInventory_GetState_ne _ _ _ _ _ _ (userAssetKey_ne_inventoryKey _ _ _)]
      exact h
    have h3 := UpdateBalance_keeps_userAsset ctx _ (buyerOf trade) trade.Price "subtract" h2
    have h4 := UpdateBalance_keeps_userAsset ctx _ (sellerOf trade) trade.Price "add" h3
    rcases hc with ⟨-, hc⟩ | ⟨-, hc⟩ | ⟨-, hc⟩ | ⟨-, hc⟩ | ⟨-, hc⟩ <;> rw [hc]
    · rw [UpdateInventory_GetState_ne _ _ _ _ _ _ (userAssetKey_ne_inventoryKey _ _ _)]
      exact h
    · exact h2
    · exact h3
    · exact h4
    · rw [GetState_SetEvent, GetState_PutState_ne _ _ (userAssetKey_ne_tradeKey _ _)]
      exact h4
  | rejectTrade t =>
    simp only [invoke]
    rw [RejectTrade_GetState_ne _ _ _ (userAssetKey_ne_tradeKey _ _)]
    exact h
  | createRedemptionRule u text r =>
    simp only [invoke]
    rw [CreateRedemptionRule_GetState_ne _ _ _ _ _ _ (userAssetKey_ne_ruleKey _ _)]
    exact h
  | executeRedemption u r =>
    simp only [invoke]
    rcases ExecuteRedemption_stub_cases ctx s u r with ⟨-, h0⟩ | ⟨rule, -, -, hc⟩
    · rw [h0]; exact h
    have h1 : ∃ a, (deductItems ctx u rule.RequiredItems s).stub.GetState (GetUserAssetKey v) =
        some (.userAsset a) := by
      rw [deductItems_GetState_ne ctx u rule.RequiredItems
        (fun _ _ => userAssetKey_ne_inventoryKey _ _ _)]
      exact h
    have h2 := UpdateBalance_keeps_userAsset ctx _ u rule.RewardAmount "add" h1
    rcases hc with ⟨-, hc⟩ | ⟨-, hc⟩ | ⟨-, -, -, hc⟩ <;> rw [hc]
    · exact h1
    · exact h2
    · rw [GetState_SetEvent, GetState_PutState_ne _ _ (userAssetKey_ne_recordKey _ _)]
      exact h2
  | getUserAssets u => simp only [invoke, queryOutcome_stub]; exact h
  | getInventory u c => simp only [invoke, queryOutcome_stub]; exact h
  | getAllInventory u => simp only [invoke, queryOutcome_stub]; exact h
  | getCommodity c => simp only [invoke, queryOutcome_stub]; exact h
  | getAllCommodities => simp only [invoke, queryOutcome_stub]; exact h
  | getTradeStatus t => simp only [invoke, queryOutcome_stub]; exact h
  | getTradeHistory u => simp only [invoke, queryOutcome_stub]; exact h
  | getRedemptionRule u => simp only [invoke, queryOutcome_stub]; exact h
  | getRedemptionHistory u => simp only [invoke, queryOutcome_stub]; exact h

theorem run_keeps_userAsset (codec : Codec) (calls : List (Ctx × Call)) {v : String} :
    ∀ s : Stub, (∃ a, s.GetState (GetUserAssetKey v) = some (.userAsset a)) →
      ∃ a, (run codec calls s).GetState (GetUserAssetKey v) = some (.userAsset a) := by
  induction calls with
  | nil => intro s h; exact h
  | cons hd rest ih =>
    intro s h
    obtain ⟨ctx, call⟩ := hd
    exact ih _ (invoke_keeps_userAsset codec ctx s call h)

theorem run_keeps_trade (codec : Codec) (calls : List (Ctx × Call)) {tid : String} :
    ∀ s : Stub, (∃ t, s.GetState (GetTradeKey tid) = some (.trade t)) →
      ∃ t, (run codec calls s).GetState (GetTradeKey tid) = some (.trade t) := by
  induction calls with
  | nil => intro s h; exact h
  | cons hd rest ih =>
    intro s h
    obtain ⟨ctx, call⟩ := hd
    obtain ⟨t, ht⟩ := h
    apply ih
    rcases invoke_trade_step codec ctx s call ht with h1 | ⟨-, h1⟩ | ⟨-, h1⟩
    · exact ⟨_, h1⟩
    · exact ⟨_, h1⟩
    · exact ⟨_, h1⟩

theorem GetCommodityKey_inj {c d : String} (h : GetCommodityKey c = GetCommodityKey d) : c = d :=
  string_append_left_cancel h

theorem GetRedemptionRuleKey_inj {u v : String}
    (h : GetRedemptionRuleKey u = GetRedemptionRuleKey v) : u = v :=
  string_append_left_cancel h

theorem GetRedemptionRecordKey_inj {r t : String}
    (h : GetRedemptionRecordKey r = GetRedemptionRecordKey t) : r = t :=
  string_append_left_cancel h

theorem CreateCommodity_exists {codec : Codec} {ctx : Ctx} {s : Stub} {c : String} {x : Commodity}
    (h : s.GetState (GetCommodityKey c) = some (.commodity x)) (n m : String) :
    CreateCommodity codec ctx s c n m = ⟨some ("commodity " ++ c ++ " already exists"), s⟩ := by
  have hg : GetCommodity ctx s c = .ok x := by
    unfold GetCommodity
    rw [h]
  unfold CreateCommodity
  rw [hg]

theorem CreateCommodity_keeps (codec : Codec) (ctx : Ctx) (s : Stub) (d n m : String)
    {c : String} {x : Commodity} (h : s.GetState (GetCommodityKey c) = some (.commodity x)) :
    (CreateCommodity codec ctx s d n m).stub.GetState (GetCommodityKey c) =
      some (.commodity x) := by
  by_cases hd : d = c
  · subst hd
    rw [CreateCommodity_exists h]
    exact h
  · rw [CreateCommodity_GetState_ne _ _ _ _ _ _
      (fun hk => hd (GetCommodityKey_inj hk).symm)]
    exact h

theorem createAll_keeps (codec : Codec) (ctx : Ctx) (l : List (String × String × String))
    {c : String} {x : Commodity} :
    ∀ s : Stub, s.GetState (GetCommodityKey c) = some (.commodity x) →
      (createAll codec ctx l s).GetState (GetCommodityKey c) = some (.commodity x) := by
  induction l with
  | nil => intro s h; exact h
  | cons hd rest ih =>
    intro s h
    obtain ⟨id, name, metadata⟩ := hd
    unfold createAll
    exact ih _ (CreateCommodity_keeps codec ctx s id name metadata h)

theorem invoke_keeps_commodity (codec : Codec) (ctx : Ctx) (s : Stub) (call : Call) {c : String}
    {x : Commodity} (h : s.GetState (GetCommodityKey c) = some (.commodity x)) :
    (invoke codec ctx s call).stub.GetState (GetCommodityKey c) = some (.commodity x) := by
  cases call with
  | initUser u b =>
    simp only [invoke]
    rw [InitUser_GetState_ne _ _ _ _ (commodityKey_ne_userAssetKey _ _), h]
  | updateBalance u a op =>
    simp only [invoke]
    rw [UpdateBalance_GetState_ne _ _ _ _ _ (commodityKey_ne_userAssetKey _ _), h]
  | updateInventory u d q op =>
    simp only [invoke]
    rw [UpdateInventory_GetState_ne _ _ _ _ _ _ (commodityKey_ne_inventoryKey _ _ _), h]
  | createCommodity d n m => exact CreateCommodity_keeps codec ctx s d n m h
  | initializeCommodities =>
    simp only [invoke, InitializeCommodities]
    exact createAll_keeps codec ctx defaultCommodities s h
  | createTrade t f u d q p a =>
    simp only [invoke]
    rw [CreateTrade_GetState_ne _ _ _ _ _ _ _ _ _ (commodityKey_ne_tradeKey _ _), h]
  | executeTrade t =>
    simp only [invoke]
    rw [ExecuteTrade_GetState_ne _ _ _ (fun _ _ => commodityKey_ne_inventoryKey _ _ _)
      (fun _ => commodityKey_ne_userAssetKey _ _) (commodityKey_ne_tradeKey _ _), h]
  | rejectTrade t =>
    simp only [invoke]
    rw [RejectTrade_GetState_ne _ _ _ (commodityKey_ne_tradeKey _ _), h]
  | createRedemptionRule u text r =>
    simp only [invoke]
    rw [CreateRedemptionRule_GetState_ne _ _ _ _ _ _ (commodityKey_ne_ruleKey _ _), h]
  | executeRedemption u r =>
    simp only [invoke]
    rw [ExecuteRedemption_GetState_ne _ _ _ _ (fun _ => commodityKey_ne_inventoryKey _ _ _)
      (commodityKey_ne_userAssetKey _ _) (commodityKey_ne_recordKey _ _), h]
  | getUserAssets u => simp only [invoke, queryOutcome_stub]; exact h
  | getInventory u d => simp only [invoke, queryOutcome_stub]; exact h
  | getAllInventory u => simp only [invoke, queryOutcome_stub]; exact h
  | getCommodity d => simp only [invoke, queryOutcome_stub]; exact h
  | getAllCommodities => simp only [invoke, queryOutcome_stub]; exact h
  | getTradeStatus t => simp only [invoke, queryOutcome_stub]; exact h
  | getTradeHistory u => simp only [invoke, queryOutcome_stub]; exact h
  | getRedemptionRule u => simp only [invoke, queryOutcome_stub]; exact h
  | getRedemptionHistory u => simp only [invoke, queryOutcome_stub]; exact h

theorem run_keeps_commodity (codec : Codec) (calls : List (Ctx × Call)) {c : String}
    {x : Commodity} :
    ∀ s : Stub, s.GetState (GetCommodityKey c) = some (.commodity x) →
      (run codec calls s).GetState (GetCommodityKey c) = some (.commodity x) := by
  induction calls with
  | nil => intro s h; exact h
  | cons hd rest ih =>
    intro s h
    obtain ⟨ctx, call⟩ := hd
    exact ih _ (invoke_keeps_commodity codec ctx s call h)

theorem CreateRedemptionRule_keeps (codec : Codec) (ctx : Ctx) (s : Stub) (v text : String)
    (r : ℚ) {u : String} {x : RedemptionRule}
    (h : s.GetState (GetRedemptionRuleKey u) = some (.redemptionRule x)) :
    (CreateRedemptionRule codec ctx s v text r).stub.GetState (GetRedemptionRuleKey u) =
      some (.redemptionRule x) := by
  by_cases hv : v = u
  · subst hv
    have hg : GetRedemptionRule ctx s v = .ok x := GetRedemptionRule_ok_iff.mpr h
    unfold CreateRedemptionRule
    repeat' split
    all_goals first
      | exact h
      | simp_all
  · rw [CreateRedemptionRule_GetState_ne _ _ _ _ _ _
      (fun hk => hv (GetRedemptionRuleKey_inj hk).symm)]
    exact h

theorem invoke_keeps_rule (codec : Codec) (ctx : Ctx) (s : Stub) (call : Call) {u : String}
    {x : RedemptionRule} (h : s.GetState (GetRedemptionRuleKey u) = some (.redemptionRule x)) :
    (invoke codec ctx s call).stub.GetState (GetRedemptionRuleKey u) =
      some (.redemptionRule x) := by
  cases call with
  | initUser v b =>
    simp only [invoke]
    rw [InitUser_GetState_ne _ _ _ _ (ruleKey_ne_userAssetKey _ _), h]
  | updateBalance v a op =>
    simp only [invoke]
    rw [UpdateBalance_GetState_ne _ _ _ _ _ (ruleKey_ne_userAssetKey _ _), h]
  | updateInventory v d q op =>
    simp only [invoke]
    rw [UpdateInventory_GetState_ne _ _ _ _ _ _ (ruleKey_ne_inventoryKey _ _ _), h]
  | createCommodity d n m =>
    simp only [invoke]
    rw [CreateCommodity_GetState_ne _ _ _ _ _ _ (ruleKey_ne_commodityKey _ _), h]
  | initializeCommodities =>
    simp only [invoke, InitializeCommodities]
    rw [createAll_GetState_ne _ _ _ (fun c => ruleKey_ne_commodityKey _ c), h]
  | createTrade t f v d q p a =>
    simp only [invoke]
    rw [CreateTrade_GetState_ne _ _ _ _ _ _ _ _ _ (ruleKey_ne_tradeKey _ _), h]
  | executeTrade t =>
    simp only [invoke]
    rw [ExecuteTrade_GetState_ne _ _ _ (fun _ _ => ruleKey_ne_inventoryKey _ _ _)
      (fun _ => ruleKey_ne_userAssetKey _ _) (ruleKey_ne_tradeKey _ _), h]
  | rejectTrade t =>
    simp only [invoke]
    rw [RejectTrade_GetState_ne _ _ _ (ruleKey_ne_tradeKey _ _), h]
  | createRedemptionRule v text r => exact CreateRedemptionRule_keeps codec ctx s v text r h
  | executeRedemption v r =>
    simp only [invoke]
    rw [ExecuteRedemption_GetState_ne _ _ _ _ (fun _ => ruleKey_ne_inventoryKey _ _ _)
      (ruleKey_ne_userAssetKey _ _) (ruleKey_ne_recordKey _ _), h]
  | getUserAssets v => simp only [invoke, queryOutcome_stub]; exact h
  | getInventory v d => simp only [invoke, queryOutcome_stub]; exact h
  | getAllInventory v => simp only [invoke, queryOutcome_stub]; exact h
  | getCommodity d => simp only [invoke, queryOutcome_stub]; exact h
  | getAllCommodities => simp only [invoke, queryOutcome_stub]; exact h
  | getTradeStatus t => simp only [invoke, queryOutcome_stub]; exact h
  | getTradeHistory v => simp only [invoke, queryOutcome_stub]; exact h
  | getRedemptionRule v => simp only [invoke, queryOutcome_stub]; exact h
  | getRedemptionHistory v => simp only [invoke, queryOutcome_stub]; exact h

theorem run_keeps_rule (codec : Codec) (calls : List (Ctx × Call)) {u : String}
    {x : RedemptionRule} :
    ∀ s : Stub, s.GetState (GetRedemptionRuleKey u) = some (.redemptionRule x) →
      (run codec calls s).GetState (GetRedemptionRuleKey u) = some (.redemptionRule x) := by
  induction calls with
  | nil => intro s h; exact h
  | cons hd rest ih =>
    intro s h
    obtain ⟨ctx, call⟩ := hd
    exact ih _ (invoke_keeps_rule codec ctx s call h)

/-! ## Creation -/

theorem InitUser_ok_stored {ctx : Ctx} {s : Stub} {u : String} {b : ℚ}
    (h : (InitUser ctx s u b).err = none) :
    (InitUser ctx s u b).stub = s.PutState (GetUserAssetKey u)
      (.userAsset ⟨u, b, GetTxTimestamp ctx⟩) := by
  unfold InitUser at h ⊢
  split
  · rename_i heq
    rw [heq] at h
    cases h
  · rfl

theorem InitUser_exists {ctx : Ctx} {s : Stub} {u : String} {a : UserAsset}
    (h : s.GetState (GetUserAssetKey u) = some (.userAsset a)) (b : ℚ) :
    InitUser ctx s u b = ⟨some ("user " ++ u ++ " already exists"), s⟩ := by
  unfold InitUser
  rw [GetUserAssets_ok_iff.mpr h]

theorem CreateCommodity_ok_stored {codec : Codec} {ctx : Ctx} {s : Stub} {c n m : String}
    (h : (CreateCommodity codec ctx s c n m).err = none) :
    ∃ x, (CreateCommodity codec ctx s c n m).stub.GetState (GetCommodityKey c) =
      some (.commodity x) := by
  unfold CreateCommodity at h ⊢
  split
  · rename_i heq
    rw [heq] at h
    cases h
  · rename_i heq
    rw [heq] at h
    simp only at h ⊢
    split
    · rename_i heq2
      rw [heq2] at h
      cases h
    · exact ⟨_, GetState_PutState_self _ _ _⟩

/-- The trade record CreateTrade builds from its arguments. -/
theorem CreateTrade_ok_stored {ctx : Ctx} {s : Stub} {t f u c : String} {q : Int} {p : ℚ}
    {a : String} (h : (CreateTrade ctx s t f u c q p a).err = none) :
    (CreateTrade ctx s t f u c q p a).stub = s.PutState (GetTradeKey t)
      (.trade ⟨t, f, u, c, q, p, a, "pending", GetTxTimestamp ctx, zeroTime⟩) := by
  unfold CreateTrade at h ⊢
  split
  · rename_i heq
    simp [heq] at h
  · rename_i heq
    simp only [heq, if_false] at h
    split
    · rename_i heq2
      rw [heq2] at h
      cases h
    · rename_i heq2
      rw [heq2] at h
      simp only at h ⊢
      split
      · rename_i heq3
        rw [heq3] at h
        cases h
      · rename_i heq3
        rw [heq3] at h
        simp only at h ⊢
        split
        · rename_i heq4
          simp [heq4] at h
        · rename_i heq4
          simp only [heq4, if_false] at h
          split
          · rename_i heq5
            rw [heq5] at h
            cases h
          · rename_i heq5
            rw [heq5] at h
            simp only at h ⊢
            split
            · rename_i heq6
              simp [heq6] at h
            · rfl

theorem CreateRedemptionRule_ok_stored {codec : Codec} {ctx : Ctx} {s : Stub} {u text : String}
    {r : ℚ} (h : (CreateRedemptionRule codec ctx s u text r).err = none) :
    ∃ x, (CreateRedemptionRule codec ctx s u text r).stub.GetState (GetRedemptionRuleKey u) =
      some (.redemptionRule x) := by
  unfold CreateRedemptionRule at h ⊢
  split
  · rename_i heq
    rw [heq] at h
    cases h
  · rename_i heq
    rw [heq] at h
    simp only at h ⊢
    split
    · rename_i heq2
      simp [heq2] at h
    · rename_i heq2
      simp only [heq2, if_false] at h
      split
      · rename_i heq3
        simp [heq3] at h
      · rename_i heq3
        simp only [heq3, if_false] at h
        split
        · rename_i heq4
          rw [heq4] at h
          cases h
        · exact ⟨_, GetState_PutState_self _ _ _⟩

theorem CreateRedemptionRule_exists {codec : Codec} {ctx : Ctx} {s : Stub} {u text : String}
    {r : ℚ} {x : RedemptionRule} {items : List RequiredItem}
    (h : s.GetState (GetRedemptionRuleKey u) = some (.redemptionRule x))
    (hparse : codec.unmarshalRequiredItems text = .ok items) (hne : items ≠ []) (hr : 0 < r) :
    CreateRedemptionRule codec ctx s u text r =
      ⟨some ("redemption rule already exists for user " ++ u), s⟩ := by
  have hlen : ¬ items.length = 0 := fun h0 => hne (List.length_eq_zero.mp h0)
  unfold CreateRedemptionRule
  rw [hparse]
  simp only [hlen, if_false, not_le.mpr hr]
  rw [GetRedemptionRule_ok_iff.mpr h]

theorem CreateTrade_exists_err {ctx : Ctx} {s : Stub} {t : String} {trade : Trade}
    (hT : s.GetState (GetTradeKey t) = some (.trade trade)) (f u c : String) (q : Int) (p : ℚ)
    {a : String} (ha : a = "buy" ∨ a = "sell") :
    CreateTrade ctx s t f u c q p a = ⟨some ("trade " ++ t ++ " already exists"), s⟩ := by
  have hv : ¬ (a ≠ "buy" ∧ a ≠ "sell") := by
    rcases ha with h | h <;> simp [h]
  unfold CreateTrade
  simp only [hv, if_false]
  rw [GetTradeStatus_ok_iff.mpr hT]

/-- C11: after a successful InitUser, CreateCommodity, CreateTrade or
CreateRedemptionRule, and after every further sequence of calls, a call of the
same operation with the same userId, commodityId, tradeId or userId and otherwise
valid arguments (an action 'buy' or 'sell'; a required-items text that decodes to
a non-empty list and a positive reward) fails with the 'already exists' error and
leaves the whole store, the record under that key included, as it was. -/
theorem created_keys_are_taken (codec : Codec) (ctx : Ctx) (s : Stub) :
    (∀ u b, (InitUser ctx s u b).err = none → ∀ calls ctx' b',
      InitUser ctx' (run codec calls (InitUser ctx s u b).stub) u b' =
        ⟨some ("user " ++ u ++ " already exists"),
          run codec calls (InitUser ctx s u b).stub⟩) ∧
    (∀ c n m, (CreateCommodity codec ctx s c n m).err = none → ∀ calls ctx' n' m',
      CreateCommodity codec ctx' (run codec calls (CreateCommodity codec ctx s c n m).stub)
          c n' m' =
        ⟨some ("commodity " ++ c ++ " already exists"),
          run codec calls (CreateCommodity codec ctx s c n m).stub⟩) ∧
    (∀ t f u c q p a, (CreateTrade ctx s t f u c q p a).err = none →
      ∀ calls ctx' f' u' c' q' p' a', a' = "buy" ∨ a' = "sell" →
      CreateTrade ctx' (run codec calls (CreateTrade ctx s t f u c q p a).stub)
          t f' u' c' q' p' a' =
        ⟨some ("trade " ++ t ++ " already exists"),
          run codec calls (CreateTrade ctx s t f u c q p a).stub⟩) ∧
    (∀ u text r, (CreateRedemptionRule codec ctx s u text r).err = none →
      ∀ calls ctx' text' r' items, codec.unmarshalRequiredItems text' = .ok items →
      items ≠ [] → 0 < r' →
      CreateRedemptionRule codec ctx' (run codec calls
          (CreateRedemptionRule codec ctx s u text r).stub) u text' r' =
        ⟨some ("redemption rule already exists for user " ++ u),
          run codec calls (CreateRedemptionRule codec ctx s u text r).stub⟩) := by
  refine ⟨?_, ?_, ?_, ?_⟩
  · intro u b hok calls ctx' b'
    have h0 : ∃ a, (InitUser ctx s u b).stub.GetState (GetUserAssetKey u) =
        some (.userAsset a) := by
      rw [InitUser_ok_stored hok]
      exact ⟨_, GetState_PutState_self _ _ _⟩
    obtain ⟨a, ha⟩ := run_keeps_userAsset codec calls _ h0
    exact InitUser_exists ha b'
  · intro c n m hok calls ctx' n' m'
    obtain ⟨x, hx⟩ := CreateCommodity_ok_stored hok
    exact CreateCommodity_exists (run_keeps_commodity codec calls _ hx) n' m'
  · intro t f u c q p a hok calls ctx' f' u' c' q' p' a' ha'
    have h0 : ∃ x, (CreateTrade ctx s t f u c q p a).stub.GetState (GetTradeKey t) =
        some (.trade x) := by
      rw [CreateTrade_ok_stored hok]
      exact ⟨_, GetState_PutState_self _ _ _⟩
    obtain ⟨x, hx⟩ := run_keeps_trade codec calls _ h0
    exact CreateTrade_exists_err hx f' u' c' q' p' ha'
  · intro u text r hok calls ctx' text' r' items hparse hne hr
    obtain ⟨x, hx⟩ := CreateRedemptionRule_ok_stored hok
    exact CreateRedemptionRule_exists (run_keeps_rule codec calls _ hx) hparse hne hr

theorem GetTradeStatus_absent {ctx : Ctx} {s : Stub} {t : String}
    (h : s.GetState (GetTradeKey t) = none) :
    GetTradeStatus ctx s t = .error ("trade not found: " ++ t) := by
  unfold GetTradeStatus
  rw [h]

/-- C12: when no trade is stored under tradeId, CreateTrade succeeds if and only
if the action is 'buy' or 'sell', the seller's quantity of the commodity is at
least the requested quantity and the buyer has an account whose balance is at
least the price, the seller being toUserId and the buyer fromUserId for 'buy' and
the other way round for 'sell'; with such an action it fails with the
insufficient-inventory error when the seller's quantity is too low and with the
insufficient-balance error when the quantity suffices but the buyer's balance is
below the price; and on every failure nothing is written, so no trade is stored. -/
theorem CreateTrade_succeeds_iff (ctx : Ctx) (s : Stub) (t f u c : String) (q : Int) (p : ℚ)
    (a : String) (hnone : s.GetState (GetTradeKey t) = none) :
    ((CreateTrade ctx s t f u c q p a).err = none ↔
      (a = "buy" ∨ a = "sell") ∧
      (∃ i, GetInventory ctx s (if a = "buy" then u else f) c = .ok i ∧ q ≤ i.Quantity) ∧
      (∃ x, GetUserAssets ctx s (if a = "buy" then f else u) = .ok x ∧ p ≤ x.Balance)) ∧
    (a = "buy" ∨ a = "sell" →
      ∀ i, GetInventory ctx s (if a = "buy" then u else f) c = .ok i → i.Quantity < q →
        CreateTrade ctx s t f u c q p a = ⟨some "seller has insufficient inventory", s⟩) ∧
    (a = "buy" ∨ a = "sell" →
      ∀ i x, GetInventory ctx s (if a = "buy" then u else f) c = .ok i → q ≤ i.Quantity →
        GetUserAssets ctx s (if a = "buy" then f else u) = .ok x → x.Balance < p →
        CreateTrade ctx s t f u c q p a = ⟨some "buyer has insufficient balance", s⟩) ∧
    ((CreateTrade ctx s t f u c q p a).err ≠ none →
      (CreateTrade ctx s t f u c q p a).stub = s ∧
      (CreateTrade ctx s t f u c q p a).stub.GetState (GetTradeKey t) = none) := by
  have hT := @GetTradeStatus_absent ctx s t hnone
  by_cases ha : a = "buy" ∨ a = "sell"
  swap
  · have hv : a ≠ "buy" ∧ a ≠ "sell" := by
      constructor
      · exact fun h => ha (Or.inl h)
      · exact fun h => ha (Or.inr h)
    have hE : CreateTrade ctx s t f u c q p a =
        ⟨some ("invalid action: " ++ a ++ " (must be 'buy' or 'sell')"), s⟩ := by
      simp [CreateTrade, hv]
    rw [hE]
    refine ⟨⟨(fun h => by cases h), fun h => absurd h.1 ha⟩, fun h => absurd h ha,
      fun h => absurd h ha, fun _ => ⟨rfl, hnone⟩⟩
  have hv : ¬ (a ≠ "buy" ∧ a ≠ "sell") := by
    rcases ha with h | h <;> simp [h]
  cases hi : GetInventory ctx s (if a = "buy" then u else f) c with
  | error e =>
    have hE : CreateTrade ctx s t f u c q p a =
        ⟨some ("failed to get seller inventory: " ++ e), s⟩ := by
      simp only [CreateTrade, hv, if_false, hT, hi]
    rw [hE]
    refine ⟨⟨(fun h => by cases h), fun h => ?_⟩, (fun _ i h => by cases h),
      (fun _ i x h => by cases h), fun _ => ⟨rfl, hnone⟩⟩
    obtain ⟨-, ⟨i, h, -⟩, -⟩ := h
    cases h
  | ok i =>
    by_cases hq : i.Quantity < q
    · have hE : CreateTrade ctx s t f u c q p a =
          ⟨some "seller has insufficient inventory", s⟩ := by
        simp only [CreateTrade, hv, if_false, hT, hi, hq, if_true]
      rw [hE]
      refine ⟨⟨(fun h => by cases h), fun h => ?_⟩, fun _ _ _ _ => rfl, fun _ j x hj hjq => ?_,
        fun _ => ⟨rfl, hnone⟩⟩
      · obtain ⟨-, ⟨j, hj, hjq⟩, -⟩ := h
        cases hj
        omega
      · cases hj
        omega
    cases hx : GetUserAssets ctx s (if a = "buy" then f else u) with
    | error e =>
      have hE : CreateTrade ctx s t f u c q p a =
          ⟨some ("failed to get buyer assets: " ++ e), s⟩ := by
        simp only [CreateTrade, hv, if_false, hT, hi, hq, hx]
      rw [hE]
      refine ⟨⟨(fun h => by cases h), fun h => ?_⟩, fun _ j hj hjq => ?_,
        (fun _ j x _ _ h => by cases h), fun _ => ⟨rfl, hnone⟩⟩
      · obtain ⟨-, -, ⟨x, h, -⟩⟩ := h
        cases h
      · cases hj
        exact absurd hjq hq
    | ok x =>
      by_cases hp : x.Balance < p
      · have hE : CreateTrade ctx s t f u c q p a =
            ⟨some "buyer has insufficient balance", s⟩ := by
          simp only [CreateTrade, hv, if_false, hT, hi, hq, hx, hp, if_true]
        rw [hE]
        refine ⟨⟨(fun h => by cases h), fun h => ?_⟩, fun _ j hj hjq => ?_,
          fun _ _ _ _ _ _ _ => rfl, fun _ => ⟨rfl, hnone⟩⟩
        · obtain ⟨-, -, ⟨y, hy, hyp⟩⟩ := h
          cases hy
          exact absurd hp (not_lt.mpr hyp)
        · cases hj
          exact absurd hjq hq
      · have hE : (CreateTrade ctx s t f u c q p a).err = none := by
          simp only [CreateTrade, hv, if_false, hT, hi, hq, hx, hp]
        refine ⟨⟨fun _ => ⟨ha, ⟨i, rfl, not_lt.mp hq⟩, ⟨x, rfl, not_lt.mp hp⟩⟩, fun _ => hE⟩,
          fun _ j hj hjq => ?_, fun _ j y _ _ hy hyp => ?_, fun h => absurd hE h⟩
        · cases hj
          exact absurd hjq hq
        · cases hy
          exact absurd hyp hp

/-- C13: when CreateTrade succeeds, GetTradeStatus of the tradeId afterwards
returns a trade with status 'pending', createdAt equal to the transaction
timestamp, a zero completedAt and the other fields equal to the arguments; only
the key of the trade is written, so every account and every inventory record
reads as before, and no event is emitted. -/
theorem CreateTrade_stores_pending (ctx : Ctx) (s : Stub) (t f u c : String) (q : Int) (p : ℚ)
    (a : String) (hok : (CreateTrade ctx s t f u c q p a).err = none) :
    (∀ ctx', GetTradeStatus ctx' (CreateTrade ctx s t f u c q p a).stub t =
      .ok ⟨t, f, u, c, q, p, a, "pending", GetTxTimestamp ctx, zeroTime⟩) ∧
    (∀ key, key ≠ GetTradeKey t →
      (CreateTrade ctx s t f u c q p a).stub.GetState key = s.GetState key) ∧
    (∀ ctx' v, GetUserAssets ctx' (CreateTrade ctx s t f u c q p a).stub v =
      GetUserAssets ctx' s v) ∧
    (∀ ctx' v d, GetInventory ctx' (CreateTrade ctx s t f u c q p a).stub v d =
      GetInventory ctx' s v d) ∧
    (CreateTrade ctx s t f u c q p a).stub.Events = s.Events := by
  rw [CreateTrade_ok_stored hok]
  refine ⟨fun ctx' => GetTradeStatus_ok_iff.mpr (GetState_PutState_self _ _ _),
    fun key hkey => GetState_PutState_ne _ _ hkey, fun ctx' v => ?_, fun ctx' v d => ?_, rfl⟩
  · exact GetUserAssets_congr (GetState_PutState_ne _ _ (userAssetKey_ne_tradeKey _ _))
  · exact GetInventory_congr (GetState_PutState_ne _ _ (inventoryKey_ne_tradeKey _ _ _))

theorem Events_settledStub (ctx : Ctx) (s : Stub) (tid : String) (trade : Trade)
    (si bi : Inventory) (ba sa : UserAsset) :
    (settledStub ctx s tid trade si bi ba sa).Events =
      s.Events ++ [⟨"TradeExecuted", .tradeExecuted trade.TradeID trade.FromUserID
        trade.ToUserID trade.CommodityID trade.Quantity trade.Price (GetTxTimestamp ctx)⟩] := by
  rfl

/-- C14: when ExecuteTrade succeeds, the trade stored afterwards is the trade
stored before with status 'successful' and completedAt equal to the transaction
timestamp, and the call appends exactly one event, named 'TradeExecuted', whose
payload carries the trade's tradeId, fromUserId, toUserId, commodityId, quantity,
price and the completion time. -/
theorem ExecuteTrade_marks_successful (ctx : Ctx) (s : Stub) (tid : String)
    (hok : (ExecuteTrade ctx s tid).err = none) :
    ∃ trade, GetTradeStatus ctx s tid = .ok trade ∧
      (∀ ctx', GetTradeStatus ctx' (ExecuteTrade ctx s tid).stub tid =
        .ok { trade with Status := "successful", CompletedAt := GetTxTimestamp ctx }) ∧
      (ExecuteTrade ctx s tid).stub.Events =
        s.Events ++ [⟨"TradeExecuted", .tradeExecuted trade.TradeID trade.FromUserID
          trade.ToUserID trade.CommodityID trade.Quantity trade.Price
          (GetTxTimestamp ctx)⟩] := by
  obtain ⟨trade, si, bi, ba, sa, hT, -, -, -, -, -, -, -, hst⟩ := ExecuteTrade_ok hok
  refine ⟨trade, hT, fun ctx' => ?_, ?_⟩
  · apply GetTradeStatus_ok_iff.mpr
    rw [hst, GetState_settledStub]
    simp
  · rw [hst, Events_settledStub]

/-! ## The asset contract -/

theorem GetUserAssets_absent {ctx : Ctx} {s : Stub} {u : String}
    (h : s.GetState (GetUserAssetKey u) = none) :
    GetUserAssets ctx s u = .error ("user asset not found for user " ++ u) := by
  unfold GetUserAssets
  rw [h]

/-- C15: for a user with a stored account, UpdateBalance 'add' succeeds and
leaves the balance plus the amount; 'subtract' fails with the
insufficient-balance error, writing nothing, if and only if the balance is below
the amount, and otherwise succeeds leaving the balance minus the amount; a
successful call stamps updatedAt with the transaction timestamp and keeps the
userId; for a user without an account both fail with the not-found error. -/
theorem UpdateBalance_spec (ctx : Ctx) (s : Stub) (u : String) (a : ℚ) :
    (∀ x, GetUserAssets ctx s u = .ok x →
      ((UpdateBalance ctx s u a "add").err = none ∧
        ∀ ctx', GetUserAssets ctx' (UpdateBalance ctx s u a "add").stub u =
          .ok ⟨x.UserID, x.Balance + a, GetTxTimestamp ctx⟩) ∧
      ((UpdateBalance ctx s u a "subtract").err = some ("insufficient balance for user " ++ u) ↔
        x.Balance < a) ∧
      (x.Balance < a →
        UpdateBalance ctx s u a "subtract" = ⟨some ("insufficient balance for user " ++ u), s⟩) ∧
      (¬ x.Balance < a →
        (UpdateBalance ctx s u a "subtract").err = none ∧
        ∀ ctx', GetUserAssets ctx' (UpdateBalance ctx s u a "subtract").stub u =
          .ok ⟨x.UserID, x.Balance - a, GetTxTimestamp ctx⟩)) ∧
    (s.GetState (GetUserAssetKey u) = none →
      UpdateBalance ctx s u a "add" = ⟨some ("user asset not found for user " ++ u), s⟩ ∧
      UpdateBalance ctx s u a "subtract" = ⟨some ("user asset not found for user " ++ u), s⟩) := by
  constructor
  · intro x hx
    have hadd := UpdateBalance_add (a := a) hx
    refine ⟨?_, ?_, ?_, ?_⟩
    · rw [hadd]
      exact ⟨rfl, fun ctx' => GetUserAssets_ok_iff.mpr (GetState_PutState_self _ _ _)⟩
    · by_cases hlt : x.Balance < a
      · have hE : UpdateBalance ctx s u a "subtract" =
            ⟨some ("insufficient balance for user " ++ u), s⟩ := by
          unfold UpdateBalance
          rw [hx]
          simp [hlt]
        rw [hE]
        exact ⟨fun _ => hlt, fun _ => rfl⟩
      · rw [UpdateBalance_subtract hx hlt]
        exact ⟨(fun h => by cases h), fun h => absurd h hlt⟩
    · intro hlt
      unfold UpdateBalance
      rw [hx]
      simp [hlt]
    · intro hlt
      rw [UpdateBalance_subtract hx hlt]
      exact ⟨rfl, fun ctx' => GetUserAssets_ok_iff.mpr (GetState_PutState_self _ _ _)⟩
  · intro hnone
    have he := @GetUserAssets_absent ctx s u hnone
    exact ⟨UpdateBalance_err_of_read he, UpdateBalance_err_of_read he⟩

/-- C16 (amended): with q the quantity GetInventory reports for the pair (0 when
no record is stored), UpdateInventory 'add' of n succeeds and a following
GetInventory returns q + n reduced to the 64-bit `int` range; 'subtract' fails
with the insufficient-inventory error if and only if q < n, and otherwise
succeeds and a following GetInventory returns q - n reduced to that range; each
result is exactly q + n or q - n whenever that number lies in the range; no
account of the user is involved. -/
theorem UpdateInventory_spec (ctx : Ctx) (s : Stub) (u c : String) (n : Int) (i : Inventory)
    (hi : GetInventory ctx s u c = .ok i) :
    (s.GetState (GetInventoryKey u c) = none → i.Quantity = 0) ∧
    (UpdateInventory ctx s u c n "add").err = none ∧
    (∀ ctx', quantityOf ctx' (UpdateInventory ctx s u c n "add").stub u c =
      some (wrapInt (i.Quantity + n))) ∧
    (IsInt64 (i.Quantity + n) →
      ∀ ctx', quantityOf ctx' (UpdateInventory ctx s u c n "add").stub u c =
        some (i.Quantity + n)) ∧
    ((UpdateInventory ctx s u c n "subtract").err =
        some ("insufficient inventory for user " ++ u ++ ", commodity " ++ c) ↔
      i.Quantity < n) ∧
    (¬ i.Quantity < n →
      (UpdateInventory ctx s u c n "subtract").err = none ∧
      (∀ ctx', quantityOf ctx' (UpdateInventory ctx s u c n "subtract").stub u c =
        some (wrapInt (i.Quantity - n))) ∧
      (IsInt64 (i.Quantity - n) →
        ∀ ctx', quantityOf ctx' (UpdateInventory ctx s u c n "subtract").stub u c =
          some (i.Quantity - n))) := by
  have hadd := UpdateInventory_add (q := n) hi
  have eadd : ∀ ctx', quantityOf ctx' (UpdateInventory ctx s u c n "add").stub u c =
      some (wrapInt (i.Quantity + n)) := by
    intro ctx'
    rw [hadd]
    exact quantityOf_eq_of_stored (i := ⟨i.UserID, i.CommodityID, wrapInt (i.Quantity + n),
      GetTxTimestamp ctx⟩) (GetState_PutState_self _ _ _)
  refine ⟨?_, ?_, eadd, ?_, ?_, ?_⟩
  · intro hnone
    unfold GetInventory at hi
    rw [hnone] at hi
    cases hi
    rfl
  · rw [hadd]
  · intro hr ctx'
    rw [eadd, wrapInt_of_isInt64 hr]
  · by_cases hlt : i.Quantity < n
    · have hE : UpdateInventory ctx s u c n "subtract" =
          ⟨some ("insufficient inventory for user " ++ u ++ ", commodity " ++ c), s⟩ := by
        unfold UpdateInventory
        rw [hi]
        simp [hlt]
      rw [hE]
      exact ⟨fun _ => hlt, fun _ => rfl⟩
    · rw [UpdateInventory_subtract hi hlt]
      exact ⟨(fun h => by cases h), fun h => absurd h hlt⟩
  · intro hlt
    have hsub := UpdateInventory_subtract hi hlt
    have esub : ∀ ctx', quantityOf ctx' (UpdateInventory ctx s u c n "subtract").stub u c =
        some (wrapInt (i.Quantity - n)) := by
      intro ctx'
      rw [hsub]
      exact quantityOf_eq_of_stored (i := ⟨i.UserID, i.CommodityID, wrapInt (i.Quantity - n),
        GetTxTimestamp ctx⟩) (GetState_PutState_self _ _ _)
    refine ⟨by rw [hsub], esub, fun hr ctx' => ?_⟩
    rw [esub, wrapInt_of_isInt64 hr]

/-- C17 (amended): UpdateInventory called with an operation other than 'add' or
'subtract', and UpdateBalance so called for a user whose account can be read,
fail with the invalid-operation error; UpdateBalance for a user whose account
cannot be read fails with the error of that read whatever the operation; and
whenever either of them fails, the store is exactly as before the call. -/
theorem update_failures (ctx : Ctx) (s : Stub) (u c : String) (a : ℚ) (n : Int) (op : String) :
    (op ≠ "add" → op ≠ "subtract" →
      (∀ x, GetUserAssets ctx s u = .ok x →
        UpdateBalance ctx s u a op = ⟨some ("invalid operation: " ++ op), s⟩) ∧
      (∀ i, GetInventory ctx s u c = .ok i →
        UpdateInventory ctx s u c n op = ⟨some ("invalid operation: " ++ op), s⟩)) ∧
    (∀ e, GetUserAssets ctx s u = .error e → UpdateBalance ctx s u a op = ⟨some e, s⟩) ∧
    (∀ e, (UpdateBalance ctx s u a op).err = some e → (UpdateBalance ctx s u a op).stub = s) ∧
    (∀ e, (UpdateInventory ctx s u c n op).err = some e →
      (UpdateInventory ctx s u c n op).stub = s) := by
  refine ⟨fun h1 h2 => ⟨fun x hx => ?_, fun i hi => ?_⟩, fun e he => UpdateBalance_err_of_read he,
    fun e he => UpdateBalance_stub_of_err he, fun e he => UpdateInventory_stub_of_err he⟩
  · unfold UpdateBalance
    rw [hx]
    simp [h1, h2]
  · unfold UpdateInventory
    rw [hi]
    simp [h1, h2]

/-- C18: for a pair with no stored inventory record, GetInventory succeeds and
returns a record with that userId and commodityId, quantity 0 and updatedAt equal
to the transaction timestamp, and the call leaves the stub as it was. -/
theorem GetInventory_absent (codec : Codec) (ctx : Ctx) (s : Stub) (u c : String)
    (h : s.GetState (GetInventoryKey u c) = none) :
    GetInventory ctx s u c = .ok ⟨u, c, 0, GetTxTimestamp ctx⟩ ∧
    invoke codec ctx s (.getInventory u c) = ⟨none, s⟩ := by
  have hg : GetInventory ctx s u c = .ok ⟨u, c, 0, GetTxTimestamp ctx⟩ := by
    unfold GetInventory
    rw [h]
  refine ⟨hg, ?_⟩
  simp only [invoke, hg, queryOutcome]

/-- C20: when no account is stored for the user, GetUserAssets fails with the
not-found error, InitUser succeeds, and afterwards GetUserAssets returns a record
with that userId, the given balance and updatedAt equal to the transaction
timestamp, while every other key holds what it held and no event is emitted. -/
theorem InitUser_fresh (ctx : Ctx) (s : Stub) (u : String) (b : ℚ)
    (h : s.GetState (GetUserAssetKey u) = none) :
    GetUserAssets ctx s u = .error ("user asset not found for user " ++ u) ∧
    (InitUser ctx s u b).err = none ∧
    (∀ ctx', GetUserAssets ctx' (InitUser ctx s u b).stub u =
      .ok ⟨u, b, GetTxTimestamp ctx⟩) ∧
    (∀ key, key ≠ GetUserAssetKey u →
      (InitUser ctx s u b).stub.GetState key = s.GetState key) ∧
    (InitUser ctx s u b).stub.Events = s.Events := by
  have he := @GetUserAssets_absent ctx s u h
  have hE : InitUser ctx s u b =
      ⟨none, s.PutState (GetUserAssetKey u) (.userAsset ⟨u, b, GetTxTimestamp ctx⟩)⟩ := by
    unfold InitUser
    rw [he]
  rw [hE]
  exact ⟨he, rfl, fun ctx' => GetUserAssets_ok_iff.mpr (GetState_PutState_self _ _ _),
    fun key hkey => GetState_PutState_ne _ _ hkey, rfl⟩

set_option maxRecDepth 100000 in
/-- C11, instance: the duplicate calls of TestInitUser, TestCreateCommodity,
TestCreateTrade and TestCreateRedemptionRule. -/
theorem created_keys_are_taken_witness :
    ((InitUser ctx0 emptyStub "user1" 1000).err = none ∧
      (CreateCommodity sampleCodec ctx0 emptyStub "commodity1" "Apple" "").err = none ∧
      (CreateTrade ctx0 preTradeLedger "trade1" "user1" "user2" "commodity1" 5 100 "buy").err
        = none ∧
      (CreateRedemptionRule sampleCodec ctx0 emptyStub "user1" itemsText 500).err = none) ∧
    InitUser ctx0 (run sampleCodec [(ctx0, .updateBalance "user1" 5 "add")]
        (InitUser ctx0 emptyStub "user1" 1000).stub) "user1" 500 =
      ⟨some ("user " ++ "user1" ++ " already exists"),
        run sampleCodec [(ctx0, .updateBalance "user1" 5 "add")]
          (InitUser ctx0 emptyStub "user1" 1000).stub⟩ ∧
    CreateCommodity sampleCodec ctx0 (run sampleCodec []
        (CreateCommodity sampleCodec ctx0 emptyStub "commodity1" "Apple" "").stub)
        "commodity1" "Banana" "" =
      ⟨some ("commodity " ++ "commodity1" ++ " already exists"),
        run sampleCodec [] (CreateCommodity sampleCodec ctx0 emptyStub "commodity1" "Apple"
          "").stub⟩ ∧
    CreateTrade ctx0 (run sampleCodec [(ctx0, .executeTrade "trade1")]
        (CreateTrade ctx0 preTradeLedger "trade1" "user1" "user2" "commodity1" 5 100
          "buy").stub) "trade1" "user2" "user1" "commodity1" 1 1 "sell" =
      ⟨some ("trade " ++ "trade1" ++ " already exists"),
        run sampleCodec [(ctx0, .executeTrade "trade1")]
          (CreateTrade ctx0 preTradeLedger "trade1" "user1" "user2" "commodity1" 5 100
            "buy").stub⟩ ∧
    CreateRedemptionRule sampleCodec ctx0 (run sampleCodec []
        (CreateRedemptionRule sampleCodec ctx0 emptyStub "user1" itemsText 500).stub)
        "user1" itemsText 600 =
      ⟨some ("redemption rule already exists for user " ++ "user1"),
        run sampleCodec []
          (CreateRedemptionRule sampleCodec ctx0 emptyStub "user1" itemsText 500).stub⟩ :=
  ⟨⟨by decide!, by decide!, by decide!, by decide!⟩,
    (created_keys_are_taken sampleCodec ctx0 emptyStub).1 "user1" 1000 (by decide!)
      [(ctx0, .updateBalance "user1" 5 "add")] ctx0 500,
    (created_keys_are_taken sampleCodec ctx0 emptyStub).2.1 "commodity1" "Apple" ""
      (by decide!) [] ctx0 "Banana" "",
    (created_keys_are_taken sampleCodec ctx0 preTradeLedger).2.2.1 "trade1" "user1" "user2"
      "commodity1" 5 100 "buy" (by decide!) [(ctx0, .executeTrade "trade1")] ctx0 "user2"
      "user1" "commodity1" 1 1 "sell" (Or.inr rfl),
    (created_keys_are_taken sampleCodec ctx0 emptyStub).2.2.2 "user1" itemsText 500
      (by decide!) [] ctx0 itemsText 600 [⟨"commodity1", 3⟩, ⟨"commodity2", 2⟩] (by decide!)
      (by decide) (by norm_num)⟩

set_option maxRecDepth 100000 in
/-- C12, instance: the three calls of TestCreateTrade. -/
theorem CreateTrade_succeeds_iff_witness :
    preTradeLedger.GetState (GetTradeKey "trade1") = none ∧
    (CreateTrade ctx0 preTradeLedger "trade1" "user1" "user2" "commodity1" 5 100 "buy").err
      = none ∧
    CreateTrade ctx0 preTradeLedger "trade2" "user1" "user2" "commodity1" 20 100 "buy" =
      ⟨some "seller has insufficient inventory", preTradeLedger⟩ ∧
    CreateTrade ctx0 preTradeLedger "trade3" "user1" "user2" "commodity1" 5 2000 "buy" =
      ⟨some "buyer has insufficient balance", preTradeLedger⟩ :=
  ⟨by decide!,
    (CreateTrade_succeeds_iff ctx0 preTradeLedger "trade1" "user1" "user2" "commodity1" 5 100
      "buy" (by decide!)).1.mpr
      ⟨Or.inl rfl, ⟨⟨"user2", "commodity1", 10, ⟨1700000000, 5⟩⟩, by decide!, by decide⟩,
        ⟨⟨"user1", 1000, ⟨1700000000, 5⟩⟩, by decide!, by decide!⟩⟩,
    (CreateTrade_succeeds_iff ctx0 preTradeLedger "trade2" "user1" "user2" "commodity1" 20 100
      "buy" (by decide!)).2.1 (Or.inl rfl) ⟨"user2", "commodity1", 10, ⟨1700000000, 5⟩⟩
      (by decide!) (by decide),
    (CreateTrade_succeeds_iff ctx0 preTradeLedger "trade3" "user1" "user2" "commodity1" 5 2000
      "buy" (by decide!)).2.2.1 (Or.inl rfl) ⟨"user2", "commodity1", 10, ⟨1700000000, 5⟩⟩
      ⟨"user1", 1000, ⟨1700000000, 5⟩⟩ (by decide!) (by decide) (by decide!) (by decide!)⟩

set_option maxRecDepth 100000 in
/-- C13, instance: the trade TestCreateTrade creates. -/
theorem CreateTrade_stores_pending_witness :
    (CreateTrade ctx0 preTradeLedger "trade1" "user1" "user2" "commodity1" 5 100 "buy").err
      = none ∧
    GetTradeStatus ctx0
      (CreateTrade ctx0 preTradeLedger "trade1" "user1" "user2" "commodity1" 5 100 "buy").stub
      "trade1" =
      .ok ⟨"trade1", "user1", "user2", "commodity1", 5, 100, "buy", "pending",
        GetTxTimestamp ctx0, zeroTime⟩ :=
  ⟨by decide!,
    (CreateTrade_stores_pending ctx0 preTradeLedger "trade1" "user1" "user2" "commodity1" 5
      100 "buy" (by decide!)).1 ctx0⟩

set_option maxRecDepth 100000 in
/-- C14, instance: the trade of TestExecuteTrade. -/
theorem ExecuteTrade_marks_successful_witness :
    (ExecuteTrade ctx0 tradeLedger "trade1").err = none ∧
    ∃ trade, GetTradeStatus ctx0 tradeLedger "trade1" = .ok trade ∧
      (∀ ctx', GetTradeStatus ctx' (ExecuteTrade ctx0 tradeLedger "trade1").stub "trade1" =
        .ok { trade with Status := "successful", CompletedAt := GetTxTimestamp ctx0 }) ∧
      (ExecuteTrade ctx0 tradeLedger "trade1").stub.Events =
        tradeLedger.Events ++ [⟨"TradeExecuted", .tradeExecuted trade.TradeID trade.FromUserID
          trade.ToUserID trade.CommodityID trade.Quantity trade.Price
          (GetTxTimestamp ctx0)⟩] :=
  ⟨by decide!, ExecuteTrade_marks_successful ctx0 tradeLedger "trade1" (by decide!)⟩

set_option maxRecDepth 100000 in
/-- C15, instance: TestUpdateBalance, 1000 plus 500 and minus 300, and 2000 too much. -/
theorem UpdateBalance_spec_witness :
    GetUserAssets ctx0 oneUserLedger "user1" = .ok ⟨"user1", 1000, ⟨1700000000, 5⟩⟩ ∧
    ((UpdateBalance ctx0 oneUserLedger "user1" 500 "add").err = none ∧
      ∀ ctx', GetUserAssets ctx' (UpdateBalance ctx0 oneUserLedger "user1" 500 "add").stub
        "user1" = .ok ⟨"user1", 1000 + 500, GetTxTimestamp ctx0⟩) ∧
    UpdateBalance ctx0 oneUserLedger "user1" 2000 "subtract" =
      ⟨some ("insufficient balance for user " ++ "user1"), oneUserLedger⟩ ∧
    (UpdateBalance ctx0 oneUserLedger "user1" 300 "subtract").err = none :=
  ⟨by decide!,
    ((UpdateBalance_spec ctx0 oneUserLedger "user1" 500).1 ⟨"user1", 1000, ⟨1700000000, 5⟩⟩
      (by decide!)).1,
    ((UpdateBalance_spec ctx0 oneUserLedger "user1" 2000).1 ⟨"user1", 1000, ⟨1700000000, 5⟩⟩
      (by decide!)).2.2.1 (by decide!),
    (((UpdateBalance_spec ctx0 oneUserLedger "user1" 300).1 ⟨"user1", 1000, ⟨1700000000, 5⟩⟩
      (by decide!)).2.2.2 (by decide!)).1⟩

set_option maxRecDepth 100000 in
/-- C16, instance: on the empty ledger, where the user has no account and no
record, adding 10 units succeeds and leaves 10. -/
theorem UpdateInventory_spec_witness :
    GetInventory ctx0 emptyStub "user1" "commodity1" =
      .ok ⟨"user1", "commodity1", 0, GetTxTimestamp ctx0⟩ ∧
    (UpdateInventory ctx0 emptyStub "user1" "commodity1" 10 "add").err = none ∧
    (∀ ctx', quantityOf ctx' (UpdateInventory ctx0 emptyStub "user1" "commodity1" 10
      "add").stub "user1" "commodity1" = some (0 + 10)) :=
  ⟨by decide!,
    (UpdateInventory_spec ctx0 emptyStub "user1" "commodity1" 10
      ⟨"user1", "commodity1", 0, GetTxTimestamp ctx0⟩ (by decide!)).2.1,
    (UpdateInventory_spec ctx0 emptyStub "user1" "commodity1" 10
      ⟨"user1", "commodity1", 0, GetTxTimestamp ctx0⟩ (by decide!)).2.2.2.1 (by decide)⟩

set_option maxRecDepth 100000 in
/-- C16 as stated fails: with 9223372036854775807 units stored, adding 1 unit
succeeds and a following GetInventory returns -9223372036854775808, not the sum. -/
theorem UpdateInventory_spec_counterexample :
    quantityOf ctx0 fullInventoryLedger "user1" "commodity1" = some 9223372036854775807 ∧
    (UpdateInventory ctx0 fullInventoryLedger "user1" "commodity1" 1 "add").err = none ∧
    GetInventory ctx0 (UpdateInventory ctx0 fullInventoryLedger "user1" "commodity1" 1
      "add").stub "user1" "commodity1" =
      .ok ⟨"user1", "commodity1", -9223372036854775808, GetTxTimestamp ctx0⟩ ∧
    (-9223372036854775808 : Int) ≠ 9223372036854775807 + 1 := by
  decide!

set_option maxRecDepth 100000 in
/-- C17, instance: an unknown operation on an existing account and on an
inventory is answered with the invalid-operation error and leaves the ledger as
it was. -/
theorem update_failures_witness :
    UpdateBalance ctx0 oneUserLedger "user1" 10 "multiply" =
      ⟨some ("invalid operation: " ++ "multiply"), oneUserLedger⟩ ∧
    UpdateInventory ctx0 oneUserLedger "user1" "commodity1" 10 "multiply" =
      ⟨some ("invalid operation: " ++ "multiply"), oneUserLedger⟩ :=
  ⟨((update_failures ctx0 oneUserLedger "user1" "commodity1" 10 10 "multiply").1 (by decide)
      (by decide)).1 ⟨"user1", 1000, ⟨1700000000, 5⟩⟩ (by decide!),
    ((update_failures ctx0 oneUserLedger "user1" "commodity1" 10 10 "multiply").1 (by decide)
      (by decide)).2 ⟨"user1", "commodity1", 0, GetTxTimestamp ctx0⟩ (by decide!)⟩

set_option maxRecDepth 100000 in
/-- C17 as stated fails: UpdateBalance with the operation 'multiply' for a user
without an account fails with the not-found error, not with the
invalid-operation error. -/
theorem update_failures_counterexample :
    UpdateBalance ctx0 emptyStub "user1" 10 "multiply" =
      ⟨some "user asset not found for user user1", emptyStub⟩ ∧
    (UpdateBalance ctx0 emptyStub "user1" 10 "multiply").err ≠
      some "invalid operation: multiply" := by
  decide!

set_option maxRecDepth 100000 in
/-- C18, instance: on the empty ledger. -/
theorem GetInventory_absent_witness :
    emptyStub.GetState (GetInventoryKey "user1" "commodity1") = none ∧
    GetInventory ctx0 emptyStub "user1" "commodity1" =
      .ok ⟨"user1", "commodity1", 0, GetTxTimestamp ctx0⟩ ∧
    invoke sampleCodec ctx0 emptyStub (.getInventory "user1" "commodity1") = ⟨none, emptyStub⟩ :=
  ⟨by decide!, GetInventory_absent sampleCodec ctx0 emptyStub "user1" "commodity1" (by decide!)⟩

set_option maxRecDepth 100000 in
/-- C20, instance: TestGetUserAssets. -/
theorem InitUser_fresh_witness :
    emptyStub.GetState (GetUserAssetKey "user1") = none ∧
    GetUserAssets ctx0 emptyStub "user1" = .error ("user asset not found for user " ++ "user1") ∧
    (InitUser ctx0 emptyStub "user1" 1500).err = none ∧
    (∀ ctx', GetUserAssets ctx' (InitUser ctx0 emptyStub "user1" 1500).stub "user1" =
      .ok ⟨"user1", 1500, GetTxTimestamp ctx0⟩) ∧
    (∀ key, key ≠ GetUserAssetKey "user1" →
      (InitUser ctx0 emptyStub "user1" 1500).stub.GetState key = emptyStub.GetState key) ∧
    (InitUser ctx0 emptyStub "user1" 1500).stub.Events = emptyStub.Events :=
  ⟨by decide!, InitUser_fresh ctx0 emptyStub "user1" 1500 (by decide!)⟩

set_option maxRecDepth 100000 in
/-- C19, evaluated at the failing input: with inventory stored for the users "a_b"
and "a", GetAllInventory of "a" returns the record of "a_b" (its key
"inventory_a_b_c" lies in the range scanned for "a") and leaves out the record of
"a" for the commodity "😀", which is stored with quantity 7 (its key lies beyond
the end of the range). -/
theorem GetAllInventory_other_user :
    GetInventory ctx0 underscoreLedger "a" "😀" = .ok ⟨"a", "😀", 7, ⟨1700000000, 5⟩⟩ ∧
    GetInventory ctx0 underscoreLedger "a_b" "c" = .ok ⟨"a_b", "c", 5, ⟨1700000000, 5⟩⟩ ∧
    GetAllInventory ctx0 underscoreLedger "a" =
      .ok [⟨"a_b", "c", 5, ⟨1700000000, 5⟩⟩, ⟨"a", "x", 3, ⟨1700000000, 5⟩⟩] := by
  decide!

/-! ## Redemption rules: validation and creation -/

/-- C21: CreateRedemptionRule validates its arguments before it looks for an
existing rule, so for every stub (with or without a rule of the user) and every
userId: when the required-items text parses to the empty list the call returns
'required items cannot be empty'; when it parses to a non-empty list and
rewardAmount <= 0 the call returns 'reward amount must be positive'; in both
cases, and whenever rewardAmount <= 0 at all, the call fails and the stub is the
one it was given. -/
theorem CreateRedemptionRule_invalid (codec : Codec) (ctx : Ctx) (s : Stub) (u text : String)
    (reward : ℚ) :
    (codec.unmarshalRequiredItems text = .ok [] →
      CreateRedemptionRule codec ctx s u text reward =
        ⟨some "required items cannot be empty", s⟩) ∧
    (∀ items, codec.unmarshalRequiredItems text = .ok items → items ≠ [] → reward ≤ 0 →
      CreateRedemptionRule codec ctx s u text reward =
        ⟨some "reward amount must be positive", s⟩) ∧
    (reward ≤ 0 → (CreateRedemptionRule codec ctx s u text reward).err ≠ none ∧
      (CreateRedemptionRule codec ctx s u text reward).stub = s) := by
  refine ⟨?_, ?_, ?_⟩
  · intro h
    simp [CreateRedemptionRule, h]
  · intro items h hne hle
    have hlen : items.length ≠ 0 := fun h0 => hne (List.length_eq_zero.mp h0)
    simp [CreateRedemptionRule, h, hlen, hle]
  · intro hle
    cases h : codec.unmarshalRequiredItems text with
    | error e => simp [CreateRedemptionRule, h]
    | ok items =>
      by_cases hlen : items.length = 0
      · simp [CreateRedemptionRule, h, hlen]
      · simp [CreateRedemptionRule, h, hlen, hle]

set_option maxRecDepth 100000 in
/-- C21, instances: an empty list and a non-positive reward, for a user who has a
rule already and for one who has none (the last is the call of
TestCreateRedemptionRule with reward 0 in place of -100). -/
theorem CreateRedemptionRule_invalid_witness :
    GetRedemptionRule ctx0 redemptionLedger "user1" = .ok rule1 ∧
    CreateRedemptionRule catalogCodec ctx0 redemptionLedger "user1" "[]" 500 =
      ⟨some "required items cannot be empty", redemptionLedger⟩ ∧
    CreateRedemptionRule catalogCodec ctx0 redemptionLedger "user1" "[]" (-100) =
      ⟨some "required items cannot be empty", redemptionLedger⟩ ∧
    CreateRedemptionRule catalogCodec ctx0 redemptionLedger "user1" itemsText (-100) =
      ⟨some "reward amount must be positive", redemptionLedger⟩ ∧
    CreateRedemptionRule catalogCodec ctx0 redemptionLedger "user2" itemsText 0 =
      ⟨some "reward amount must be positive", redemptionLedger⟩ :=
  ⟨by decide!,
   (CreateRedemptionRule_invalid catalogCodec ctx0 redemptionLedger "user1" "[]" 500).1
     (by decide),
   (CreateRedemptionRule_invalid catalogCodec ctx0 redemptionLedger "user1" "[]" (-100)).1
     (by decide),
   (CreateRedemptionRule_invalid catalogCodec ctx0 redemptionLedger "user1" itemsText (-100)).2.1
     [⟨"commodity1", 3⟩, ⟨"commodity2", 2⟩] (by decide) (by decide) (by decide!),
   (CreateRedemptionRule_invalid catalogCodec ctx0 redemptionLedger "user2" itemsText 0).2.1
     [⟨"commodity1", 3⟩, ⟨"commodity2", 2⟩] (by decide) (by decide) (by decide!)⟩

/-- C22: when no rule is stored for userId (GetRedemptionRule fails with the
not-found error), the text parses to a non-empty list of required items and
rewardAmount > 0, CreateRedemptionRule succeeds, writes exactly the rule record,
and GetRedemptionRule then returns the rule with that userId, ruleId 'rule_'
followed by userId, the same rewardAmount and the same required items in the same
order, stamped with the transaction time of the creation. -/
theorem CreateRedemptionRule_creates (codec : Codec) (ctx : Ctx) (s : Stub) (u text : String)
    (reward : ℚ) (items : List RequiredItem)
    (hnone : s.GetState (GetRedemptionRuleKey u) = none)
    (hparse : codec.unmarshalRequiredItems text = .ok items) (hne : items ≠ [])
    (hpos : 0 < reward) :
    GetRedemptionRule ctx s u = .error ("redemption rule not found for user " ++ u) ∧
    (CreateRedemptionRule codec ctx s u text reward).err = none ∧
    (CreateRedemptionRule codec ctx s u text reward).stub =
      s.PutState (GetRedemptionRuleKey u)
        (.redemptionRule ⟨"rule_" ++ u, u, items, reward, GetTxTimestamp ctx⟩) ∧
    ∀ ctx', GetRedemptionRule ctx' (CreateRedemptionRule codec ctx s u text reward).stub u =
      .ok ⟨"rule_" ++ u, u, items, reward, GetTxTimestamp ctx⟩ := by
  have hg : GetRedemptionRule ctx s u = .error ("redemption rule not found for user " ++ u) := by
    unfold GetRedemptionRule
    rw [hnone]
  have hlen : items.length ≠ 0 := fun h0 => hne (List.length_eq_zero.mp h0)
  have hle : ¬ reward ≤ 0 := not_le.mpr hpos
  have hE : CreateRedemptionRule codec ctx s u text reward =
      ⟨none, s.PutState (GetRedemptionRuleKey u)
        (.redemptionRule ⟨"rule_" ++ u, u, items, reward, GetTxTimestamp ctx⟩)⟩ := by
    simp [CreateRedemptionRule, hparse, hlen, hle, hg]
  refine ⟨hg, ?_, ?_, ?_⟩
  · rw [hE]
  · rw [hE]
  · intro ctx'
    rw [hE]
    unfold GetRedemptionRule
    simp only []
    rw [GetState_PutState_self]

set_option maxRecDepth 100000 in
/-- C22, instance: the successful creation of TestCreateRedemptionRule. -/
theorem CreateRedemptionRule_creates_witness :
    GetRedemptionRule ctx0 oneUserLedger "user1" =
      .error "redemption rule not found for user user1" ∧
    (CreateRedemptionRule sampleCodec ctx0 oneUserLedger "user1" itemsText 500).err = none ∧
    GetRedemptionRule ctx1 (CreateRedemptionRule sampleCodec ctx0 oneUserLedger "user1" itemsText
      500).stub "user1" = .ok rule1 :=
  have h := CreateRedemptionRule_creates sampleCodec ctx0 oneUserLedger "user1" itemsText 500
    [⟨"commodity1", 3⟩, ⟨"commodity2", 2⟩] (by decide!) (by decide) (by decide) (by decide!)
  ⟨h.1, h.2.1, h.2.2.2 ctx1⟩

/-! ## Redemption: the first missing item, and the record -/

/-- The first loop of ExecuteRedemption passes over the items the user holds enough
of and stops at the first one the user holds too little of. -/
theorem verifyItems_first {ctx : Ctx} {s : Stub} {u : String} {item : RequiredItem}
    {i : Inventory} (post : List RequiredItem)
    (hi : GetInventory ctx s u item.CommodityID = .ok i) (hlt : i.Quantity < item.Quantity) :
    ∀ pre : List RequiredItem,
      (∀ p ∈ pre, ∃ j, GetInventory ctx s u p.CommodityID = .ok j ∧ p.Quantity ≤ j.Quantity) →
      verifyItems ctx s u (pre ++ item :: post) = some (insufficientMessage item i) := by
  intro pre
  induction pre with
  | nil =>
    intro _
    simp [verifyItems, hi, hlt, insufficientMessage]
  | cons hd rest ih =>
    intro hpre
    obtain ⟨j, hj, hge⟩ := hpre hd (List.mem_cons_self _ _)
    have hrest := ih (fun p hp => hpre p (List.mem_cons_of_mem _ hp))
    have hnlt : ¬ j.Quantity < hd.Quantity := not_lt.mpr hge
    simp [verifyItems, hj, hnlt, hrest]

/-- C23: when the user's rule lists, after items the user holds enough of, an
item of which the quantity read is below the required quantity, ExecuteRedemption
returns the insufficient-inventory error naming the commodity of that first such
item, its required quantity and the quantity read, and leaves the stub as given. -/
theorem ExecuteRedemption_first_insufficient (ctx : Ctx) (s : Stub) (u r : String)
    (rule : RedemptionRule) (pre post : List RequiredItem) (item : RequiredItem) (i : Inventory)
    (hR : GetRedemptionRule ctx s u = .ok rule)
    (hsplit : rule.RequiredItems = pre ++ item :: post)
    (hpre : ∀ p ∈ pre, ∃ j, GetInventory ctx s u p.CommodityID = .ok j ∧ p.Quantity ≤ j.Quantity)
    (hi : GetInventory ctx s u item.CommodityID = .ok i) (hlt : i.Quantity < item.Quantity) :
    ExecuteRedemption ctx s u r =
      ⟨some ("insufficient inventory for commodity " ++ item.CommodityID ++ " (required: "
        ++ toString item.Quantity ++ ", available: " ++ toString i.Quantity ++ ")"), s⟩ := by
  have hv := verifyItems_first post hi hlt pre hpre
  rw [← hsplit] at hv
  simp [ExecuteRedemption, hR, hv, insufficientMessage]

set_option maxRecDepth 100000 in
/-- C23, instances: both items short (the first is named), and only the second
item short (the second is named). -/
theorem ExecuteRedemption_first_insufficient_witness :
    ExecuteRedemption ctx0 poorLedger "user1" "record1" =
      ⟨some "insufficient inventory for commodity commodity1 (required: 3, available: 2)",
        poorLedger⟩ ∧
    ExecuteRedemption ctx0 secondShortLedger "user1" "record1" =
      ⟨some "insufficient inventory for commodity commodity2 (required: 2, available: 1)",
        secondShortLedger⟩ :=
  ⟨ExecuteRedemption_first_insufficient ctx0 poorLedger "user1" "record1" rule1 []
      [⟨"commodity2", 2⟩] ⟨"commodity1", 3⟩ ⟨"user1", "commodity1", 2, ⟨1700000000, 5⟩⟩
      (by decide!) (by decide) (fun p hp => by cases hp) (by decide!) (by decide),
   ExecuteRedemption_first_insufficient ctx0 secondShortLedger "user1" "record1" rule1
      [⟨"commodity1", 3⟩] [] ⟨"commodity2", 2⟩ ⟨"user1", "commodity2", 1, ⟨1700000000, 5⟩⟩
      (by decide!) (by decide)
      (fun p hp => by
        have hp2 : p = ⟨"commodity1", 3⟩ := by simpa using hp
        subst hp2
        exact ⟨⟨"user1", "commodity1", 5, ⟨1700000000, 5⟩⟩, by decide!, by decide⟩)
      (by decide!) (by decide)⟩

theorem deductItems_Events (ctx : Ctx) (u : String) :
    ∀ (items : List RequiredItem) (s : Stub), (deductItems ctx u items s).stub.Events = s.Events := by
  intro items
  induction items with
  | nil => intro s; rfl
  | cons hd rest ih =>
    intro s
    unfold deductItems
    simp only []
    split
    · exact UpdateInventory_Events ctx s u hd.CommodityID hd.Quantity "subtract"
    · rw [ih]
      exact UpdateInventory_Events ctx s u hd.CommodityID hd.Quantity "subtract"

/-- C24: when ExecuteRedemption succeeds, the user has a rule and the stub
afterwards holds under the key of recordId the record with that recordId and
userId, the rule's ruleId and rewardAmount, the rule's required items as consumed
items, and the transaction timestamp; and exactly one event was added, named
'RedemptionExecuted' and carrying recordId, userId, ruleId, rewardAmount and the
timestamp. -/
theorem ExecuteRedemption_records (ctx : Ctx) (s : Stub) (u r : String)
    (hok : (ExecuteRedemption ctx s u r).err = none) :
    ∃ rule, GetRedemptionRule ctx s u = .ok rule ∧
      (ExecuteRedemption ctx s u r).stub.GetState (GetRedemptionRecordKey r) =
        some (.redemptionRecord
          ⟨r, u, rule.RuleID, rule.RewardAmount, rule.RequiredItems, GetTxTimestamp ctx⟩) ∧
      (ExecuteRedemption ctx s u r).stub.Events = s.Events ++
        [⟨"RedemptionExecuted",
          .redemptionExecuted r u rule.RuleID rule.RewardAmount (GetTxTimestamp ctx)⟩] := by
  rcases ExecuteRedemption_stub_cases ctx s u r with ⟨he, -⟩ | ⟨rule, hR, -, hc⟩
  · exact absurd hok he
  refine ⟨rule, hR, ?_⟩
  rcases hc with ⟨he, -⟩ | ⟨he, -⟩ | ⟨-, -, -, hc⟩
  · exact absurd hok he
  · exact absurd hok he
  rw [hc]
  refine ⟨?_, ?_⟩
  · rw [GetState_SetEvent, GetState_PutState_self]
  · show (_ : Stub).Events ++ _ = _
    rw [Events_PutState, UpdateBalance_Events, deductItems_Events]

set_option maxRecDepth 100000 in
/-- C24, instance: the redemption of TestExecuteRedemption. -/
theorem ExecuteRedemption_records_witness :
    (ExecuteRedemption ctx1 redemptionLedger "user1" "record1").err = none ∧
    (ExecuteRedemption ctx1 redemptionLedger "user1" "record1").stub.GetState
        (GetRedemptionRecordKey "record1") =
      some (.redemptionRecord ⟨"record1", "user1", "rule_user1", 500,
        [⟨"commodity1", 3⟩, ⟨"commodity2", 2⟩], ⟨1700000060, 0⟩⟩) ∧
    (ExecuteRedemption ctx1 redemptionLedger "user1" "record1").stub.Events =
      [⟨"RedemptionExecuted",
        .redemptionExecuted "record1" "user1" "rule_user1" 500 ⟨1700000060, 0⟩⟩] := by
  have hok : (ExecuteRedemption ctx1 redemptionLedger "user1" "record1").err = none := by decide!
  obtain ⟨rule, hR, hrec, hev⟩ :=
    ExecuteRedemption_records ctx1 redemptionLedger "user1" "record1" hok
  have hrule : rule = rule1 := by
    have h1 : GetRedemptionRule ctx1 redemptionLedger "user1" = .ok rule1 := by decide!
    rw [h1] at hR
    cases hR
    rfl
  subst hrule
  exact ⟨hok, hrec, hev⟩

set_option maxRecDepth 100000 in
/-- C25, evaluated at the failing input: after user1 redeems under recordId
'record1', user2 redeems under the same recordId; the second call succeeds and the
record stored under 'record1' is now user2's, so user1's redemption history is
empty although user1 keeps the reward. -/
theorem ExecuteRedemption_overwrites_record :
    (ExecuteRedemption ctx0 twoRedeemersLedger "user1" "record1").err = none ∧
    (ExecuteRedemption ctx0 twoRedeemersLedger "user1" "record1").stub.GetState
        (GetRedemptionRecordKey "record1") =
      some (.redemptionRecord ⟨"record1", "user1", "rule_user1", 500,
        [⟨"commodity1", 3⟩, ⟨"commodity2", 2⟩], ⟨1700000000, 5⟩⟩) ∧
    (ExecuteRedemption ctx1 (ExecuteRedemption ctx0 twoRedeemersLedger "user1" "record1").stub
      "user2" "record1").err = none ∧
    (ExecuteRedemption ctx1 (ExecuteRedemption ctx0 twoRedeemersLedger "user1" "record1").stub
      "user2" "record1").stub.GetState (GetRedemptionRecordKey "record1") =
      some (.redemptionRecord ⟨"record1", "user2", "rule_user2", 700,
        [⟨"commodity1", 3⟩, ⟨"commodity2", 2⟩], ⟨1700000060, 0⟩⟩) ∧
    GetRedemptionHistory ctx1
      (ExecuteRedemption ctx0 twoRedeemersLedger "user1" "record1").stub "user1" =
      .ok [⟨"record1", "user1", "rule_user1", 500,
        [⟨"commodity1", 3⟩, ⟨"commodity2", 2⟩], ⟨1700000000, 5⟩⟩] ∧
    GetRedemptionHistory ctx1
      (ExecuteRedemption ctx1 (ExecuteRedemption ctx0 twoRedeemersLedger "user1" "record1").stub
        "user2" "record1").stub "user1" = .ok [] ∧
    balanceOf ctx1
      (ExecuteRedemption ctx1 (ExecuteRedemption ctx0 twoRedeemersLedger "user1" "record1").stub
        "user2" "record1").stub "user1" = some 1500 := by
  decide!

set_option maxRecDepth 100000 in
/-- C26, evaluated at the failing input: the commodities '1' and '😀' are both
created and both readable with GetCommodity, the key of '😀' is not below the end
key of the scan, and GetAllCommodities returns the commodity '1' only. -/
theorem GetAllCommodities_misses_commodity :
    (CreateCommodity sampleCodec ctx0
      (CreateCommodity sampleCodec ctx0 emptyStub "1" "Gold" "").stub "😀" "Smile" "").err = none ∧
    GetCommodity ctx0 smileyLedger "1" = .ok ⟨"1", "Gold", .nil, ⟨1700000000, 5⟩⟩ ∧
    GetCommodity ctx0 smileyLedger "😀" = .ok ⟨"😀", "Smile", .nil, ⟨1700000000, 5⟩⟩ ∧
    keyLt (GetCommodityKey "😀") (CommodityPrefix ++ "\uFFFF") = false ∧
    GetAllCommodities ctx0 smileyLedger = .ok [⟨"1", "Gold", .nil, ⟨1700000000, 5⟩⟩] := by
  decide!

set_option maxRecDepth 100000 in
/-- C28, evaluated at the failing input: after InitializeCommodities on the empty
ledger GetCommodity("1") succeeds and returns the commodity named "Gold". -/
theorem InitializeCommodities_first_name :
    (InitializeCommodities catalogCodec ctx0 emptyStub).err = none ∧
    GetCommodity ctx0 (InitializeCommodities catalogCodec ctx0 emptyStub).stub "1" =
      .ok ⟨"1", "Gold", .cons "imageUrl" (.string "/images/gold.png") .nil, ⟨1700000000, 5⟩⟩ ∧
    "Gold" ≠ "苹果" := by
  decide!

/-- C30: the key functions produce the documented layout for all identifiers. -/
theorem key_layout (u c t r : String) :
    GetUserAssetKey u = "user_asset_" ++ u ∧
    GetInventoryKey u c = "inventory_" ++ u ++ "_" ++ c ∧
    GetCommodityKey c = "commodity_" ++ c ∧
    GetTradeKey t = "trade_" ++ t ∧
    GetRedemptionRuleKey u = "redemption_rule_" ++ u ∧
    GetRedemptionRecordKey r = "redemption_record_" ++ r :=
  ⟨rfl, rfl, rfl, rfl, rfl, rfl⟩


/-! ## The default commodities -/

/-- What one CreateCommodity leaves: the stub it was given, or that stub with the
new commodity stored; and it leaves the given stub whenever the commodity is
stored already or the metadata text does not parse. -/
theorem CreateCommodity_stub_cases (codec : Codec) (ctx : Ctx) (s : Stub) (c n m : String) :
    ((CreateCommodity codec ctx s c n m).stub = s ∧
      ((∃ x, s.GetState (GetCommodityKey c) = some (.commodity x)) ∨
        ∃ e, (if m ≠ "" then codec.unmarshalMetadata m else .ok .nil) = .error e)) ∨
    ∃ metadata, (if m ≠ "" then codec.unmarshalMetadata m else .ok .nil) = .ok metadata ∧
      (CreateCommodity codec ctx s c n m).err = none ∧
      (CreateCommodity codec ctx s c n m).stub =
        s.PutState (GetCommodityKey c) (.commodity ⟨c, n, metadata, GetTxTimestamp ctx⟩) := by
  cases hg : GetCommodity ctx s c with
  | ok x =>
    left
    have hx := hg
    unfold GetCommodity at hx
    refine ⟨by simp [CreateCommodity, hg], Or.inl ?_⟩
    split at hx
    · cases hx
    · rename_i y hy
      exact ⟨y, hy⟩
    · cases hx
  | error e0 =>
    cases hp : (if m ≠ "" then codec.unmarshalMetadata m else .ok .nil) with
    | error e =>
      left
      refine ⟨?_, Or.inr ⟨e, rfl⟩⟩
      unfold CreateCommodity
      rw [hg]
      simp only []
      rw [hp]
    | ok metadata =>
      right
      refine ⟨metadata, rfl, ?_, ?_⟩
      · unfold CreateCommodity
        rw [hg]
        simp only []
        rw [hp]
      · unfold CreateCommodity
        rw [hg]
        simp only []
        rw [hp]

/-- CreateCommodity leaves the stub alone when the metadata text does not parse. -/
theorem CreateCommodity_unparsed (codec : Codec) (ctx : Ctx) (s : Stub) (c n m : String)
    {e : String} (h : (if m ≠ "" then codec.unmarshalMetadata m else .ok .nil) = .error e) :
    (CreateCommodity codec ctx s c n m).stub = s := by
  rcases CreateCommodity_stub_cases codec ctx s c n m with ⟨h0, -⟩ | ⟨metadata, hp, -, -⟩
  · exact h0
  · rw [h] at hp
    cases hp

/-- After the loop over a list of commodities, creating any of them again, in any
transaction, changes nothing. -/
theorem createAll_settled (codec : Codec) (ctx ctx' : Ctx) :
    ∀ (l : List (String × String × String)) (s : Stub), ∀ d ∈ l,
      (CreateCommodity codec ctx' (createAll codec ctx l s) d.1 d.2.1 d.2.2).stub =
        createAll codec ctx l s := by
  intro l
  induction l with
  | nil => intro s d hd; cases hd
  | cons hd rest ih =>
    intro s d hmem
    obtain ⟨id, name, metadata⟩ := hd
    rcases List.mem_cons.mp hmem with h | h
    · subst h
      show (CreateCommodity codec ctx' (createAll codec ctx rest
        (CreateCommodity codec ctx s id name metadata).stub) id name metadata).stub = _
      have hstored : ∀ x, (CreateCommodity codec ctx s id name metadata).stub.GetState
          (GetCommodityKey id) = some (.commodity x) →
          (CreateCommodity codec ctx' (createAll codec ctx rest
            (CreateCommodity codec ctx s id name metadata).stub) id name metadata).stub =
          createAll codec ctx ((id, name, metadata) :: rest) s := by
        intro x hx
        have hk := createAll_keeps codec ctx rest _ hx
        rw [CreateCommodity_exists hk]
        rfl
      rcases CreateCommodity_stub_cases codec ctx s id name metadata with
        ⟨h0, ⟨x, hx⟩ | ⟨e, he⟩⟩ | ⟨md, -, -, h1⟩
      · exact hstored x (by rw [h0]; exact hx)
      · rw [CreateCommodity_unparsed codec ctx' _ id name metadata he]
        rfl
      · exact hstored _ (by rw [h1]; exact GetState_PutState_self _ _ _)
    · exact ih _ d h

/-- A loop all of whose creations change nothing changes nothing. -/
theorem createAll_fixed (codec : Codec) (ctx : Ctx) (t : Stub) :
    ∀ l : List (String × String × String),
      (∀ d ∈ l, (CreateCommodity codec ctx t d.1 d.2.1 d.2.2).stub = t) →
      createAll codec ctx l t = t := by
  intro l
  induction l with
  | nil => intro _; rfl
  | cons hd rest ih =>
    intro h
    obtain ⟨id, name, metadata⟩ := hd
    unfold createAll
    rw [h (id, name, metadata) (List.mem_cons_self _ _)]
    exact ih (fun d hd => h d (List.mem_cons_of_mem _ hd))

/-- After the loop, every commodity of the list whose metadata text parses is stored. -/
theorem createAll_stores (codec : Codec) (ctx : Ctx) :
    ∀ (l : List (String × String × String)) (s : Stub), ∀ d ∈ l,
      (∃ metadata, codec.unmarshalMetadata d.2.2 = .ok metadata) →
      ∃ x, (createAll codec ctx l s).GetState (GetCommodityKey d.1) = some (.commodity x) := by
  intro l
  induction l with
  | nil => intro s d hd; cases hd
  | cons hd rest ih =>
    intro s d hmem hparse
    obtain ⟨id, name, metadata⟩ := hd
    rcases List.mem_cons.mp hmem with h | h
    · subst h
      obtain ⟨md, hmd⟩ := hparse
      show ∃ x, (createAll codec ctx rest
        (CreateCommodity codec ctx s id name metadata).stub).GetState _ = _
      rcases CreateCommodity_stub_cases codec ctx s id name metadata with
        ⟨h0, ⟨x, hx⟩ | ⟨e, he⟩⟩ | ⟨md2, -, -, h1⟩
      · exact ⟨x, createAll_keeps codec ctx rest _ (by rw [h0]; exact hx)⟩
      · exfalso
        simp only [] at hmd
        by_cases hm : metadata = ""
        · simp [hm] at he
        · simp [hm, hmd] at he
      · exact ⟨_, createAll_keeps codec ctx rest _ (by rw [h1]; exact GetState_PutState_self _ _ _)⟩
    · exact ih _ d h hparse

theorem GetCommodity_ok_iff {ctx : Ctx} {s : Stub} {c : String} {x : Commodity} :
    GetCommodity ctx s c = .ok x ↔ s.GetState (GetCommodityKey c) = some (.commodity x) := by
  unfold GetCommodity
  constructor
  · intro h
    split at h
    · cases h
    · rename_i y hy
      cases h
      exact hy
    · cases h
  · intro h
    rw [h]

/-- C27: for every stub InitializeCommodities returns no error; when the decoder
parses the metadata texts of the default commodities, the commodities with ids
'1' to '8' are all stored afterwards; a commodity that GetCommodity returned
before the call is returned unchanged after it; and running InitializeCommodities
again, in any transaction, returns no error and leaves the stub (state and
events) exactly as the first run left it. -/
theorem InitializeCommodities_idempotent (codec : Codec) (ctx : Ctx) (s : Stub) :
    (InitializeCommodities codec ctx s).err = none ∧
    ((∀ d ∈ defaultCommodities, ∃ metadata, codec.unmarshalMetadata d.2.2 = .ok metadata) →
      ∀ c ∈ ["1", "2", "3", "4", "5", "6", "7", "8"], ∀ ctx',
        ∃ x, GetCommodity ctx' (InitializeCommodities codec ctx s).stub c = .ok x) ∧
    (∀ ctx' c x, GetCommodity ctx' s c = .ok x →
      GetCommodity ctx' (InitializeCommodities codec ctx s).stub c = .ok x) ∧
    (∀ ctx', InitializeCommodities codec ctx' (InitializeCommodities codec ctx s).stub =
      ⟨none, (InitializeCommodities codec ctx s).stub⟩) := by
  have hstub : ∀ (ctx : Ctx) (s : Stub), (InitializeCommodities codec ctx s).stub =
      createAll codec ctx defaultCommodities s := by
    intro _ _
    simp only [InitializeCommodities]
  have hout : ∀ (ctx : Ctx) (s : Stub), InitializeCommodities codec ctx s =
      ⟨none, createAll codec ctx defaultCommodities s⟩ := by
    intro _ _
    simp only [InitializeCommodities]
  refine ⟨by simp only [InitializeCommodities], ?_, ?_, ?_⟩
  · intro hparse c hc ctx'
    have hids : defaultCommodities.map (fun d => d.1) =
        ["1", "2", "3", "4", "5", "6", "7", "8"] := rfl
    rw [← hids] at hc
    obtain ⟨d, hd, hdc⟩ := List.mem_map.mp hc
    subst hdc
    rw [hstub]
    generalize defaultCommodities = l at hd hparse ⊢
    obtain ⟨x, hx⟩ := createAll_stores codec ctx l s d hd (hparse d hd)
    exact ⟨x, GetCommodity_ok_iff.mpr hx⟩
  · intro ctx' c x h
    rw [hstub]
    generalize defaultCommodities = l
    exact GetCommodity_ok_iff.mpr (createAll_keeps codec ctx l s (GetCommodity_ok_iff.mp h))
  · intro ctx'
    rw [hstub, hout]
    generalize defaultCommodities = l
    rw [createAll_fixed codec ctx' _ l (createAll_settled codec ctx ctx' l s)]

set_option maxRecDepth 100000 in
/-- C27, instance: on a ledger that already holds a commodity '1' the call keeps
that record, creates the missing commodity '2', and a second run changes nothing. -/
theorem InitializeCommodities_idempotent_witness :
    GetCommodity ctx0 smileyLedger "1" = .ok ⟨"1", "Gold", .nil, ⟨1700000000, 5⟩⟩ ∧
    GetCommodity ctx0 smileyLedger "2" = .error "commodity not found: 2" ∧
    GetCommodity ctx0 (InitializeCommodities catalogCodec ctx1 smileyLedger).stub "1" =
      .ok ⟨"1", "Gold", .nil, ⟨1700000000, 5⟩⟩ ∧
    (∃ x, GetCommodity ctx0 (InitializeCommodities catalogCodec ctx1 smileyLedger).stub "2" =
      .ok x) ∧
    InitializeCommodities catalogCodec ctx0
        (InitializeCommodities catalogCodec ctx1 smileyLedger).stub =
      ⟨none, (InitializeCommodities catalogCodec ctx1 smileyLedger).stub⟩ :=
  have h := InitializeCommodities_idempotent catalogCodec ctx1 smileyLedger
  ⟨by decide!, by decide!, h.2.2.1 ctx0 "1" _ (by decide!),
    h.2.1 (fun d hd => by
      have hall : ∀ d ∈ defaultCommodities,
          (catalogCodec.unmarshalMetadata d.2.2).isOk = true := by decide!
      have hd2 := hall d hd
      cases hp : catalogCodec.unmarshalMetadata d.2.2 with
      | ok m => exact ⟨m, rfl⟩
      | error e =>
        rw [hp] at hd2
        cases hd2) "2" (by decide) ctx0,
    h.2.2.2 ctx0⟩

/-! ## Histories -/

/-- The loop of GetTradeHistory fails when a scanned value is not a trade record,
and otherwise keeps, in order, the trades that name the user. -/
theorem collectTrades_eq (u : String) :
    ∀ l : List (String × Entry),
      collectTrades u l =
        if ∀ kv ∈ l, (asTrade kv.2).isSome = true then .ok (tradeHistorySpec u l)
        else .error ("failed to unmarshal trade: " ++ unmarshalError) := by
  intro l
  induction l with
  | nil => simp [collectTrades, tradeHistorySpec]
  | cons hd rest ih =>
    obtain ⟨k, e⟩ := hd
    have hbad : (asTrade e).isSome = false →
        ¬ ∀ kv ∈ (k, e) :: rest, (asTrade kv.2).isSome = true := by
      intro he h
      have h2 := h (k, e) (List.mem_cons_self _ _)
      simp only [] at h2
      rw [he] at h2
      cases h2
    cases e with
    | trade t =>
      have hcons : (∀ kv ∈ (k, Entry.trade t) :: rest, (asTrade kv.2).isSome = true) ↔
          ∀ kv ∈ rest, (asTrade kv.2).isSome = true := by
        rw [List.forall_mem_cons]
        exact ⟨fun h => h.2, fun h => ⟨rfl, h⟩⟩
      have hspec : tradeHistorySpec u ((k, Entry.trade t) :: rest) =
          if t.FromUserID = u ∨ t.ToUserID = u then t :: tradeHistorySpec u rest else tradeHistorySpec u rest := by
        by_cases hu : t.FromUserID = u ∨ t.ToUserID = u
        · simp [tradeHistorySpec, asTrade, hu]
        · simp [tradeHistorySpec, asTrade, hu]
      unfold collectTrades
      rw [ih]
      by_cases hall : ∀ kv ∈ rest, (asTrade kv.2).isSome = true
      · rw [if_pos hall, if_pos (hcons.mpr hall), hspec]
        by_cases hu : t.FromUserID = u ∨ t.ToUserID = u
        · simp [hu]
        · simp [hu]
      · rw [if_neg hall, if_neg (mt hcons.mp hall)]
    | userAsset a =>
      rw [if_neg (hbad rfl)]
      simp [collectTrades]
    | inventory a =>
      rw [if_neg (hbad rfl)]
      simp [collectTrades]
    | commodity a =>
      rw [if_neg (hbad rfl)]
      simp [collectTrades]
    | redemptionRule a =>
      rw [if_neg (hbad rfl)]
      simp [collectTrades]
    | redemptionRecord a =>
      rw [if_neg (hbad rfl)]
      simp [collectTrades]

/-- The loop of GetRedemptionHistory fails when a scanned value is not a
redemption record, and otherwise keeps, in order, the records of the user. -/
theorem collectRecords_eq (u : String) :
    ∀ l : List (String × Entry),
      collectRecords u l =
        if ∀ kv ∈ l, (asRecord kv.2).isSome = true then .ok (redemptionHistorySpec u l)
        else .error ("failed to unmarshal redemption record: " ++ unmarshalError) := by
  intro l
  induction l with
  | nil => simp [collectRecords, redemptionHistorySpec]
  | cons hd rest ih =>
    obtain ⟨k, e⟩ := hd
    have hbad : (asRecord e).isSome = false →
        ¬ ∀ kv ∈ (k, e) :: rest, (asRecord kv.2).isSome = true := by
      intro he h
      have h2 := h (k, e) (List.mem_cons_self _ _)
      simp only [] at h2
      rw [he] at h2
      cases h2
    cases e with
    | redemptionRecord t =>
      have hcons : (∀ kv ∈ (k, Entry.redemptionRecord t) :: rest, (asRecord kv.2).isSome = true) ↔
          ∀ kv ∈ rest, (asRecord kv.2).isSome = true := by
        rw [List.forall_mem_cons]
        exact ⟨fun h => h.2, fun h => ⟨rfl, h⟩⟩
      have hspec : redemptionHistorySpec u ((k, Entry.redemptionRecord t) :: rest) =
          if t.UserID = u then t :: redemptionHistorySpec u rest else redemptionHistorySpec u rest := by
        by_cases hu : t.UserID = u
        · simp [redemptionHistorySpec, asRecord, hu]
        · simp [redemptionHistorySpec, asRecord, hu]
      unfold collectRecords
      rw [ih]
      by_cases hall : ∀ kv ∈ rest, (asRecord kv.2).isSome = true
      · rw [if_pos hall, if_pos (hcons.mpr hall), hspec]
        by_cases hu : t.UserID = u
        · simp [hu]
        · simp [hu]
      · rw [if_neg hall, if_neg (mt hcons.mp hall)]
    | userAsset a =>
      rw [if_neg (hbad rfl)]
      simp [collectRecords]
    | inventory a =>
      rw [if_neg (hbad rfl)]
      simp [collectRecords]
    | commodity a =>
      rw [if_neg (hbad rfl)]
      simp [collectRecords]
    | trade a =>
      rw [if_neg (hbad rfl)]
      simp [collectRecords]
    | redemptionRule a =>
      rw [if_neg (hbad rfl)]
      simp [collectRecords]

/-- C29: for every stub and userId, GetTradeHistory returns, in scan order, the
scanned trade records whose fromUserId or toUserId is userId, and
GetRedemptionHistory returns, in scan order, the scanned redemption records whose
userId is userId (each fails with the decoding error exactly when a scanned value
is not a record of its type); as transactions, both leave the stub unchanged. -/
theorem histories_filter_the_scan (codec : Codec) (ctx : Ctx) (s : Stub) (u : String) :
    GetTradeHistory ctx s u =
      (if ∀ kv ∈ s.GetStateByRange TradePrefix (TradePrefix ++ "\uFFFF"),
          (asTrade kv.2).isSome = true
        then .ok (tradeHistorySpec u (s.GetStateByRange TradePrefix (TradePrefix ++ "\uFFFF")))
        else .error ("failed to unmarshal trade: " ++ unmarshalError)) ∧
    GetRedemptionHistory ctx s u =
      (if ∀ kv ∈ s.GetStateByRange RedemptionRecordPrefix (RedemptionRecordPrefix ++ "\uFFFF"),
          (asRecord kv.2).isSome = true
        then .ok (redemptionHistorySpec u
          (s.GetStateByRange RedemptionRecordPrefix (RedemptionRecordPrefix ++ "\uFFFF")))
        else .error ("failed to unmarshal redemption record: " ++ unmarshalError)) ∧
    (invoke codec ctx s (.getTradeHistory u)).stub = s ∧
    (invoke codec ctx s (.getRedemptionHistory u)).stub = s := by
  refine ⟨collectTrades_eq u _, collectRecords_eq u _, ?_, ?_⟩
  · exact queryOutcome_stub s _
  · exact queryOutcome_stub s _

set_option maxRecDepth 100000 in
/-- C29, instance: two trades and two redemption records created in the reverse of
the key order. -/
theorem histories_filter_the_scan_witness :
    GetTradeHistory ctx0 historyLedger "user2" =
      .ok [⟨"trade1", "user1", "user2", "commodity1", 5, 100, "buy", "pending",
              ⟨1700000000, 5⟩, zeroTime⟩,
           ⟨"trade2", "user3", "user2", "commodity1", 1, 10, "buy", "pending",
              ⟨1700000000, 5⟩, zeroTime⟩] ∧
    GetTradeHistory ctx0 historyLedger "user3" =
      .ok [⟨"trade2", "user3", "user2", "commodity1", 1, 10, "buy", "pending",
              ⟨1700000000, 5⟩, zeroTime⟩] ∧
    GetRedemptionHistory ctx0 historyLedger "user1" =
      .ok [⟨"record1", "user1", "rule_user1", 500, [⟨"commodity1", 3⟩, ⟨"commodity2", 2⟩],
              ⟨1700000060, 0⟩⟩] ∧
    GetRedemptionHistory ctx0 historyLedger "user2" = .ok [] :=
  ⟨(histories_filter_the_scan sampleCodec ctx0 historyLedger "user2").1.trans (by decide!),
   (histories_filter_the_scan sampleCodec ctx0 historyLedger "user3").1.trans (by decide!),
   (histories_filter_the_scan sampleCodec ctx0 historyLedger "user1").2.1.trans (by decide!),
   (histories_filter_the_scan sampleCodec ctx0 historyLedger "user2").2.1.trans (by decide!)⟩

/-- C30, instance: the keys of the identifiers the tests use. -/
theorem key_layout_witness :
    GetUserAssetKey "user1" = "user_asset_user1" ∧
    GetInventoryKey "user1" "commodity1" = "inventory_user1_commodity1" ∧
    GetCommodityKey "commodity1" = "commodity_commodity1" ∧
    GetTradeKey "trade1" = "trade_trade1" ∧
    GetRedemptionRuleKey "user1" = "redemption_rule_user1" ∧
    GetRedemptionRecordKey "record1" = "redemption_record_record1" :=
  key_layout "user1" "commodity1" "trade1" "record1"

/-! ## Keys: collisions and their absence -/

set_option maxRecDepth 100000 in
/-- C32, evaluated at the failing input: the pairs ("a_b", "c") and ("a", "b_c")
have the same inventory key, so after UpdateInventory("a_b", "c", 5, "add") on the
empty ledger GetInventory("a", "b_c") returns the record of user "a_b" with
quantity 5, where it returned quantity 0 before. -/
theorem GetInventoryKey_collision :
    GetInventoryKey "a_b" "c" = GetInventoryKey "a" "b_c" ∧
    GetInventory ctx0 emptyStub "a" "b_c" = .ok ⟨"a", "b_c", 0, ⟨1700000000, 5⟩⟩ ∧
    (UpdateInventory ctx0 emptyStub "a_b" "c" 5 "add").err = none ∧
    GetInventory ctx0 (UpdateInventory ctx0 emptyStub "a_b" "c" 5 "add").stub "a" "b_c" =
      .ok ⟨"a_b", "c", 5, ⟨1700000000, 5⟩⟩ ∧
    quantityOf ctx0 (UpdateInventory ctx0 emptyStub "a_b" "c" 5 "add").stub "a" "b_c" = some 5 := by
  decide!

/-- C33: a key built by one of the six key functions is never equal to a key built
by another of them, and each of the five single-argument key functions maps
different identifiers to different keys. -/
theorem keys_disjoint_and_injective :
    (∀ u v c, GetUserAssetKey u ≠ GetInventoryKey v c) ∧
    (∀ u c, GetUserAssetKey u ≠ GetCommodityKey c) ∧
    (∀ u t, GetUserAssetKey u ≠ GetTradeKey t) ∧
    (∀ u v, GetUserAssetKey u ≠ GetRedemptionRuleKey v) ∧
    (∀ u r, GetUserAssetKey u ≠ GetRedemptionRecordKey r) ∧
    (∀ u c d, GetInventoryKey u c ≠ GetCommodityKey d) ∧
    (∀ u c t, GetInventoryKey u c ≠ GetTradeKey t) ∧
    (∀ u c v, GetInventoryKey u c ≠ GetRedemptionRuleKey v) ∧
    (∀ u c r, GetInventoryKey u c ≠ GetRedemptionRecordKey r) ∧
    (∀ c t, GetCommodityKey c ≠ GetTradeKey t) ∧
    (∀ c u, GetCommodityKey c ≠ GetRedemptionRuleKey u) ∧
    (∀ c r, GetCommodityKey c ≠ GetRedemptionRecordKey r) ∧
    (∀ t u, GetTradeKey t ≠ GetRedemptionRuleKey u) ∧
    (∀ t r, GetTradeKey t ≠ GetRedemptionRecordKey r) ∧
    (∀ u r, GetRedemptionRuleKey u ≠ GetRedemptionRecordKey r) ∧
    (∀ u v, GetUserAssetKey u = GetUserAssetKey v → u = v) ∧
    (∀ c d, GetCommodityKey c = GetCommodityKey d → c = d) ∧
    (∀ t r, GetTradeKey t = GetTradeKey r → t = r) ∧
    (∀ u v, GetRedemptionRuleKey u = GetRedemptionRuleKey v → u = v) ∧
    (∀ r t, GetRedemptionRecordKey r = GetRedemptionRecordKey t → r = t) :=
  ⟨fun u v c => userAssetKey_ne_inventoryKey u v c,
   fun u c => userAssetKey_ne_commodityKey u c,
   fun u t => userAssetKey_ne_tradeKey u t,
   fun u v => userAssetKey_ne_ruleKey u v,
   fun u r => userAssetKey_ne_recordKey u r,
   fun u c d => inventoryKey_ne_commodityKey u c d,
   fun u c t => inventoryKey_ne_tradeKey u c t,
   fun u c v => inventoryKey_ne_ruleKey u c v,
   fun u c r => inventoryKey_ne_recordKey u c r,
   fun c t => commodityKey_ne_tradeKey c t,
   fun c u => commodityKey_ne_ruleKey c u,
   fun c r => commodityKey_ne_recordKey c r,
   fun t u => tradeKey_ne_ruleKey t u,
   fun t r => tradeKey_ne_recordKey t r,
   fun u r => ruleKey_ne_recordKey u r,
   fun _ _ h => GetUserAssetKey_inj h,
   fun _ _ h => GetCommodityKey_inj h,
   fun _ _ h => GetTradeKey_inj h,
   fun _ _ h => GetRedemptionRuleKey_inj h,
   fun _ _ h => GetRedemptionRecordKey_inj h⟩

/-- C33, instances: identifiers chosen so that the keys share a long prefix. -/
theorem keys_disjoint_and_injective_witness :
    GetCommodityKey "rule_1" ≠ GetRedemptionRuleKey "1" ∧
    GetRedemptionRuleKey "ecord_1" ≠ GetRedemptionRecordKey "1" ∧
    GetUserAssetKey "a_b" ≠ GetUserAssetKey "a" :=
  ⟨keys_disjoint_and_injective.2.2.2.2.2.2.2.2.2.2.1 "rule_1" "1",
   keys_disjoint_and_injective.2.2.2.2.2.2.2.2.2.2.2.2.2.2.1 "ecord_1" "1",
   fun h => absurd (keys_disjoint_and_injective.2.2.2.2.2.2.2.2.2.2.2.2.2.2.2.1 "a_b" "a" h)
     (by decide)⟩

/-! ## The checks before the ledger updates do not cover every failure -/

set_option maxRecDepth 100000 in
/-- C35, evaluated at the failing input: the trade is pending, the seller holds 10
units for a trade of 5 and the buyer has an account with 1000 for a price of 100,
yet ExecuteTrade fails, in the fourth ledger update, because the seller has no
account; the stub it leaves differs from the one it was given. -/
theorem ExecuteTrade_revalidation_insufficient :
    GetTradeStatus ctx0 sellerlessLedger "trade1" = .ok trade1 ∧
    trade1.Status = "pending" ∧ sellerOf trade1 = "user2" ∧ buyerOf trade1 = "user1" ∧
    GetInventory ctx0 sellerlessLedger "user2" "commodity1" =
      .ok ⟨"user2", "commodity1", 10, ⟨1700000000, 5⟩⟩ ∧
    (10 : Int) ≥ trade1.Quantity ∧
    GetUserAssets ctx0 sellerlessLedger "user1" = .ok ⟨"user1", 1000, ⟨1700000000, 5⟩⟩ ∧
    (1000 : ℚ) ≥ trade1.Price ∧
    GetUserAssets ctx0 sellerlessLedger "user2" = .error "user asset not found for user user2" ∧
    (ExecuteTrade ctx0 sellerlessLedger "trade1").err =
      some "failed to update seller balance: user asset not found for user user2" ∧
    (ExecuteTrade ctx0 sellerlessLedger "trade1").stub ≠ sellerlessLedger := by
  decide!

set_option maxRecDepth 100000 in
/-- C36, evaluated at the failing inputs: the user has a rule and holds every
required quantity, so the verification loop passes, yet ExecuteRedemption fails
after it has deducted items: for a user without an account in the reward credit,
and for a rule that lists the same commodity twice in the second deduction. -/
theorem ExecuteRedemption_precheck_insufficient :
    (GetRedemptionRule ctx0 accountlessLedger "user1" = .ok rule1 ∧
      quantityOf ctx0 accountlessLedger "user1" "commodity1" = some 5 ∧
      quantityOf ctx0 accountlessLedger "user1" "commodity2" = some 3 ∧
      verifyItems ctx0 accountlessLedger "user1" rule1.RequiredItems = none ∧
      (ExecuteRedemption ctx0 accountlessLedger "user1" "record1").err =
        some "failed to add reward balance: user asset not found for user user1" ∧
      quantityOf ctx0 (ExecuteRedemption ctx0 accountlessLedger "user1" "record1").stub
        "user1" "commodity1" = some 2 ∧
      quantityOf ctx0 (ExecuteRedemption ctx0 accountlessLedger "user1" "record1").stub
        "user1" "commodity2" = some 1) ∧
    (GetRedemptionRule ctx0 duplicateRuleLedger "user1" =
        .ok ⟨"rule_user1", "user1", [⟨"commodity1", 3⟩, ⟨"commodity1", 3⟩], 500,
          ⟨1700000000, 5⟩⟩ ∧
      quantityOf ctx0 duplicateRuleLedger "user1" "commodity1" = some 5 ∧
      verifyItems ctx0 duplicateRuleLedger "user1" [⟨"commodity1", 3⟩, ⟨"commodity1", 3⟩] = none ∧
      (ExecuteRedemption ctx0 duplicateRuleLedger "user1" "record1").err =
        some ("failed to deduct inventory for commodity commodity1: " ++
          "insufficient inventory for user user1, commodity commodity1") ∧
      quantityOf ctx0 (ExecuteRedemption ctx0 duplicateRuleLedger "user1" "record1").stub
        "user1" "commodity1" = some 2 ∧
      balanceOf ctx0 (ExecuteRedemption ctx0 duplicateRuleLedger "user1" "record1").stub
        "user1" = some 1000) := by
  decide!

/-! ## A trade of a user with themselves -/

set_option maxRecDepth 100000 in
/-- The rounding at some known values: 0.1, a tie above 2^53 going to the even
significand on either side, and a tie between the two smallest subnormals. -/
theorem roundFloat64_examples :
    roundFloat64 (1 / 10) = 3602879701896397 / 36028797018963968 ∧
    roundFloat64 (-1 / 10) = -3602879701896397 / 36028797018963968 ∧
    roundFloat64 9007199254740993 = 9007199254740992 ∧
    roundFloat64 9007199254740995 = 9007199254740996 ∧
    roundFloat64 (3 / 2 ^ 1075) = 1 / 2 ^ 1073 ∧
    roundFloat64 (1 / 2 ^ 1075) = 0 ∧
    roundFloat64 1000 = 1000 ∧
    roundFloat64 maxFloat64 = maxFloat64 := by
  decide!

theorem UpdateBalanceFloat_exact (ctx : Ctx) (s : Stub) (u : String) (a : ℚ) (op : String)
    (hadd : ∀ x, GetUserAssets ctx s u = .ok x → roundFloat64 (x.Balance + a) = x.Balance + a ∧
      x.Balance + a ≤ maxFloat64 ∧ -maxFloat64 ≤ x.Balance + a)
    (hsub : ∀ x, GetUserAssets ctx s u = .ok x → roundFloat64 (x.Balance - a) = x.Balance - a ∧
      x.Balance - a ≤ maxFloat64 ∧ -maxFloat64 ≤ x.Balance - a) :
    UpdateBalanceFloat ctx s u a op = UpdateBalance ctx s u a op := by
  unfold UpdateBalanceFloat UpdateBalance
  cases hx : GetUserAssets ctx s u with
  | error e => rfl
  | ok x =>
    obtain ⟨h1, h2, h3⟩ := hadd x hx
    obtain ⟨h4, h5, h6⟩ := hsub x hx
    simp only [h1, h4, not_lt.mpr h2, not_lt.mpr h3, not_lt.mpr h5, not_lt.mpr h6, if_false]

theorem UpdateBalanceFloat_subtract {ctx : Ctx} {s : Stub} {u : String} {a : ℚ} {x : UserAsset}
    (hx : GetUserAssets ctx s u = .ok x) (ha : ¬ x.Balance < a)
    (hok : (UpdateBalanceFloat ctx s u a "subtract").err = none) :
    UpdateBalanceFloat ctx s u a "subtract" =
      ⟨none, s.PutState (GetUserAssetKey u)
        (.userAsset { x with Balance := roundFloat64 (x.Balance - a),
                             UpdatedAt := GetTxTimestamp ctx })⟩ := by
  unfold UpdateBalanceFloat at hok ⊢
  rw [hx] at hok ⊢
  by_cases h1 : maxFloat64 < roundFloat64 (x.Balance - a)
  · simp [ha, h1] at hok
  by_cases h2 : roundFloat64 (x.Balance - a) < -maxFloat64
  · simp [ha, h1, h2] at hok
  simp [ha, h1, h2]

theorem UpdateBalanceFloat_add {ctx : Ctx} {s : Stub} {u : String} {a : ℚ} {x : UserAsset}
    (hx : GetUserAssets ctx s u = .ok x)
    (hok : (UpdateBalanceFloat ctx s u a "add").err = none) :
    UpdateBalanceFloat ctx s u a "add" =
      ⟨none, s.PutState (GetUserAssetKey u)
        (.userAsset { x with Balance := roundFloat64 (x.Balance + a),
                             UpdatedAt := GetTxTimestamp ctx })⟩ := by
  unfold UpdateBalanceFloat at hok ⊢
  rw [hx] at hok ⊢
  by_cases h1 : maxFloat64 < roundFloat64 (x.Balance + a)
  · simp [h1] at hok
  by_cases h2 : roundFloat64 (x.Balance + a) < -maxFloat64
  · simp [h1, h2] at hok
  simp [h1, h2]

theorem UpdateBalanceFloat_err_of_read {ctx : Ctx} {s : Stub} {u : String} {a : ℚ}
    {op e : String} (hx : GetUserAssets ctx s u = .error e) :
    UpdateBalanceFloat ctx s u a op = ⟨some e, s⟩ := by
  unfold UpdateBalanceFloat
  rw [hx]

/-- What a successful ExecuteTradeFloat of a user with themselves read and wrote. -/
theorem ExecuteTradeFloat_ok_self {ctx : Ctx} {s : Stub} {tid : String} {trade : Trade}
    (hT : GetTradeStatus ctx s tid = .ok trade) (hself : trade.FromUserID = trade.ToUserID)
    (hok : (ExecuteTradeFloat ctx s tid).err = none) :
    trade.Status = "pending" ∧
    ∃ si ba,
      GetInventory ctx s trade.FromUserID trade.CommodityID = .ok si ∧
      GetUserAssets ctx s trade.FromUserID = .ok ba ∧
      ∀ key, (ExecuteTradeFloat ctx s tid).stub.GetState key =
        if key = GetTradeKey tid then
          some (.trade { trade with Status := "successful", CompletedAt := GetTxTimestamp ctx })
        else if key = GetUserAssetKey trade.FromUserID then
          some (.userAsset ⟨ba.UserID,
            roundFloat64 (roundFloat64 (ba.Balance - trade.Price) + trade.Price),
            GetTxTimestamp ctx⟩)
        else if key = GetInventoryKey trade.FromUserID trade.CommodityID then
          some (.inventory ⟨si.UserID, si.CommodityID,
            wrapInt (wrapInt (si.Quantity - trade.Quantity) + trade.Quantity),
            GetTxTimestamp ctx⟩)
        else s.GetState key := by
  have hs : (if trade.Action = "buy" then trade.ToUserID else trade.FromUserID) =
      trade.FromUserID := by
    split
    · exact hself.symm
    · rfl
  have hb : (if trade.Action = "buy" then trade.FromUserID else trade.ToUserID) =
      trade.FromUserID := by
    split
    · rfl
    · exact hself.symm
  unfold ExecuteTradeFloat at hok ⊢
  rw [hT] at hok ⊢
  simp only [hs, hb] at hok ⊢
  by_cases hp : trade.Status = "pending"
  swap
  · simp [hp] at hok
  refine ⟨hp, ?_⟩
  cases hsi : GetInventory ctx s trade.FromUserID trade.CommodityID with
  | error e => simp [hp, hsi] at hok
  | ok si =>
    by_cases hq : si.Quantity < trade.Quantity
    · simp [hp, hsi, hq] at hok
    cases hba : GetUserAssets ctx s trade.FromUserID with
    | error e => simp [hp, hsi, hq, hba] at hok
    | ok ba =>
      by_cases hbal : ba.Balance < trade.Price
      · simp [hp, hsi, hq, hba, hbal] at hok
      have h1 := UpdateInventory_subtract hsi hq
      obtain ⟨s1, hs1⟩ : ∃ s1, s.PutState (GetInventoryKey trade.FromUserID trade.CommodityID)
        (.inventory { si with Quantity := wrapInt (si.Quantity - trade.Quantity),
                              UpdatedAt := GetTxTimestamp ctx }) = s1 := ⟨_, rfl⟩
      rw [hs1] at h1
      have hbi : GetInventory ctx s1 trade.FromUserID trade.CommodityID =
          .ok { si with Quantity := wrapInt (si.Quantity - trade.Quantity),
                        UpdatedAt := GetTxTimestamp ctx } := by
        rw [← hs1]
        exact GetInventory_of_stored (GetState_PutState_self _ _ _)
      have h2 := UpdateInventory_add (q := trade.Quantity) hbi
      obtain ⟨s2, hs2⟩ : ∃ s2, s1.PutState (GetInventoryKey trade.FromUserID trade.CommodityID)
        (.inventory ⟨si.UserID, si.CommodityID,
          wrapInt (wrapInt (si.Quantity - trade.Quantity) + trade.Quantity),
          GetTxTimestamp ctx⟩) = s2 := ⟨_, rfl⟩
      simp only [] at h2
      rw [hs2] at h2
      have hba2 : GetUserAssets ctx s2 trade.FromUserID = .ok ba := by
        rw [← hba]
        apply GetUserAssets_congr
        rw [← hs2, ← hs1, GetState_PutState_ne _ _ (userAssetKey_ne_inventoryKey _ _ _),
          GetState_PutState_ne _ _ (userAssetKey_ne_inventoryKey _ _ _)]
      simp only [hp, hsi, hq, hba, hbal, h1, h2, ne_eq, not_true_eq_false, if_false] at hok ⊢
      cases h3e : (UpdateBalanceFloat ctx s2 trade.FromUserID trade.Price "subtract").err with
      | some e => simp [h3e] at hok
      | none =>
        have h3 := UpdateBalanceFloat_subtract hba2 hbal h3e
        obtain ⟨s3, hs3⟩ : ∃ s3, s2.PutState (GetUserAssetKey trade.FromUserID)
          (.userAsset { ba with Balance := roundFloat64 (ba.Balance - trade.Price),
                                UpdatedAt := GetTxTimestamp ctx }) = s3 := ⟨_, rfl⟩
        rw [hs3] at h3
        have hsa : GetUserAssets ctx s3 trade.FromUserID =
            .ok { ba with Balance := roundFloat64 (ba.Balance - trade.Price),
                          UpdatedAt := GetTxTimestamp ctx } := by
          rw [← hs3]
          exact GetUserAssets_ok_iff.mpr (GetState_PutState_self _ _ _)
        rw [h3] at hok ⊢
        simp only [] at hok ⊢
        cases h4e : (UpdateBalanceFloat ctx s3 trade.FromUserID trade.Price "add").err with
        | some e => simp [h4e] at hok
        | none =>
          have h4 := UpdateBalanceFloat_add hsa h4e
          rw [h4]
          refine ⟨si, ba, rfl, rfl, ?_⟩
          intro key
          simp only [GetState_SetEvent, GetState_PutState, ← hs3, ← hs2, ← hs1]
          by_cases hk1 : key = GetTradeKey tid
          · simp [hk1]
          by_cases hk2 : key = GetUserAssetKey trade.FromUserID
          · simp [hk1, hk2]
          by_cases hk3 : key = GetInventoryKey trade.FromUserID trade.CommodityID
          · simp [hk3, inventoryKey_ne_tradeKey, inventoryKey_ne_userAssetKey]
          simp [hk1, hk2, hk3]

/-- C38 (amended): when ExecuteTrade, with the float64 arithmetic of Go, succeeds
on a stored trade whose fromUserId equals toUserId, the trade was pending; the
user's quantity of the traded commodity afterwards is the quantity before minus
and plus the trade quantity with 64-bit wrap-around, which is the quantity before
whenever that is an `int`; the user's balance afterwards is the float64 nearest
to the price plus the float64 nearest to the balance before minus the price, which
is the balance before whenever the balance before and that difference are
float64 values; every key other than the user's inventory key, the user's account
key and the trade key keeps its value. -/
theorem ExecuteTradeFloat_self_trade (ctx : Ctx) (s : Stub) (tid : String) (trade : Trade)
    (hT : GetTradeStatus ctx s tid = .ok trade) (hself : trade.FromUserID = trade.ToUserID)
    (hok : (ExecuteTradeFloat ctx s tid).err = none) :
    trade.Status = "pending" ∧
    ∃ q b,
      quantityOf ctx s trade.FromUserID trade.CommodityID = some q ∧
      balanceOf ctx s trade.FromUserID = some b ∧
      quantityOf ctx (ExecuteTradeFloat ctx s tid).stub trade.FromUserID trade.CommodityID =
        some (wrapInt (wrapInt (q - trade.Quantity) + trade.Quantity)) ∧
      wrapInt (wrapInt (q - trade.Quantity) + trade.Quantity) = wrapInt q ∧
      (IsInt64 q → quantityOf ctx (ExecuteTradeFloat ctx s tid).stub trade.FromUserID
        trade.CommodityID = some q) ∧
      balanceOf ctx (ExecuteTradeFloat ctx s tid).stub trade.FromUserID =
        some (roundFloat64 (roundFloat64 (b - trade.Price) + trade.Price)) ∧
      (roundFloat64 b = b → roundFloat64 (b - trade.Price) = b - trade.Price →
        balanceOf ctx (ExecuteTradeFloat ctx s tid).stub trade.FromUserID = some b) ∧
      ∀ key, key ≠ GetInventoryKey trade.FromUserID trade.CommodityID →
        key ≠ GetUserAssetKey trade.FromUserID → key ≠ GetTradeKey tid →
        (ExecuteTradeFloat ctx s tid).stub.GetState key = s.GetState key := by
  obtain ⟨hp, si, ba, hsi, hba, hst⟩ := ExecuteTradeFloat_ok_self hT hself hok
  have hq' : quantityOf ctx (ExecuteTradeFloat ctx s tid).stub trade.FromUserID
      trade.CommodityID =
      some (wrapInt (wrapInt (si.Quantity - trade.Quantity) + trade.Quantity)) := by
    refine quantityOf_eq_of_stored (i := ⟨si.UserID, si.CommodityID,
      wrapInt (wrapInt (si.Quantity - trade.Quantity) + trade.Quantity), GetTxTimestamp ctx⟩) ?_
    rw [hst]
    simp [inventoryKey_ne_tradeKey, inventoryKey_ne_userAssetKey]
  have hb' : balanceOf ctx (ExecuteTradeFloat ctx s tid).stub trade.FromUserID =
      some (roundFloat64 (roundFloat64 (ba.Balance - trade.Price) + trade.Price)) := by
    refine balanceOf_eq_of_stored (a := ⟨ba.UserID,
      roundFloat64 (roundFloat64 (ba.Balance - trade.Price) + trade.Price),
      GetTxTimestamp ctx⟩) ?_
    rw [hst]
    simp [userAssetKey_ne_tradeKey]
  have hwrap : wrapInt (wrapInt (si.Quantity - trade.Quantity) + trade.Quantity) =
      wrapInt si.Quantity := by
    unfold wrapInt
    omega
  refine ⟨hp, si.Quantity, ba.Balance, quantityOf_eq_of_read hsi, balanceOf_eq_of_read hba,
    hq', hwrap, ?_, hb', ?_, ?_⟩
  · intro hq64
    rw [hq', hwrap, wrapInt_of_isInt64 hq64]
  · intro hfb hfd
    rw [hb', hfd, sub_add_cancel, hfb]
  · intro key hk1 hk2 hk3
    rw [hst]
    simp [hk1, hk2, hk3]

set_option maxRecDepth 100000 in
/-- C38, instance: a user with a balance of 1000 buys 5 units from themselves for
100; the difference 900 is a float64 and the balance is 1000 again. -/
theorem ExecuteTradeFloat_self_trade_witness :
    (ExecuteTradeFloat ctx1 selfTradeLedger "trade1").err = none ∧
    quantityOf ctx1 selfTradeLedger "user1" "commodity1" = some 10 ∧
    balanceOf ctx1 selfTradeLedger "user1" = some 1000 ∧
    balanceOf ctx1 (ExecuteTradeFloat ctx1 selfTradeLedger "trade1").stub "user1" = some 1000 ∧
    quantityOf ctx1 (ExecuteTradeFloat ctx1 selfTradeLedger "trade1").stub "user1"
      "commodity1" = some 10 := by
  have hok : (ExecuteTradeFloat ctx1 selfTradeLedger "trade1").err = none := by decide!
  have hT : GetTradeStatus ctx1 selfTradeLedger "trade1" =
      .ok ⟨"trade1", "user1", "user1", "commodity1", 5, 100, "buy", "pending",
        ⟨1700000000, 5⟩, zeroTime⟩ := by decide!
  obtain ⟨-, q, b, hq, hb, -, -, hq', -, hb', -⟩ :=
    ExecuteTradeFloat_self_trade ctx1 selfTradeLedger "trade1" _ hT rfl hok
  have hq10 : quantityOf ctx1 selfTradeLedger "user1" "commodity1" = some 10 := by decide!
  have hb1000 : balanceOf ctx1 selfTradeLedger "user1" = some 1000 := by decide!
  have hqe : q = 10 := by
    have h2 := hq.symm.trans hq10
    exact Option.some.inj h2
  have hbe : b = 1000 := by
    have h2 := hb.symm.trans hb1000
    exact Option.some.inj h2
  subst hqe
  subst hbe
  have hf1 : roundFloat64 1000 = 1000 := by decide!
  have hf2 : roundFloat64 (1000 - 100) = 1000 - 100 := by decide!
  exact ⟨hok, hq10, hb1000, hb' hf1 hf2, hq' (by decide)⟩

set_option maxRecDepth 100000 in
/-- C38 fails as stated: user1 holds a balance of 1527.55 and a pending trade
with itself for 389.63 (the float64 values of these decimals, 6718235948036915 /
2^42 and 3427221724242903 / 2^43).  ExecuteTrade succeeds; the subtraction
rounds to 625578135739433 / 2^39, the addition to 1679558987009229 / 2^40, and
the balance afterwards is 1527.5500000000002, one unit in the last place above
the balance before.  The quantity is 10 before and after. -/
theorem ExecuteTradeFloat_self_trade_counterexample :
    GetTradeStatus ctx1 floatSelfTradeLedger "trade1" =
      .ok ⟨"trade1", "user1", "user1", "commodity1", 5, 3427221724242903 / 8796093022208,
        "buy", "pending", ⟨1700000000, 5⟩, zeroTime⟩ ∧
    (ExecuteTradeFloat ctx1 floatSelfTradeLedger "trade1").err = none ∧
    balanceOf ctx1 floatSelfTradeLedger "user1" = some (6718235948036915 / 4398046511104) ∧
    balanceOf ctx1 (ExecuteTradeFloat ctx1 floatSelfTradeLedger "trade1").stub "user1" =
      some (1679558987009229 / 1099511627776) ∧
    balanceOf ctx1 (ExecuteTradeFloat ctx1 floatSelfTradeLedger "trade1").stub "user1" ≠
      balanceOf ctx1 floatSelfTradeLedger "user1" ∧
    quantityOf ctx1 floatSelfTradeLedger "user1" "commodity1" = some 10 ∧
    quantityOf ctx1 (ExecuteTradeFloat ctx1 floatSelfTradeLedger "trade1").stub "user1"
      "commodity1" = some 10 := by
  decide!

/-! ## Non-negativity, one operation at a time -/

/-- C34 (amended): if every stored balance and inventory quantity is >= 0 (a
quantity being an `int`, so below 2^63), every stored trade has quantity >= 0 and
price >= 0, and every stored rule has rewardAmount >= 0 and items with quantity
>= 0, then after an UpdateBalance with amount >= 0, an UpdateInventory with
quantity >= 0 whose addition stays below 2^63, an ExecuteTrade whose credit of
the buyer stays below 2^63, or an ExecuteRedemption, successful or not, every
stored balance and inventory quantity is still >= 0. -/
theorem nonNegative_step (codec : Codec) (ctx : Ctx) (s : Stub) (h : AllOk s) :
    NonNegative s ∧
    (∀ u a op, 0 ≤ a → NonNegative (UpdateBalance ctx s u a op).stub) ∧
    (∀ u c q op, 0 ≤ q → (op = "add" → addFits q (GetInventory ctx s u c)) →
      NonNegative (UpdateInventory ctx s u c q op).stub) ∧
    (∀ tid, creditFits ctx s (GetTradeStatus ctx s tid) →
      NonNegative (ExecuteTrade ctx s tid).stub) ∧
    (∀ u r, NonNegative (ExecuteRedemption ctx s u r).stub) := by
  refine ⟨AllOk_nonNegative h, ?_, ?_, ?_, ?_⟩
  · intro u a op ha
    exact AllOk_nonNegative (@AllOk_invoke codec ctx s h (.updateBalance u a op) ha trivial)
  · intro u c q op hq hfit
    exact AllOk_nonNegative (@AllOk_invoke codec ctx s h (.updateInventory u c q op) hq hfit)
  · intro tid hfit
    exact AllOk_nonNegative (@AllOk_invoke codec ctx s h (.executeTrade tid) trivial hfit)
  · intro u r
    exact AllOk_nonNegative (@AllOk_invoke codec ctx s h (.executeRedemption u r) trivial trivial)

set_option maxRecDepth 100000 in
/-- C34, instance: the ledger of TestExecuteTrade, the trade executed, and an
addition of 7 units. -/
theorem nonNegative_step_witness :
    NonNegative tradeLedger ∧
    (ExecuteTrade ctx0 tradeLedger "trade1").err = none ∧
    NonNegative (ExecuteTrade ctx0 tradeLedger "trade1").stub ∧
    (UpdateInventory ctx0 tradeLedger "user1" "commodity1" 7 "add").err = none ∧
    NonNegative (UpdateInventory ctx0 tradeLedger "user1" "commodity1" 7 "add").stub :=
  have hall : AllOk tradeLedger := AllOk_run _ AllOk_emptyStub (by decide!)
  have h := nonNegative_step sampleCodec ctx0 tradeLedger hall
  ⟨h.1, by decide!, h.2.2.2.1 "trade1" (by decide!), by decide!,
    h.2.2.1 "user1" "commodity1" 7 "add" (by decide) (fun _ => by decide!)⟩

set_option maxRecDepth 100000 in
/-- C34 as stated fails: on a ledger whose only record is a quantity of
9223372036854775807, a successful UpdateInventory 'add' of 1 leaves the quantity
-9223372036854775808; and on a ledger with balance 100 and a rule with reward
-500 (no trade, no negative item quantity) a successful ExecuteRedemption leaves
the balance -400. -/
theorem nonNegative_step_counterexample :
    (fullInventoryLedger.State = [(GetInventoryKey "user1" "commodity1",
        .inventory ⟨"user1", "commodity1", 9223372036854775807, ⟨1700000000, 5⟩⟩)] ∧
      NonNegative fullInventoryLedger ∧
      (UpdateInventory ctx0 fullInventoryLedger "user1" "commodity1" 1 "add").err = none ∧
      quantityOf ctx0 (UpdateInventory ctx0 fullInventoryLedger "user1" "commodity1" 1 "add").stub
        "user1" "commodity1" = some (-9223372036854775808) ∧
      ¬ NonNegative (UpdateInventory ctx0 fullInventoryLedger "user1" "commodity1" 1 "add").stub) ∧
    (NonNegative negativeRewardLedger ∧
      (ExecuteRedemption ctx0 negativeRewardLedger "user1" "record1").err = none ∧
      balanceOf ctx0 (ExecuteRedemption ctx0 negativeRewardLedger "user1" "record1").stub "user1"
        = some (-400) ∧
      ¬ NonNegative (ExecuteRedemption ctx0 negativeRewardLedger "user1" "record1").stub) := by
  decide!

/-! ## What the operations write -/

theorem UpdateBalance_writes {ctx : Ctx} {s s1 : Stub} (h : Writes ctx s s1) (u : String)
    (a : ℚ) (op : String) : Writes ctx s (UpdateBalance ctx s1 u a op).stub := by
  unfold UpdateBalance
  repeat' split
  all_goals first
    | exact h
    | exact Writes.put _ _ h rfl

theorem UpdateInventory_writes {ctx : Ctx} {s s1 : Stub} (h : Writes ctx s s1) (u c : String)
    (q : Int) (op : String) : Writes ctx s (UpdateInventory ctx s1 u c q op).stub := by
  unfold UpdateInventory
  repeat' split
  all_goals first
    | exact h
    | exact Writes.put _ _ h rfl

theorem deductItems_writes {ctx : Ctx} {s : Stub} (u : String) :
    ∀ (items : List RequiredItem) {s1 : Stub}, Writes ctx s s1 →
      Writes ctx s (deductItems ctx u items s1).stub := by
  intro items
  induction items with
  | nil => intro s1 h; exact h
  | cons item rest ih =>
    intro s1 h
    have h1 := UpdateInventory_writes h u item.CommodityID item.Quantity "subtract"
    unfold deductItems
    simp only []
    split
    · exact h1
    · exact ih h1

theorem CreateCommodity_writes {codec : Codec} {ctx : Ctx} {s s1 : Stub} (h : Writes ctx s s1)
    (c n m : String) : Writes ctx s (CreateCommodity codec ctx s1 c n m).stub := by
  rcases CreateCommodity_stub_cases codec ctx s1 c n m with ⟨h0, -⟩ | ⟨md, -, -, h1⟩
  · rw [h0]; exact h
  · rw [h1]; exact Writes.put _ _ h rfl

theorem createAll_writes {codec : Codec} {ctx : Ctx} {s : Stub} :
    ∀ (l : List (String × String × String)) {s1 : Stub}, Writes ctx s s1 →
      Writes ctx s (createAll codec ctx l s1) := by
  intro l
  induction l with
  | nil => intro s1 h; exact h
  | cons hd rest ih =>
    intro s1 h
    obtain ⟨id, name, metadata⟩ := hd
    unfold createAll
    exact ih (CreateCommodity_writes h id name metadata)

theorem ExecuteTrade_writes (ctx : Ctx) (s : Stub) (tid : String) :
    Writes ctx s (ExecuteTrade ctx s tid).stub := by
  rcases ExecuteTrade_stub_cases ctx s tid with ⟨-, h0⟩ | ⟨trade, si, ba, hT, hp, -, -, -, -, hc⟩
  · rw [h0]; exact Writes.refl
  have h1 := UpdateInventory_writes (@Writes.refl ctx s) (sellerOf trade) trade.CommodityID
    trade.Quantity "subtract"
  have h2 := UpdateInventory_writes h1 (buyerOf trade) trade.CommodityID trade.Quantity "add"
  have h3 := UpdateBalance_writes h2 (buyerOf trade) trade.Price "subtract"
  have h4 := UpdateBalance_writes h3 (sellerOf trade) trade.Price "add"
  rcases hc with ⟨-, hc⟩ | ⟨-, hc⟩ | ⟨-, hc⟩ | ⟨-, hc⟩ | ⟨-, hc⟩
  · rw [hc]; exact h1
  · rw [hc]; exact h2
  · rw [hc]; exact h3
  · rw [hc]; exact h4
  · rw [hc]
    exact Writes.event _ _
      (Writes.put _ _ h4 (Or.inr ⟨trade, GetTradeStatus_ok_iff.mp hT, hp, Or.inl rfl⟩)) rfl

theorem RejectTrade_writes (ctx : Ctx) (s : Stub) (tid : String) :
    Writes ctx s (RejectTrade ctx s tid).stub := by
  cases hT : GetTradeStatus ctx s tid with
  | error e => simp only [RejectTrade, hT]; exact Writes.refl
  | ok trade =>
    by_cases hp : trade.Status = "pending"
    · simp only [RejectTrade, hT, hp, ne_eq, not_true_eq_false, if_false]
      apply Writes.put _ _ Writes.refl
      exact Or.inr ⟨trade, GetTradeStatus_ok_iff.mp hT, hp, Or.inr rfl⟩
    · rw [RejectTrade_not_pending hT hp]
      exact Writes.refl

theorem CreateTrade_writes (ctx : Ctx) (s : Stub) (t f u c : String) (q : Int) (p : ℚ)
    (a : String) : Writes ctx s (CreateTrade ctx s t f u c q p a).stub := by
  unfold CreateTrade
  split
  · exact Writes.refl
  · rename_i ha
    have hact : a = "buy" ∨ a = "sell" := by
      by_cases hb : a = "buy"
      · exact Or.inl hb
      · by_cases hs : a = "sell"
        · exact Or.inr hs
        · exact absurd ⟨hb, hs⟩ ha
    split
    · exact Writes.refl
    · simp only []
      split
      · exact Writes.refl
      · split
        · exact Writes.refl
        · split
          · exact Writes.refl
          · split
            · exact Writes.refl
            · exact Writes.put _ _ Writes.refl (Or.inl ⟨rfl, hact, rfl, rfl, rfl⟩)

theorem CreateRedemptionRule_writes (codec : Codec) (ctx : Ctx) (s : Stub) (u text : String)
    (r : ℚ) : Writes ctx s (CreateRedemptionRule codec ctx s u text r).stub := by
  unfold CreateRedemptionRule
  repeat' split
  all_goals first
    | exact Writes.refl
    | exact Writes.put _ _ Writes.refl rfl

theorem ExecuteRedemption_writes (ctx : Ctx) (s : Stub) (u r : String) :
    Writes ctx s (ExecuteRedemption ctx s u r).stub := by
  rcases ExecuteRedemption_stub_cases ctx s u r with ⟨-, h0⟩ | ⟨rule, -, -, hc⟩
  · rw [h0]; exact Writes.refl
  have h1 := deductItems_writes u rule.RequiredItems (@Writes.refl ctx s)
  have h2 := UpdateBalance_writes h1 u rule.RewardAmount "add"
  rcases hc with ⟨-, hc⟩ | ⟨-, hc⟩ | ⟨-, -, -, hc⟩
  · rw [hc]; exact h1
  · rw [hc]; exact h2
  · rw [hc]
    exact Writes.event _ _ (Writes.put _ _ h2 rfl) rfl

/-- Every public operation reaches the stub it leaves by admitted writes and events. -/
theorem invoke_writes (codec : Codec) (ctx : Ctx) (s : Stub) (call : Call) :
    Writes ctx s (invoke codec ctx s call).stub := by
  cases call with
  | initUser u b =>
    simp only [invoke, InitUser]
    split
    · exact Writes.refl
    · exact Writes.put _ _ Writes.refl rfl
  | updateBalance u a op => exact UpdateBalance_writes Writes.refl u a op
  | updateInventory u c q op => exact UpdateInventory_writes Writes.refl u c q op
  | createCommodity c n m => exact CreateCommodity_writes Writes.refl c n m
  | initializeCommodities =>
    simp only [invoke, InitializeCommodities]
    exact createAll_writes defaultCommodities Writes.refl
  | createTrade t f u c q p a => exact CreateTrade_writes ctx s t f u c q p a
  | executeTrade t => exact ExecuteTrade_writes ctx s t
  | rejectTrade t => exact RejectTrade_writes ctx s t
  | createRedemptionRule u items r => exact CreateRedemptionRule_writes codec ctx s u items r
  | executeRedemption u r => exact ExecuteRedemption_writes ctx s u r
  | getUserAssets u => simp only [invoke, queryOutcome_stub]; exact Writes.refl
  | getInventory u c => simp only [invoke, queryOutcome_stub]; exact Writes.refl
  | getAllInventory u => simp only [invoke, queryOutcome_stub]; exact Writes.refl
  | getCommodity c => simp only [invoke, queryOutcome_stub]; exact Writes.refl
  | getAllCommodities => simp only [invoke, queryOutcome_stub]; exact Writes.refl
  | getTradeStatus t => simp only [invoke, queryOutcome_stub]; exact Writes.refl
  | getTradeHistory u => simp only [invoke, queryOutcome_stub]; exact Writes.refl
  | getRedemptionRule u => simp only [invoke, queryOutcome_stub]; exact Writes.refl
  | getRedemptionHistory u => simp only [invoke, queryOutcome_stub]; exact Writes.refl

/-- A value found after admitted writes was there before or was admitted. -/
theorem Writes_GetState {ctx : Ctx} {s s' : Stub} (h : Writes ctx s s') (key : String)
    (e : Entry) (he : s'.GetState key = some e) :
    s.GetState key = some e ∨ Admitted ctx s key e := by
  induction h with
  | refl => exact Or.inl he
  | put k v _ hv ih =>
    rw [GetState_PutState] at he
    split at he
    · rename_i hk
      cases he
      rw [hk]
      exact Or.inr hv
    · exact ih he
  | event n p _ _ ih => exact ih he

/-- An event found after admitted writes was there before or carries the
transaction time. -/
theorem Writes_Events {ctx : Ctx} {s s' : Stub} (h : Writes ctx s s') :
    ∀ ev ∈ s'.Events, ev ∈ s.Events ∨ eventTime ev.Payload = GetTxTimestamp ctx := by
  induction h with
  | refl => intro ev hev; exact Or.inl hev
  | put k v _ _ ih => exact ih
  | event n p _ hp ih =>
    intro ev hev
    rcases List.mem_append.mp hev with h1 | h1
    · exact ih ev h1
    · rw [List.mem_singleton.mp h1]
      exact Or.inr hp

theorem Admitted_stampedAt {ctx : Ctx} {s : Stub} {key : String} {e : Entry}
    (h : Admitted ctx s key e) : stampedAt (GetTxTimestamp ctx) e := by
  cases e with
  | trade t =>
    rcases h with ⟨hp, -, hc, -, -⟩ | ⟨old, -, -, h2 | h2⟩
    · exact Or.inl ⟨hp, hc⟩
    · rw [h2]
      exact Or.inr ⟨show ("successful" : String) ≠ "pending" by decide, rfl⟩
    · rw [h2]
      exact Or.inr ⟨show ("rejected" : String) ≠ "pending" by decide, rfl⟩
  | userAsset a => exact h
  | inventory a => exact h
  | commodity a => exact h
  | redemptionRule a => exact h
  | redemptionRecord a => exact h

theorem TradesWellFormed_writes {ctx : Ctx} {s s' : Stub} (hs : TradesWellFormed s)
    (h : Writes ctx s s') : TradesWellFormed s' := by
  induction h with
  | refl => exact hs
  | put k v _ hv ih =>
    intro kv hkv
    rcases mem_insertKey hkv with h1 | h1
    · rw [h1]
      cases v with
      | trade t =>
        rcases hv with ⟨hp, ha, -, -, hk⟩ | ⟨old, hold, -, h2⟩
        · exact ⟨ha, Or.inl hp, hk⟩
        · have hw := hs (k, .trade old) (lookupKey_mem hold)
          simp only [tradeWellFormed] at hw
          rcases h2 with h2 | h2
          · rw [h2]
            exact ⟨hw.1, Or.inr (Or.inl rfl), hw.2.2⟩
          · rw [h2]
            exact ⟨hw.1, Or.inr (Or.inr rfl), hw.2.2⟩
      | userAsset a => trivial
      | inventory a => trivial
      | commodity a => trivial
      | redemptionRule a => trivial
      | redemptionRecord a => trivial
    · exact ih kv h1
  | event n p _ _ ih => exact ih

theorem TradesWellFormed_run (codec : Codec) :
    ∀ (calls : List (Ctx × Call)) (s : Stub), TradesWellFormed s →
      TradesWellFormed (run codec calls s) := by
  intro calls
  induction calls with
  | nil => intro s h; exact h
  | cons hd rest ih =>
    intro s h
    obtain ⟨ctx, call⟩ := hd
    exact ih _ (TradesWellFormed_writes h (invoke_writes codec ctx s call))

/-- C37: in every state reached from the empty ledger by public operations, a
stored trade has action 'buy' or 'sell', status 'pending', 'successful' or
'rejected', and is stored under the key of its own tradeId. -/
theorem stored_trades_well_formed (codec : Codec) (calls : List (Ctx × Call)) (key : String)
    (t : Trade) (h : (run codec calls emptyStub).GetState key = some (.trade t)) :
    (t.Action = "buy" ∨ t.Action = "sell") ∧
    (t.Status = "pending" ∨ t.Status = "successful" ∨ t.Status = "rejected") ∧
    key = GetTradeKey t.TradeID := by
  have hwf : TradesWellFormed (run codec calls emptyStub) :=
    TradesWellFormed_run codec calls emptyStub (fun kv hkv => by simp [emptyStub] at hkv)
  exact hwf (key, .trade t) (lookupKey_mem h)

set_option maxRecDepth 100000 in
/-- C37, instance: the executed trade of TestExecuteTrade. -/
theorem stored_trades_well_formed_witness :
    (run sampleCodec
      [ (ctx0, .initUser "user1" 1000), (ctx0, .initUser "user2" 1000),
        (ctx0, .updateInventory "user2" "commodity1" 10 "add"),
        (ctx0, .createTrade "trade1" "user1" "user2" "commodity1" 5 100 "buy"),
        (ctx1, .executeTrade "trade1") ] emptyStub).GetState "trade_trade1" =
      some (.trade ⟨"trade1", "user1", "user2", "commodity1", 5, 100, "buy", "successful",
        ⟨1700000000, 5⟩, ⟨1700000060, 0⟩⟩) ∧
    "trade_trade1" = GetTradeKey "trade1" :=
  ⟨by decide!, (stored_trades_well_formed sampleCodec
      [ (ctx0, .initUser "user1" 1000), (ctx0, .initUser "user2" 1000),
        (ctx0, .updateInventory "user2" "commodity1" 10 "add"),
        (ctx0, .createTrade "trade1" "user1" "user2" "commodity1" 5 100 "buy"),
        (ctx1, .executeTrade "trade1") ] "trade_trade1"
      ⟨"trade1", "user1", "user2", "commodity1", 5, 100, "buy", "successful",
        ⟨1700000000, 5⟩, ⟨1700000060, 0⟩⟩ (by decide!)).2.2⟩

/-! ## The transaction timestamp is the only source of time -/

theorem UpdateBalance_timestamp {ctx ctx' : Ctx} (h : GetTxTimestamp ctx = GetTxTimestamp ctx')
    (s : Stub) (u : String) (a : ℚ) (op : String) :
    UpdateBalance ctx s u a op = UpdateBalance ctx' s u a op := by
  have hG : GetUserAssets ctx s u = GetUserAssets ctx' s u := rfl
  unfold UpdateBalance
  rw [h, hG]

theorem GetInventory_timestamp {ctx ctx' : Ctx} (h : GetTxTimestamp ctx = GetTxTimestamp ctx')
    (s : Stub) (u c : String) : GetInventory ctx s u c = GetInventory ctx' s u c := by
  unfold GetInventory
  rw [h]

theorem UpdateInventory_timestamp {ctx ctx' : Ctx} (h : GetTxTimestamp ctx = GetTxTimestamp ctx')
    (s : Stub) (u c : String) (q : Int) (op : String) :
    UpdateInventory ctx s u c q op = UpdateInventory ctx' s u c q op := by
  unfold UpdateInventory
  rw [h, GetInventory_timestamp h]

theorem deductItems_timestamp {ctx ctx' : Ctx} (h : GetTxTimestamp ctx = GetTxTimestamp ctx')
    (u : String) : ∀ (items : List RequiredItem) (s : Stub),
      deductItems ctx u items s = deductItems ctx' u items s := by
  intro items
  induction items with
  | nil => intro s; rfl
  | cons item rest ih =>
    intro s
    unfold deductItems
    simp only [UpdateInventory_timestamp h, ih]

theorem verifyItems_timestamp {ctx ctx' : Ctx} (h : GetTxTimestamp ctx = GetTxTimestamp ctx')
    (s : Stub) (u : String) : ∀ items : List RequiredItem,
      verifyItems ctx s u items = verifyItems ctx' s u items := by
  intro items
  induction items with
  | nil => rfl
  | cons item rest ih =>
    unfold verifyItems
    rw [GetInventory_timestamp h, ih]

theorem CreateCommodity_timestamp {ctx ctx' : Ctx} (h : GetTxTimestamp ctx = GetTxTimestamp ctx')
    (codec : Codec) (s : Stub) (c n m : String) :
    CreateCommodity codec ctx s c n m = CreateCommodity codec ctx' s c n m := by
  have hG : GetCommodity ctx s c = GetCommodity ctx' s c := rfl
  unfold CreateCommodity
  rw [h, hG]

theorem createAll_timestamp {ctx ctx' : Ctx} (h : GetTxTimestamp ctx = GetTxTimestamp ctx')
    (codec : Codec) : ∀ (l : List (String × String × String)) (s : Stub),
      createAll codec ctx l s = createAll codec ctx' l s := by
  intro l
  induction l with
  | nil => intro s; rfl
  | cons hd rest ih =>
    intro s
    obtain ⟨id, name, metadata⟩ := hd
    unfold createAll
    rw [CreateCommodity_timestamp h, ih]

theorem ExecuteTrade_timestamp {ctx ctx' : Ctx} (h : GetTxTimestamp ctx = GetTxTimestamp ctx')
    (s : Stub) (tid : String) : ExecuteTrade ctx s tid = ExecuteTrade ctx' s tid := by
  have hT : GetTradeStatus ctx s tid = GetTradeStatus ctx' s tid := rfl
  have hA : ∀ u, GetUserAssets ctx s u = GetUserAssets ctx' s u := fun _ => rfl
  unfold ExecuteTrade
  simp only [h, hT, hA, GetInventory_timestamp h, UpdateInventory_timestamp h,
    UpdateBalance_timestamp h]

theorem ExecuteRedemption_timestamp {ctx ctx' : Ctx}
    (h : GetTxTimestamp ctx = GetTxTimestamp ctx') (s : Stub) (u r : String) :
    ExecuteRedemption ctx s u r = ExecuteRedemption ctx' s u r := by
  have hR : GetRedemptionRule ctx s u = GetRedemptionRule ctx' s u := rfl
  unfold ExecuteRedemption
  simp only [h, hR, verifyItems_timestamp h, deductItems_timestamp h, UpdateBalance_timestamp h]

theorem invoke_timestamp {ctx ctx' : Ctx} (h : GetTxTimestamp ctx = GetTxTimestamp ctx')
    (codec : Codec) (s : Stub) (call : Call) :
    invoke codec ctx s call = invoke codec ctx' s call := by
  cases call with
  | initUser u b =>
    have hG : GetUserAssets ctx s u = GetUserAssets ctx' s u := rfl
    simp only [invoke, InitUser, h, hG]
  | updateBalance u a op => exact UpdateBalance_timestamp h s u a op
  | updateInventory u c q op => exact UpdateInventory_timestamp h s u c q op
  | createCommodity c n m => exact CreateCommodity_timestamp h codec s c n m
  | initializeCommodities =>
    simp only [invoke, InitializeCommodities]
    rw [createAll_timestamp h]
  | createTrade t f u c q p a =>
    have hT : GetTradeStatus ctx s t = GetTradeStatus ctx' s t := rfl
    have hA : ∀ v, GetUserAssets ctx s v = GetUserAssets ctx' s v := fun _ => rfl
    simp only [invoke, CreateTrade, h, hT, hA, GetInventory_timestamp h]
  | executeTrade t => exact ExecuteTrade_timestamp h s t
  | rejectTrade t =>
    have hT : GetTradeStatus ctx s t = GetTradeStatus ctx' s t := rfl
    simp only [invoke, RejectTrade, h, hT]
  | createRedemptionRule u items r =>
    have hR : GetRedemptionRule ctx s u = GetRedemptionRule ctx' s u := rfl
    simp only [invoke, CreateRedemptionRule, h, hR]
  | executeRedemption u r => exact ExecuteRedemption_timestamp h s u r
  | getUserAssets u => rfl
  | getInventory u c => simp only [invoke, GetInventory_timestamp h]
  | getAllInventory u => rfl
  | getCommodity c => rfl
  | getAllCommodities => rfl
  | getTradeStatus t => rfl
  | getTradeHistory u => rfl
  | getRedemptionRule u => rfl
  | getRedemptionHistory u => rfl

/-- C31: the operations depend on the transaction context only through the
transaction timestamp time.Unix(seconds, nanos): for two contexts with the same
timestamp every public operation returns the same error, the same stub (writes and
events) and the same read result on the same stub and arguments; every value an
operation leaves in the store that was not there before carries that timestamp in
the field the operation sets (updatedAt, createdAt of a new record, completedAt of
an executed or rejected trade, timestamp of a redemption record), and every event
it adds carries it too. -/
theorem timestamp_is_the_only_time (codec : Codec) (ctx ctx' : Ctx) (s : Stub)
    (h : timeUnix ctx.Seconds ctx.Nanos = timeUnix ctx'.Seconds ctx'.Nanos) :
    (∀ call, invoke codec ctx s call = invoke codec ctx' s call) ∧
    ((∀ u, GetUserAssets ctx s u = GetUserAssets ctx' s u) ∧
      (∀ u c, GetInventory ctx s u c = GetInventory ctx' s u c) ∧
      (∀ u, GetAllInventory ctx s u = GetAllInventory ctx' s u) ∧
      (∀ c, GetCommodity ctx s c = GetCommodity ctx' s c) ∧
      GetAllCommodities ctx s = GetAllCommodities ctx' s ∧
      (∀ t, GetTradeStatus ctx s t = GetTradeStatus ctx' s t) ∧
      (∀ u, GetTradeHistory ctx s u = GetTradeHistory ctx' s u) ∧
      (∀ u, GetRedemptionRule ctx s u = GetRedemptionRule ctx' s u) ∧
      (∀ u, GetRedemptionHistory ctx s u = GetRedemptionHistory ctx' s u)) ∧
    (∀ call key e, (invoke codec ctx s call).stub.GetState key = some e →
      s.GetState key = some e ∨ stampedAt (timeUnix ctx.Seconds ctx.Nanos) e) ∧
    (∀ call, ∀ ev ∈ (invoke codec ctx s call).stub.Events,
      ev ∈ s.Events ∨ eventTime ev.Payload = timeUnix ctx.Seconds ctx.Nanos) := by
  have h' : GetTxTimestamp ctx = GetTxTimestamp ctx' := h
  refine ⟨fun call => invoke_timestamp h' codec s call,
    ⟨fun _ => rfl, fun u c => GetInventory_timestamp h' s u c, fun _ => rfl, fun _ => rfl, rfl,
      fun _ => rfl, fun _ => rfl, fun _ => rfl, fun _ => rfl⟩, ?_, ?_⟩
  · intro call key e he
    rcases Writes_GetState (invoke_writes codec ctx s call) key e he with h1 | h1
    · exact Or.inl h1
    · exact Or.inr (Admitted_stampedAt h1)
  · intro call
    exact Writes_Events (invoke_writes codec ctx s call)

set_option maxRecDepth 100000 in
/-- C31, instance: two contexts that write the same instant with different seconds
and nanos. -/
theorem timestamp_is_the_only_time_witness :
    ctx0 ≠ ctx0Carry ∧
    ExecuteTrade ctx0 tradeLedger "trade1" = ExecuteTrade ctx0Carry tradeLedger "trade1" ∧
    (ExecuteTrade ctx0Carry tradeLedger "trade1").err = none ∧
    (ExecuteTrade ctx0Carry tradeLedger "trade1").stub.GetState (GetTradeKey "trade1") =
      some (.trade ⟨"trade1", "user1", "user2", "commodity1", 5, 100, "buy", "successful",
        ⟨1700000000, 5⟩, ⟨1700000000, 5⟩⟩) ∧
    GetInventory ctx0 emptyStub "user1" "commodity1" =
      GetInventory ctx0Carry emptyStub "user1" "commodity1" :=
  have h := timestamp_is_the_only_time sampleCodec ctx0 ctx0Carry tradeLedger (by decide)
  have h2 := timestamp_is_the_only_time sampleCodec ctx0 ctx0Carry emptyStub (by decide)
  ⟨by decide, h.1 (.executeTrade "trade1"), by decide!, by decide!,
    h2.2.1.2.1 "user1" "commodity1"⟩

/-! ## The charity chaincode: the top donors -/

theorem keyBytes_append (a b : String) : keyBytes (a ++ b) = keyBytes a ++ keyBytes b := by
  unfold keyBytes String.toUTF8
  simp [String.data_append, List.flatMap_append]

namespace Charity

/-- Every key `user:<id>` lies in the range QueryTopDonors scans. -/
theorem userKey_scanned (id : String) :
    (!keyLt ("user:" ++ id) "user:" && keyLt ("user:" ++ id) "user;") = true := by
  have h1 : keyBytes "user:" = [117, 115, 101, 114, 58] := by decide
  have h2 : keyBytes "user;" = [117, 115, 101, 114, 59] := by decide
  unfold keyLt
  rw [keyBytes_append, h1, h2]
  cases hb : keyBytes id with
  | nil => decide
  | cons x xs => simp [bytesLt]

/-- No key `camp:<id>` lies in the range QueryTopDonors scans. -/
theorem campKey_not_scanned (id : String) :
    (!keyLt ("camp:" ++ id) "user:" && keyLt ("camp:" ++ id) "user;") = false := by
  have h0 : keyBytes "camp:" = [99, 97, 109, 112, 58] := by decide
  have h1 : keyBytes "user:" = [117, 115, 101, 114, 58] := by decide
  unfold keyLt
  rw [keyBytes_append, h0, h1]
  simp [bytesLt]

/-- No key `don:<id>` lies in the range QueryTopDonors scans. -/
theorem donKey_not_scanned (id : String) :
    (!keyLt ("don:" ++ id) "user:" && keyLt ("don:" ++ id) "user;") = false := by
  have h0 : keyBytes "don:" = [100, 111, 110, 58] := by decide
  have h1 : keyBytes "user:" = [117, 115, 101, 114, 58] := by decide
  unfold keyLt
  rw [keyBytes_append, h0, h1]
  simp [bytesLt]

/-- The donor entry of a scanned binding, as the loop of QueryTopDonors builds it. -/
theorem collectDonors_users :
    ∀ l : List (String × Record), (∀ kv ∈ l, ∃ u, kv.2 = .user u) →
      collectDonors l = .ok (l.filterMap fun kv => match kv.2 with
        | .user u => if u.Role = "donor" then some ⟨u.ID, u.Name, u.TotalDonation⟩ else none
        | _ => none) := by
  intro l
  induction l with
  | nil => intro _; rfl
  | cons hd rest ih =>
    intro h
    obtain ⟨k, e⟩ := hd
    obtain ⟨u, hu⟩ := h (k, e) (List.mem_cons_self _ _)
    simp only [] at hu
    subst hu
    have hrest := ih (fun kv hkv => h kv (List.mem_cons_of_mem _ hkv))
    unfold collectDonors
    rw [hrest]
    by_cases hr : u.Role = "donor"
    · simp [hr]
    · simp [hr]

/-- In a well-keyed ledger the scan of QueryTopDonors holds the user records, all
of them, each as often as it is stored. -/
theorem scan_users {s : Ledger} (hwf : WellKeyed s) :
    (s.GetStateByRange "user:" "user;").Perm
      (s.State.filter fun kv => match kv.2 with
        | .user _ => true
        | _ => false) := by
  unfold Ledger.GetStateByRange
  refine (List.perm_insertionSort _ _).trans ?_
  apply List.Perm.of_eq
  apply List.filter_congr
  intro kv hkv
  have hk := hwf kv hkv
  obtain ⟨k, e⟩ := kv
  simp only [] at hk
  subst hk
  cases e with
  | user u => simpa [keyOf] using userKey_scanned u.ID
  | campaign c => simpa [keyOf] using campKey_not_scanned c.ID
  | donation d => simpa [keyOf] using donKey_not_scanned d.ID

/-- C39: in a ledger whose records are stored under the keys of their own ids (as
in every ledger the chaincode builds), with `sort.Slice` returning a permutation
of its input in which no later element has a larger amount than an earlier one,
QueryTopDonors succeeds; its result has min(10, d) entries, d being the number of
stored users with role 'donor'; together with a list of left-out entries it is a
rearrangement of the (id, name, total donation) triples of the stored donors, so
every entry is that of a distinct stored donor; the amounts of the result do not
increase; and every left-out donor has a total of at most that of every donor
returned. -/
theorem QueryTopDonors_spec (sortSlice : List donorInfo → List donorInfo)
    (hperm : ∀ l, (sortSlice l).Perm l)
    (hsorted : ∀ l, (sortSlice l).Pairwise fun a b => ¬ b.Amount > a.Amount)
    (ctx : Ctx) (s : Ledger) (hwf : WellKeyed s) :
    ∃ result rest,
      QueryTopDonors sortSlice ctx s = .ok result ∧
      (result ++ rest).Perm ((storedDonors s).map fun u => ⟨u.ID, u.Name, u.TotalDonation⟩) ∧
      result.length = min 10 (storedDonors s).length ∧
      result.Pairwise (fun a b => b.Amount ≤ a.Amount) ∧
      ∀ r ∈ result, ∀ d ∈ rest, d.Amount ≤ r.Amount := by
  have hscan := scan_users hwf
  have husers : ∀ kv ∈ s.GetStateByRange "user:" "user;", ∃ u, kv.2 = Record.user u := by
    intro kv hkv
    have hmem := hscan.subset hkv
    rw [List.mem_filter] at hmem
    obtain ⟨k, e⟩ := kv
    cases e with
    | user u => exact ⟨u, rfl⟩
    | campaign c => simp at hmem
    | donation d => simp at hmem
  have hcollect := collectDonors_users _ husers
  -- the donors collected are, up to order, the stored donors
  have hdonors : ((s.GetStateByRange "user:" "user;").filterMap fun kv => match kv.2 with
      | .user u => if u.Role = "donor" then some (⟨u.ID, u.Name, u.TotalDonation⟩ : donorInfo)
          else none
      | _ => none).Perm ((storedDonors s).map fun u => ⟨u.ID, u.Name, u.TotalDonation⟩) := by
    refine (hscan.filterMap _).trans ?_
    apply List.Perm.of_eq
    unfold storedDonors
    rw [List.map_filterMap]
    generalize s.State = l
    induction l with
    | nil => rfl
    | cons hd tl ih =>
      obtain ⟨k, e⟩ := hd
      cases e with
      | user u =>
        by_cases hr : u.Role = "donor"
        · simp [List.filter_cons, List.filterMap_cons, hr, ih]
        · simp [List.filter_cons, List.filterMap_cons, hr, ih]
      | campaign c => simp [List.filter_cons, List.filterMap_cons, ih]
      | donation d => simp [List.filter_cons, List.filterMap_cons, ih]
  generalize hD : ((s.GetStateByRange "user:" "user;").filterMap fun kv => match kv.2 with
      | .user u => if u.Role = "donor" then some (⟨u.ID, u.Name, u.TotalDonation⟩ : donorInfo)
          else none
      | _ => none) = donors at hcollect hdonors
  have hlen : (sortSlice donors).length = (storedDonors s).length := by
    rw [(hperm donors).length_eq, hdonors.length_eq, List.length_map]
  have hQ : QueryTopDonors sortSlice ctx s = .ok ((sortSlice donors).take
      (if (sortSlice donors).length < 10 then (sortSlice donors).length else 10)) := by
    unfold QueryTopDonors
    rw [hcollect]
  refine ⟨_, (sortSlice donors).drop
    (if (sortSlice donors).length < 10 then (sortSlice donors).length else 10), hQ, ?_, ?_, ?_, ?_⟩
  · rw [List.take_append_drop]
    exact (hperm donors).trans hdonors
  · rw [List.length_take, ← hlen]
    split <;> omega
  · have hp := (hsorted donors).sublist (List.take_sublist
      (if (sortSlice donors).length < 10 then (sortSlice donors).length else 10) _)
    exact hp.imp (fun h => not_lt.mp h)
  · intro r hr d hd
    have hp := hsorted donors
    rw [← List.take_append_drop
      (if (sortSlice donors).length < 10 then (sortSlice donors).length else 10)
      (sortSlice donors), List.pairwise_append] at hp
    exact not_lt.mp (hp.2.2 r hr d hd)


theorem mem_insertRecord {key : String} {value : Record} {l : List (String × Record)}
    {kv : String × Record} (h : kv ∈ insertRecord key value l) : kv = (key, value) ∨ kv ∈ l := by
  induction l with
  | nil =>
    simp [insertRecord] at h
    exact Or.inl h
  | cons hd rest ih =>
    obtain ⟨k, v⟩ := hd
    by_cases hk : k = key
    · simp [insertRecord, hk] at h
      rcases h with h | h
      · exact Or.inl h
      · exact Or.inr (List.mem_cons_of_mem _ h)
    · simp [insertRecord, hk] at h
      rcases h with h | h
      · exact Or.inr (h ▸ List.mem_cons_self _ _)
      · rcases ih h with h2 | h2
        · exact Or.inl h2
        · exact Or.inr (List.mem_cons_of_mem _ h2)

theorem lookupRecord_mem {key : String} {value : Record} {l : List (String × Record)}
    (h : lookupRecord key l = some value) : (key, value) ∈ l := by
  induction l with
  | nil => simp [lookupRecord] at h
  | cons hd rest ih =>
    obtain ⟨k, v⟩ := hd
    by_cases hk : k = key
    · simp [lookupRecord, hk] at h
      subst hk; subst h
      exact List.mem_cons_self _ _
    · simp [lookupRecord, hk] at h
      exact List.mem_cons_of_mem _ (ih h)

theorem WellKeyed_PutState {s : Ledger} (h : WellKeyed s) (key : String) (value : Record)
    (hv : key = keyOf value) : WellKeyed (s.PutState key value) := by
  intro kv hkv
  rcases mem_insertRecord hkv with h1 | h1
  · rw [h1]; exact hv
  · exact h kv h1

theorem WellKeyed_stored {s : Ledger} (h : WellKeyed s) {key : String} {value : Record}
    (hv : s.GetState key = some value) : key = keyOf value :=
  h (key, value) (lookupRecord_mem hv)

theorem WellKeyed_invoke {s : Ledger} (h : WellKeyed s)
    (unmarshalProfile : String → Except String UserProfile) (ctx : Ctx) (call : Call) :
    WellKeyed (invoke unmarshalProfile ctx s call).ledger := by
  cases call with
  | registerUser id name role pub profile =>
    simp only [invoke, RegisterUser]
    split
    · exact h
    · split
      · exact h
      · exact WellKeyed_PutState h _ _ rfl
  | createCampaign id title desc target hospital image =>
    simp only [invoke, CreateCampaign]
    split
    · exact h
    · exact WellKeyed_PutState h _ _ rfl
  | donate d c u amount anon =>
    simp only [invoke, Donate]
    split
    · exact h
    · rename_i camp hc
      have hk0 : "camp:" ++ c = keyOf (.campaign camp) := WellKeyed_stored h hc
      have hk : "camp:" ++ c =
          keyOf (.campaign { camp with Raised := wrapInt (camp.Raised + amount) }) := hk0
      have h2 : WellKeyed ((s.PutState ("don:" ++ d)
          (.donation ⟨d, c, u, amount, anon, (timeUnix ctx.Seconds ctx.Nanos).sec⟩)).PutState
          ("camp:" ++ c) (.campaign { camp with Raised := wrapInt (camp.Raised + amount) })) :=
        WellKeyed_PutState (WellKeyed_PutState h ("don:" ++ d)
          (.donation ⟨d, c, u, amount, anon, (timeUnix ctx.Seconds ctx.Nanos).sec⟩) rfl) _ _ hk
      split
      · exact h2
      · rename_i user hu
        have hk1 : "user:" ++ u = keyOf (.user user) := WellKeyed_stored h2 hu
        have hk2 : "user:" ++ u =
            keyOf (.user { user with Donations := user.Donations ++ [d],
                                     TotalDonation := wrapInt (user.TotalDonation + amount) }) := hk1
        exact WellKeyed_PutState h2 _ _ hk2
      · exact h2
    · exact h

/-- Every ledger the three operations build from the empty one is well keyed. -/
theorem WellKeyed_run (unmarshalProfile : String → Except String UserProfile) :
    ∀ (calls : List (Ctx × Call)) (s : Ledger), WellKeyed s →
      WellKeyed (run unmarshalProfile calls s) := by
  intro calls
  induction calls with
  | nil => intro s h; exact h
  | cons hd rest ih =>
    intro s h
    obtain ⟨ctx, call⟩ := hd
    exact ih _ (WellKeyed_invoke h unmarshalProfile ctx call)

end Charity

/-! ## The charity chaincode: bookkeeping -/

namespace Charity

theorem lookupRecord_insertRecord_self (key : String) (value : Record)
    (l : List (String × Record)) : lookupRecord key (insertRecord key value l) = some value := by
  induction l with
  | nil => simp [insertRecord, lookupRecord]
  | cons kv rest ih =>
    obtain ⟨k, v⟩ := kv
    by_cases h : k = key
    · simp [insertRecord, lookupRecord, h]
    · simp [insertRecord, lookupRecord, h, ih]

theorem lookupRecord_insertRecord_ne {key key' : String} (value : Record)
    (l : List (String × Record)) (h : key' ≠ key) :
    lookupRecord key' (insertRecord key value l) = lookupRecord key' l := by
  induction l with
  | nil => simp [insertRecord, lookupRecord, Ne.symm h]
  | cons kv rest ih =>
    obtain ⟨k, v⟩ := kv
    by_cases hk : k = key
    · subst hk
      simp [insertRecord, lookupRecord, Ne.symm h]
    · by_cases hk' : k = key'
      · subst hk'
        simp [insertRecord, lookupRecord, hk]
      · simp [insertRecord, lookupRecord, hk, hk', ih]

theorem Ledger_GetState_PutState_self (s : Ledger) (key : String) (value : Record) :
    (s.PutState key value).GetState key = some value :=
  lookupRecord_insertRecord_self key value s.State

theorem Ledger_GetState_PutState_ne (s : Ledger) {key key' : String} (value : Record)
    (h : key' ≠ key) : (s.PutState key value).GetState key' = s.GetState key' :=
  lookupRecord_insertRecord_ne value s.State h

/-- A stored key stays stored when a value is put. -/
theorem Ledger_GetState_PutState_some (s : Ledger) (key key' : String) (value : Record)
    (h : s.GetState key' ≠ none) : (s.PutState key value).GetState key' ≠ none := by
  by_cases hk : key' = key
  · subst hk
    rw [Ledger_GetState_PutState_self]
    exact fun h2 => by cases h2
  · rw [Ledger_GetState_PutState_ne s value hk]
    exact h

/-- Putting a value under a key that is not stored appends the binding. -/
theorem insertRecord_absent (key : String) (value : Record) :
    ∀ l : List (String × Record), lookupRecord key l = none →
      insertRecord key value l = l ++ [(key, value)] := by
  intro l
  induction l with
  | nil => intro _; rfl
  | cons kv rest ih =>
    intro h
    obtain ⟨k, v⟩ := kv
    by_cases hk : k = key
    · simp [lookupRecord, hk] at h
    · simp only [lookupRecord, hk, if_false] at h
      simp [insertRecord, hk, ih h]

theorem storedDonations_PutState_absent (s : Ledger) (key : String) (value : Record)
    (h : s.GetState key = none) :
    storedDonations (s.PutState key value) = storedDonations s ++
      (match value with
        | .donation d => [d]
        | _ => []) := by
  unfold storedDonations Ledger.PutState
  simp only []
  rw [insertRecord_absent key value s.State h, List.filterMap_append]
  cases value <;> rfl

/-- Replacing a record that is no donation by a record that is no donation leaves
the stored donations as they are. -/
theorem storedDonations_PutState_replace (s : Ledger) (key : String) (old value : Record)
    (h : s.GetState key = some old) (hold : ∀ d, old ≠ .donation d)
    (hvalue : ∀ d, value ≠ .donation d) :
    storedDonations (s.PutState key value) = storedDonations s := by
  unfold storedDonations Ledger.PutState
  unfold Ledger.GetState at h
  simp only []
  generalize s.State = l at h
  induction l with
  | nil => simp [lookupRecord] at h
  | cons kv rest ih =>
    obtain ⟨k, v⟩ := kv
    by_cases hk : k = key
    · simp only [lookupRecord, hk, if_true] at h
      have hv : v = old := Option.some.inj h
      have hold2 : ∀ d, v ≠ .donation d := fun d => hv ▸ hold d
      simp only [insertRecord, hk, if_true, List.filterMap_cons]
    · simp only [lookupRecord, hk, if_false] at h
      simp only [insertRecord, hk, if_false, List.filterMap_cons, ih h]

theorem userKey_ne_campKey (u c : String) : "user:" ++ u ≠ "camp:" ++ c :=
  append_ne_of_take "user:" "camp:" u c 1 (by decide) (by decide) (by decide)

theorem userKey_ne_donKey (u d : String) : "user:" ++ u ≠ "don:" ++ d :=
  append_ne_of_take "user:" "don:" u d 1 (by decide) (by decide) (by decide)

theorem campKey_ne_donKey (c d : String) : "camp:" ++ c ≠ "don:" ++ d :=
  append_ne_of_take "camp:" "don:" c d 1 (by decide) (by decide) (by decide)

theorem wrapInt_add_wrapInt (a b : Int) : wrapInt (wrapInt a + b) = wrapInt (a + b) := by
  unfold wrapInt
  omega


theorem raisedSum_congr {s s' : Ledger} (h : storedDonations s' = storedDonations s)
    (cid : String) : raisedSum s' cid = raisedSum s cid := by
  unfold raisedSum
  rw [h]

theorem donatedSum_congr {s s' : Ledger} (h : storedDonations s' = storedDonations s)
    (uid : String) : donatedSum s' uid = donatedSum s uid := by
  unfold donatedSum
  rw [h]

theorem raisedSum_append {s s' : Ledger} {d : Donation}
    (h : storedDonations s' = storedDonations s ++ [d]) (cid : String) :
    raisedSum s' cid = raisedSum s cid + (if d.CampaignID = cid then d.Amount else 0) := by
  unfold raisedSum
  rw [h, List.filter_append, List.map_append, List.sum_append]
  by_cases hc : d.CampaignID = cid
  · simp [hc]
  · simp [hc]

theorem donatedSum_append {s s' : Ledger} {d : Donation}
    (h : storedDonations s' = storedDonations s ++ [d]) (uid : String) :
    donatedSum s' uid = donatedSum s uid + (if d.DonorID = uid then d.Amount else 0) := by
  unfold donatedSum
  rw [h, List.filter_append, List.map_append, List.sum_append]
  by_cases hc : d.DonorID = uid
  · simp [hc]
  · simp [hc]

/-- No stored donation names an id whose key is not stored. -/
theorem raisedSum_of_absent {s : Ledger} (hb : Booked s) {cid : String}
    (h : s.GetState ("camp:" ++ cid) = none) : raisedSum s cid = 0 := by
  unfold raisedSum
  have hnil : (storedDonations s).filter (fun d => d.CampaignID = cid) = [] := by
    rw [List.filter_eq_nil_iff]
    intro d hd hc
    have hc2 : d.CampaignID = cid := by simpa using hc
    exact (hb.2.2 d hd).1 (hc2 ▸ h)
  rw [hnil]
  rfl

theorem donatedSum_of_absent {s : Ledger} (hb : Booked s) {uid : String}
    (h : s.GetState ("user:" ++ uid) = none) : donatedSum s uid = 0 := by
  unfold donatedSum
  have hnil : (storedDonations s).filter (fun d => d.DonorID = uid) = [] := by
    rw [List.filter_eq_nil_iff]
    intro d hd hc
    have hc2 : d.DonorID = uid := by simpa using hc
    exact (hb.2.2 d hd).2 (hc2 ▸ h)
  rw [hnil]
  rfl

theorem Booked_emptyLedger : Booked emptyLedger := by
  refine ⟨?_, ?_, ?_⟩
  · intro cid c h
    cases h
  · intro uid u h
    cases h
  · intro d hd
    cases hd

theorem Booked_RegisterUser {s : Ledger} (hb : Booked s)
    (unmarshalProfile : String → Except String UserProfile) (ctx : Ctx)
    (id name role : String) (pub : Bool) (profile : String) :
    Booked (RegisterUser unmarshalProfile ctx s id name role pub profile).ledger := by
  unfold RegisterUser
  simp only []
  cases hg : s.GetState ("user:" ++ id) with
  | some e => exact hb
  | none =>
    simp only []
    cases hp : unmarshalProfile profile with
    | error e => exact hb
    | ok p =>
      simp only []
      have hd := storedDonations_PutState_absent s ("user:" ++ id)
        (.user ⟨id, name, role, p, pub, [], 0⟩) hg
      simp only [List.append_nil] at hd
      refine ⟨?_, ?_, ?_⟩
      · intro cid c hc
        rw [Ledger_GetState_PutState_ne s _ (userKey_ne_campKey id cid).symm] at hc
        rw [raisedSum_congr hd]
        exact hb.1 cid c hc
      · intro uid u hu
        by_cases hid : uid = id
        · subst hid
          rw [Ledger_GetState_PutState_self] at hu
          cases hu
          rw [donatedSum_congr hd, donatedSum_of_absent hb hg]
          exact ⟨rfl, show (0 : Int) = wrapInt 0 by decide⟩
        · rw [Ledger_GetState_PutState_ne s _
            (fun hk => hid (string_append_left_cancel hk))] at hu
          rw [donatedSum_congr hd]
          exact hb.2.1 uid u hu
      · intro d hdm
        rw [hd] at hdm
        exact ⟨Ledger_GetState_PutState_some s _ _ _ (hb.2.2 d hdm).1,
          Ledger_GetState_PutState_some s _ _ _ (hb.2.2 d hdm).2⟩

theorem Booked_CreateCampaign {s : Ledger} (hb : Booked s) (ctx : Ctx)
    (id title desc : String) (target : Int) (hospital image : String) :
    Booked (CreateCampaign ctx s id title desc target hospital image).ledger := by
  unfold CreateCampaign
  simp only []
  cases hg : s.GetState ("camp:" ++ id) with
  | some e => exact hb
  | none =>
    simp only []
    have hd := storedDonations_PutState_absent s ("camp:" ++ id)
      (.campaign ⟨id, title, desc, target, 0, hospital, image, []⟩) hg
    simp only [List.append_nil] at hd
    refine ⟨?_, ?_, ?_⟩
    · intro cid c hc
      by_cases hid : cid = id
      · subst hid
        rw [Ledger_GetState_PutState_self] at hc
        cases hc
        rw [raisedSum_congr hd, raisedSum_of_absent hb hg]
        exact ⟨rfl, show (0 : Int) = wrapInt 0 by decide⟩
      · rw [Ledger_GetState_PutState_ne s _
          (fun hk => hid (string_append_left_cancel hk))] at hc
        rw [raisedSum_congr hd]
        exact hb.1 cid c hc
    · intro uid u hu
      rw [Ledger_GetState_PutState_ne s _ (userKey_ne_campKey uid id)] at hu
      rw [donatedSum_congr hd]
      exact hb.2.1 uid u hu
    · intro d hdm
      rw [hd] at hdm
      exact ⟨Ledger_GetState_PutState_some s _ _ _ (hb.2.2 d hdm).1,
        Ledger_GetState_PutState_some s _ _ _ (hb.2.2 d hdm).2⟩


/-- What a Donate with a fresh donation id and a registered donor does: nothing when
the campaign cannot be read, and otherwise the three writes. -/
theorem Donate_fresh {s : Ledger} (ctx : Ctx) (d c u : String) (amount : Int) (anon : Bool)
    (hfresh : FreshDonation s (.donate d c u amount anon)) :
    (Donate ctx s d c u amount anon).ledger = s ∨
    ∃ camp user, s.GetState ("camp:" ++ c) = some (.campaign camp) ∧
      s.GetState ("user:" ++ u) = some (.user user) ∧
      (Donate ctx s d c u amount anon).err = none ∧
      (Donate ctx s d c u amount anon).ledger =
        ((s.PutState ("don:" ++ d)
            (.donation ⟨d, c, u, amount, anon, (timeUnix ctx.Seconds ctx.Nanos).sec⟩)).PutState
          ("camp:" ++ c) (.campaign { camp with Raised := wrapInt (camp.Raised + amount) })).PutState
          ("user:" ++ u)
          (.user { user with Donations := user.Donations ++ [d],
                             TotalDonation := wrapInt (user.TotalDonation + amount) }) := by
  obtain ⟨-, huser⟩ := hfresh
  cases hc : s.GetState ("camp:" ++ c) with
  | none => left; simp [Donate, hc]
  | some e =>
    cases e with
    | user x => left; simp [Donate, hc]
    | donation x => left; simp [Donate, hc]
    | campaign camp =>
      right
      have hu := huser (by rw [hc]; exact fun h => by cases h)
      cases hg : s.GetState ("user:" ++ u) with
      | none => rw [hg] at hu; cases hu
      | some e2 =>
        cases e2 with
        | campaign x => rw [hg] at hu; cases hu
        | donation x => rw [hg] at hu; cases hu
        | user user =>
          have hg2 : ((s.PutState ("don:" ++ d)
              (.donation ⟨d, c, u, amount, anon, (timeUnix ctx.Seconds ctx.Nanos).sec⟩)).PutState
              ("camp:" ++ c)
              (.campaign { camp with Raised := wrapInt (camp.Raised + amount) })).GetState
              ("user:" ++ u) = some (.user user) := by
            rw [Ledger_GetState_PutState_ne _ _ (userKey_ne_campKey u c),
              Ledger_GetState_PutState_ne _ _ (userKey_ne_donKey u d), hg]
          refine ⟨camp, user, rfl, rfl, ?_, ?_⟩
          · simp only [Donate, hc, hg2]
          · simp only [Donate, hc, hg2]

theorem Booked_Donate {s : Ledger} (hb : Booked s) (ctx : Ctx) (d c u : String) (amount : Int)
    (anon : Bool) (hfresh : FreshDonation s (.donate d c u amount anon)) :
    Booked (Donate ctx s d c u amount anon).ledger := by
  rcases Donate_fresh ctx d c u amount anon hfresh with h0 | ⟨camp, user, hc, hu, -, hl⟩
  · rw [h0]; exact hb
  rw [hl]
  obtain ⟨hnew, -⟩ := hfresh
  -- the stored donations after the three writes
  have hd1 := storedDonations_PutState_absent s ("don:" ++ d)
    (.donation ⟨d, c, u, amount, anon, (timeUnix ctx.Seconds ctx.Nanos).sec⟩) hnew
  simp only [] at hd1
  have hc1 : (s.PutState ("don:" ++ d)
      (.donation ⟨d, c, u, amount, anon, (timeUnix ctx.Seconds ctx.Nanos).sec⟩)).GetState
      ("camp:" ++ c) = some (.campaign camp) := by
    rw [Ledger_GetState_PutState_ne _ _ (campKey_ne_donKey c d), hc]
  have hd2 := storedDonations_PutState_replace _ ("camp:" ++ c) (.campaign camp)
    (.campaign { camp with Raised := wrapInt (camp.Raised + amount) }) hc1
    (fun x h => by cases h) (fun x h => by cases h)
  have hu2 : ((s.PutState ("don:" ++ d)
      (.donation ⟨d, c, u, amount, anon, (timeUnix ctx.Seconds ctx.Nanos).sec⟩)).PutState
      ("camp:" ++ c)
      (.campaign { camp with Raised := wrapInt (camp.Raised + amount) })).GetState
      ("user:" ++ u) = some (.user user) := by
    rw [Ledger_GetState_PutState_ne _ _ (userKey_ne_campKey u c),
      Ledger_GetState_PutState_ne _ _ (userKey_ne_donKey u d), hu]
  have hd3 := storedDonations_PutState_replace _ ("user:" ++ u) (.user user)
    (.user { user with Donations := user.Donations ++ [d],
                       TotalDonation := wrapInt (user.TotalDonation + amount) }) hu2
    (fun x h => by cases h) (fun x h => by cases h)
  have hd : storedDonations (((s.PutState ("don:" ++ d)
      (.donation ⟨d, c, u, amount, anon, (timeUnix ctx.Seconds ctx.Nanos).sec⟩)).PutState
      ("camp:" ++ c) (.campaign { camp with Raised := wrapInt (camp.Raised + amount) })).PutState
      ("user:" ++ u)
      (.user { user with Donations := user.Donations ++ [d],
                         TotalDonation := wrapInt (user.TotalDonation + amount) })) =
      storedDonations s ++ [⟨d, c, u, amount, anon, (timeUnix ctx.Seconds ctx.Nanos).sec⟩] := by
    rw [hd3, hd2, hd1]
  refine ⟨?_, ?_, ?_⟩
  · intro cid x hx
    rw [Ledger_GetState_PutState_ne _ _ (userKey_ne_campKey u cid).symm] at hx
    rw [raisedSum_append hd]
    simp only []
    by_cases hid : cid = c
    · subst hid
      rw [Ledger_GetState_PutState_self] at hx
      cases hx
      obtain ⟨h1, h2⟩ := hb.1 cid camp hc
      refine ⟨h1, ?_⟩
      simp only [if_true]
      rw [h2, wrapInt_add_wrapInt]
    · rw [Ledger_GetState_PutState_ne _ _ (fun hk => hid (string_append_left_cancel hk)),
        Ledger_GetState_PutState_ne _ _ (campKey_ne_donKey cid d)] at hx
      obtain ⟨h1, h2⟩ := hb.1 cid x hx
      refine ⟨h1, ?_⟩
      rw [if_neg (fun h => hid h.symm), add_zero]
      exact h2
  · intro uid x hx
    rw [donatedSum_append hd]
    simp only []
    by_cases hid : uid = u
    · subst hid
      rw [Ledger_GetState_PutState_self] at hx
      cases hx
      obtain ⟨h1, h2⟩ := hb.2.1 uid user hu
      refine ⟨h1, ?_⟩
      simp only [if_true]
      rw [h2, wrapInt_add_wrapInt]
    · rw [Ledger_GetState_PutState_ne _ _ (fun hk => hid (string_append_left_cancel hk)),
        Ledger_GetState_PutState_ne _ _ (userKey_ne_campKey uid c),
        Ledger_GetState_PutState_ne _ _ (userKey_ne_donKey uid d)] at hx
      obtain ⟨h1, h2⟩ := hb.2.1 uid x hx
      refine ⟨h1, ?_⟩
      rw [if_neg (fun h => hid h.symm), add_zero]
      exact h2
  · intro x hx
    rw [hd, List.mem_append] at hx
    have hkeep : ∀ key, s.GetState key ≠ none →
        (((s.PutState ("don:" ++ d)
          (.donation ⟨d, c, u, amount, anon, (timeUnix ctx.Seconds ctx.Nanos).sec⟩)).PutState
          ("camp:" ++ c)
          (.campaign { camp with Raised := wrapInt (camp.Raised + amount) })).PutState
          ("user:" ++ u)
          (.user { user with Donations := user.Donations ++ [d],
                             TotalDonation := wrapInt (user.TotalDonation + amount) })).GetState
          key ≠ none := by
      intro key hk
      apply Ledger_GetState_PutState_some
      apply Ledger_GetState_PutState_some
      apply Ledger_GetState_PutState_some
      exact hk
    rcases hx with hx | hx
    · exact ⟨hkeep _ (hb.2.2 x hx).1, hkeep _ (hb.2.2 x hx).2⟩
    · rw [List.mem_singleton] at hx
      subst hx
      exact ⟨hkeep _ (by rw [hc]; exact fun h => by cases h),
        hkeep _ (by rw [hu]; exact fun h => by cases h)⟩

theorem Booked_run (unmarshalProfile : String → Except String UserProfile) :
    ∀ (calls : List (Ctx × Call)) (s : Ledger), Booked s →
      FreshDonations unmarshalProfile calls s → Booked (run unmarshalProfile calls s) := by
  intro calls
  induction calls with
  | nil => intro s h _; exact h
  | cons hd rest ih =>
    intro s h hf
    obtain ⟨ctx, call⟩ := hd
    obtain ⟨hf1, hf2⟩ := hf
    apply ih _ _ hf2
    cases call with
    | registerUser id name role pub profile =>
      exact Booked_RegisterUser h unmarshalProfile ctx id name role pub profile
    | createCampaign id title desc target hospital image =>
      exact Booked_CreateCampaign h ctx id title desc target hospital image
    | donate d c u amount anon => exact Booked_Donate h ctx d c u amount anon hf1

/-- C40 (amended): in every state reached from the empty ledger by RegisterUser,
CreateCampaign and Donate calls in which every Donate uses a donationId that is
not stored yet and, when its campaign is stored, names a registered donor, each
stored campaign carries its own id and its Raised is the sum of Amount over the
stored donations to it, reduced to the 64-bit range (so it is that sum whenever
the sum is an `int64`), and each stored user carries its own id and its
TotalDonation is likewise the sum over the stored donations of that user. -/
theorem bookkeeping (unmarshalProfile : String → Except String UserProfile)
    (calls : List (Ctx × Call)) (hfresh : FreshDonations unmarshalProfile calls emptyLedger) :
    (∀ cid c, (run unmarshalProfile calls emptyLedger).GetState ("camp:" ++ cid) =
        some (.campaign c) →
      c.ID = cid ∧
      c.Raised = wrapInt (raisedSum (run unmarshalProfile calls emptyLedger) c.ID) ∧
      (IsInt64 (raisedSum (run unmarshalProfile calls emptyLedger) c.ID) →
        c.Raised = raisedSum (run unmarshalProfile calls emptyLedger) c.ID)) ∧
    (∀ uid u, (run unmarshalProfile calls emptyLedger).GetState ("user:" ++ uid) =
        some (.user u) →
      u.ID = uid ∧
      u.TotalDonation = wrapInt (donatedSum (run unmarshalProfile calls emptyLedger) u.ID) ∧
      (IsInt64 (donatedSum (run unmarshalProfile calls emptyLedger) u.ID) →
        u.TotalDonation = donatedSum (run unmarshalProfile calls emptyLedger) u.ID)) := by
  have hb := Booked_run unmarshalProfile calls emptyLedger Booked_emptyLedger hfresh
  constructor
  · intro cid c hc
    obtain ⟨h1, h2⟩ := hb.1 cid c hc
    rw [h1]
    exact ⟨rfl, h2, fun h64 => by rw [h2, wrapInt_of_isInt64 h64]⟩
  · intro uid u hu
    obtain ⟨h1, h2⟩ := hb.2.1 uid u hu
    rw [h1]
    exact ⟨rfl, h2, fun h64 => by rw [h2, wrapInt_of_isInt64 h64]⟩


theorem insertionSortSlice_perm (l : List donorInfo) : (insertionSortSlice l).Perm l :=
  List.perm_insertionSort _ l

theorem insertionSortSlice_sorted (l : List donorInfo) :
    (insertionSortSlice l).Pairwise fun a b => ¬ b.Amount > a.Amount := by
  haveI : IsTotal donorInfo (fun a b => b.Amount ≤ a.Amount) := ⟨fun a b => le_total _ _⟩
  haveI : IsTrans donorInfo (fun a b => b.Amount ≤ a.Amount) :=
    ⟨fun a b c h1 h2 => le_trans h2 h1⟩
  have h := List.sorted_insertionSort (fun a b : donorInfo => b.Amount ≤ a.Amount) l
  exact List.Pairwise.imp (fun h2 => not_lt.mpr h2) h

set_option maxRecDepth 100000 in
/-- C39, instance: twelve donors and a hospital that has donated more than any of
them; the ten largest donors are returned, the hospital is not. -/
theorem QueryTopDonors_spec_witness :
    (storedDonors crowdLedger).length = 12 ∧
    QueryTopDonors insertionSortSlice ctx0 crowdLedger =
      .ok [⟨"kim", "Kim", 8000⟩, ⟨"fay", "Fay", 7000⟩, ⟨"ben", "Ben", 1200⟩, ⟨"dan", "Dan", 1200⟩, ⟨"hal", "Hal", 640⟩, ⟨"ann", "Ann", 500⟩, ⟨"cat", "Cat", 300⟩, ⟨"ida", "Ida", 90⟩, ⟨"eve", "Eve", 50⟩, ⟨"jon", "Jon", 15⟩] ∧
    ∃ result rest,
      QueryTopDonors insertionSortSlice ctx0 crowdLedger = .ok result ∧
      (result ++ rest).Perm
        ((storedDonors crowdLedger).map fun u => ⟨u.ID, u.Name, u.TotalDonation⟩) ∧
      result.length = min 10 (storedDonors crowdLedger).length ∧
      result.Pairwise (fun a b => b.Amount ≤ a.Amount) ∧
      ∀ r ∈ result, ∀ d ∈ rest, d.Amount ≤ r.Amount :=
  ⟨by decide!, by decide!,
    QueryTopDonors_spec insertionSortSlice insertionSortSlice_perm insertionSortSlice_sorted
      ctx0 crowdLedger (by decide!)⟩

set_option maxRecDepth 100000 in
/-- C40, instance: three donations to two campaigns by two donors. -/
theorem bookkeeping_witness :
    sampleLedger.GetState "camp:camp1" =
      some (.campaign ⟨"camp1", "Help Patient X", "", 20000, 6000, "hospital1", "", []⟩) ∧
    raisedSum sampleLedger "camp1" = 6000 ∧
    (∀ c, sampleLedger.GetState ("camp:" ++ "camp1") = some (.campaign c) →
      c.Raised = raisedSum sampleLedger c.ID) ∧
    (∀ u, sampleLedger.GetState ("user:" ++ "donor2") = some (.user u) →
      u.TotalDonation = donatedSum sampleLedger u.ID) ∧
    donatedSum sampleLedger "donor2" = 8000 :=
  have h := bookkeeping sampleProfile
    [ (ctx0, .registerUser "donor1" "Alice" "donor" true ""),
      (ctx0, .registerUser "donor2" "Bob" "donor" false ""),
      (ctx0, .registerUser "donor3" "Carol" "donor" true ""),
      (ctx0, .registerUser "hospital1" "Central Hospital" "hospital" true ""),
      (ctx0, .createCampaign "camp1" "Help Patient X" "" 20000 "hospital1" ""),
      (ctx0, .createCampaign "camp2" "Support Child Y" "" 30000 "hospital1" ""),
      (ctx0, .donate "don1" "camp1" "donor1" 5000 false),
      (ctx0, .donate "don2" "camp2" "donor2" 7000 true),
      (ctx0, .donate "don3" "camp1" "donor2" 1000 true) ] (by decide!)
  ⟨by decide!, by decide!,
    fun c hc => by
      obtain ⟨h1, -, h3⟩ := h.1 "camp1" c hc
      apply h3
      rw [h1]
      decide!,
    fun u hu => by
      obtain ⟨h1, -, h3⟩ := h.2 "donor2" u hu
      apply h3
      rw [h1]
      decide!,
    by decide!⟩

set_option maxRecDepth 100000 in
/-- C40 as stated fails: after a donation of 100 under the id 'don1', a second
successful Donate under the same id with amount 50 leaves the campaign's Raised
and the donor's TotalDonation at 150 while the only stored donation has amount
50; and after a donation of 9223372036854775807 a successful donation of 1
leaves Raised at -9223372036854775808 while the stored amounts add up to
9223372036854775808. -/
theorem bookkeeping_counterexample :
    ((Donate ctx0 oneDonationLedger "don1" "camp1" "donor1" 50 false).err = none ∧
      (Donate ctx0 oneDonationLedger "don1" "camp1" "donor1" 50 false).ledger.GetState
          "camp:camp1" =
        some (.campaign ⟨"camp1", "Help Patient X", "", 20000, 150, "hospital1", "", []⟩) ∧
      storedDonations (Donate ctx0 oneDonationLedger "don1" "camp1" "donor1" 50 false).ledger =
        [⟨"don1", "camp1", "donor1", 50, false, 1700000000⟩] ∧
      raisedSum (Donate ctx0 oneDonationLedger "don1" "camp1" "donor1" 50 false).ledger "camp1"
        = 50 ∧
      (Donate ctx0 oneDonationLedger "don1" "camp1" "donor1" 50 false).ledger.GetState
          "user:donor1" =
        some (.user ⟨"donor1", "Alice", "donor", ⟨0, "", "", "", ""⟩, true, ["don1", "don1"],
          150⟩) ∧
      donatedSum (Donate ctx0 oneDonationLedger "don1" "camp1" "donor1" 50 false).ledger "donor1"
        = 50) ∧
    ((Donate ctx0 largeDonationLedger "don2" "camp1" "donor1" 1 false).err = none ∧
      (Donate ctx0 largeDonationLedger "don2" "camp1" "donor1" 1 false).ledger.GetState
          "camp:camp1" =
        some (.campaign ⟨"camp1", "Help Patient X", "", 20000, -9223372036854775808,
          "hospital1", "", []⟩) ∧
      raisedSum (Donate ctx0 largeDonationLedger "don2" "camp1" "donor1" 1 false).ledger "camp1"
        = 9223372036854775808) := by
  decide!

end Charity

end Chaincode
